import Mathlib

/-!
# snapshot-operator: a shallow embedding of `snapshot-operator/operator.go`

The operator watches batch jobs and, per job event, either provisions a
persistent disk plus a claim/volume pair (`doCreate`, `createDisk`) or removes
the claim (`doDelete`, `deletePVC`).

Modelling conventions

* Go strings are Lean `String`s; `strings.Contains` and `strings.HasSuffix`
  work on the character lists.
* `sync.Map` (`snapshotsLocks`) is the list of its keys: the stored value is
  always `true` and is never read.
* Every call to the cloud API or the cluster API is appended to `calls`,
  together with the keys the registry holds at the moment the call is issued.
  The answer of the outside world is read from a `World`, indexed by the
  number of calls issued so far.
* `go f(...)` appends a `Task` to `tasks`; running a started task is the
  function of the same name (`createDisk`, `deferredDelete`).
* Loops that the source leaves unbounded take a fuel argument.
* `time.Sleep` and logging have no effect on the state and are left out.
-/

namespace SnapshotOperator

/-! ## Strings -/

/-- Go `strings.Contains` on character lists: `substr` occurs in `s`. -/
def containsChars : List Char → List Char → Bool
  | [], substr => substr.isEmpty
  | c :: cs, substr => substr.isPrefixOf (c :: cs) || containsChars cs substr

namespace strings

/-- Go `strings.Contains(s, substr)`. -/
def Contains (s substr : String) : Bool :=
  containsChars s.data substr.data

/-- Go `strings.HasSuffix(s, suffix)`. -/
def HasSuffix (s suffix : String) : Bool :=
  suffix.data.isSuffixOf s.data

end strings

/-! ## Kubernetes and GCP data -/

/-- Mirror of `v1.PersistentVolumeClaimVolumeSource` (the field read by the operator). -/
structure PersistentVolumeClaimVolumeSource where
  ClaimName : String
  deriving DecidableEq, Repr

/-- Mirror of `v1.VolumeSource`: the claim pointer is `none` when nil. -/
structure VolumeSource where
  PersistentVolumeClaim : Option PersistentVolumeClaimVolumeSource
  deriving DecidableEq, Repr

/-- Mirror of `v1.Volume`. -/
structure Volume where
  Name : String
  VolumeSource : VolumeSource
  deriving DecidableEq, Repr

/-- Mirror of `v1.PodSpec`. -/
structure PodSpec where
  Volumes : List Volume
  deriving DecidableEq, Repr

/-- Mirror of `v1.PodTemplateSpec`. -/
structure PodTemplateSpec where
  Spec : PodSpec
  deriving DecidableEq, Repr

/-- Mirror of `batchv1.JobSpec`. -/
structure JobSpec where
  Template : PodTemplateSpec
  deriving DecidableEq, Repr

/-- Mirror of `batchv1.JobStatus`: the three `int32` counters. -/
structure JobStatus where
  Active : Int
  Failed : Int
  Succeeded : Int
  deriving DecidableEq, Repr

/-- Mirror of `batchv1.Job`. `Annotations` is the Go map as an association list. -/
structure Job where
  Name : String
  Namespace : String
  Annotations : List (String × String)
  Spec : JobSpec
  Status : JobStatus
  deriving DecidableEq, Repr

/-- Go map read `m[key]` on a `map[string]string`: the zero value `""` when absent. -/
def mapIndex (m : List (String × String)) (key : String) : String :=
  match m.lookup key with
  | some v => v
  | none => ""

/-- Mirror of `compute.Snapshot` (fields read by the operator). -/
structure Snapshot where
  DiskSizeGb : Int
  SelfLink : String
  deriving DecidableEq, Repr

/-- Mirror of `compute.Disk` (fields written or read by the operator); `DiskType`
is the Go field `Type`. -/
structure Disk where
  Description : String
  Name : String
  SourceSnapshot : String
  SizeGb : Int
  DiskType : String
  Status : String
  deriving DecidableEq, Repr

/-- Mirror of `v1.PersistentVolumeClaim` as built by `createDisk`. -/
structure PersistentVolumeClaim where
  Namespace : String
  Name : String
  StorageRequest : String
  StorageClassName : String
  VolumeName : String
  AccessModes : List String
  deriving DecidableEq, Repr

/-- Mirror of `v1.PersistentVolume` as built by `createDisk`. -/
structure PersistentVolume where
  Name : String
  Capacity : String
  AccessModes : List String
  PersistentVolumeReclaimPolicy : String
  PDName : String
  FSType : String
  deriving DecidableEq, Repr

/-- A Go `error` returned by the compute client: a `*googleapi.Error` with its
HTTP code, or any other error value. -/
inductive GcpError where
  | googleapi (Code : Int)
  | other (msg : String)
  deriving DecidableEq, Repr

/-- A Go `error` returned by the cluster client, as `k8sErrors.IsNotFound` sees it. -/
inductive K8sError where
  | notFound
  | other (msg : String)
  deriving DecidableEq, Repr

/-- Wrap-around of a mathematical integer into Go's `int64`. -/
def wrapInt64 (x : Int) : Int :=
  (x + 2 ^ 63) % 2 ^ 64 - 2 ^ 63

/-! ## Calls, tasks and the operator state -/

/-- The calls the operator issues to the cloud and cluster clients. -/
inductive Call where
  | DisksGet (project zone name : String)
  | SnapshotsGet (project name : String)
  | DisksInsert (project zone : String) (disk : Disk)
  | PVCCreate (ns : String) (pvc : PersistentVolumeClaim)
  | PVCreate (pv : PersistentVolume)
  | PVCDelete (ns name : String)
  deriving DecidableEq, Repr

/-- A call together with the registry keys present when it was issued. -/
structure Issued where
  call : Call
  locks : List String
  deriving DecidableEq, Repr

/-- A goroutine started with `go`. -/
inductive Task where
  | createDisk (job : Job) (diskExists : Bool) (snapshotName pdZone pvcName pdName : String)
  | deferredDelete (job : Job) (snapshotName pvcName : String)
  deriving DecidableEq, Repr

/-- The two paths `oneRun` dispatches to. -/
inductive Path where
  | create
  | delete
  deriving DecidableEq, Repr

/-- The operator: `gcpProject` and `snapshotsLocks` are the fields of the Go
struct; `calls`, `tasks` and `entered` record what the operator did (calls
issued, goroutines started, and which of `doCreate`/`doDelete` was entered). -/
structure operator where
  gcpProject : String
  snapshotsLocks : List String
  calls : List Issued
  tasks : List Task
  entered : List (Path × Job)
  deriving DecidableEq, Repr

/-- The answers of the outside world. The first argument is the number of
calls issued before the one being answered. -/
structure World where
  disksGet : Nat → String → String → String → Except GcpError Disk
  snapshotsGet : Nat → String → String → Except GcpError Snapshot
  disksInsert : Nat → String → String → Disk → Except GcpError Unit
  pvcCreate : Nat → String → PersistentVolumeClaim → Except K8sError Unit
  pvCreate : Nat → PersistentVolume → Except K8sError Unit
  pvcDelete : Nat → String → String → Except K8sError Unit

/-- Record a call, with the registry as it is now. -/
def issue (c : Call) (op : operator) : operator :=
  { op with calls := op.calls ++ [⟨c, op.snapshotsLocks⟩] }

/-- Record a started goroutine. -/
def spawn (t : Task) (op : operator) : operator :=
  { op with tasks := op.tasks ++ [t] }

/-- Record that one of the two paths was entered. -/
def enter (p : Path) (job : Job) (op : operator) : operator :=
  { op with entered := op.entered ++ [(p, job)] }

/-! ## The processing registry -/

/-- Mirror of `markProcessing`: `snapshotsLocks.Store(snapshot, true)`. -/
def markProcessing (snapshot : String) (op : operator) : operator :=
  { op with snapshotsLocks :=
      if snapshot ∈ op.snapshotsLocks then op.snapshotsLocks
      else op.snapshotsLocks ++ [snapshot] }

/-- Mirror of `markDone`: `snapshotsLocks.Delete(snapshot)`. -/
def markDone (snapshot : String) (op : operator) : operator :=
  { op with snapshotsLocks := op.snapshotsLocks.filter (fun k => k ≠ snapshot) }

/-- Mirror of `isProcessing`: `snapshotsLocks.Load(snapshot)` found the key. -/
def isProcessing (snapshot : String) (op : operator) : Bool :=
  decide (snapshot ∈ op.snapshotsLocks)

/-! ## Helpers of `operator.go` -/

/-- A constant suffix: start from an empty disk instead of a snapshot. -/
def emptyDirSnapshotSuffix : String := "empty-disk"

/-- Mirror of `getAnnotations`: both annotations, or the error `failed`. -/
def getAnnotations (job : Job) : Except String (String × String) :=
  let snapshotName := mapIndex job.Annotations "dfuse.io/snapshot-source"
  if snapshotName = "" then .error "failed"
  else
    let pdZone := mapIndex job.Annotations "dfuse.io/snapshot-to-zone"
    if pdZone = "" then .error "failed"
    else .ok (snapshotName, pdZone)

/-- Mirror of `shouldUseSnapshotForDisk`. -/
def shouldUseSnapshotForDisk (snapshotName : String) : Bool :=
  !strings.HasSuffix snapshotName emptyDirSnapshotSuffix

/-- The loop of `diskNamesFromJob`: `pvcName` is the value carried so far. -/
def diskNamesLoop (snapshotName : String) : List Volume → String → String
  | [], pvcName => pvcName
  | vol :: vols, pvcName =>
    match vol.VolumeSource.PersistentVolumeClaim with
    | some claim =>
      let jobClaimName := claim.ClaimName
      if strings.Contains jobClaimName snapshotName then
        diskNamesLoop snapshotName vols jobClaimName
      else diskNamesLoop snapshotName vols pvcName
    | none => diskNamesLoop snapshotName vols pvcName

/-- Mirror of `diskNamesFromJob`: returns `(pvcName, pdName)`. -/
def diskNamesFromJob (job : Job) (snapshotName : String) : String × String :=
  let pvcName := diskNamesLoop snapshotName job.Spec.Template.Spec.Volumes ""
  (pvcName, pvcName)

/-- Mirror of `isNotFound`: `none` is the nil error. -/
def isNotFound (err : Option GcpError) : Bool :=
  match err with
  | some (.googleapi code) => decide (code = 404)
  | _ => false

/-- The error of a call result, `none` for nil. -/
def errOf {ε α : Type} (r : Except ε α) : Option ε :=
  match r with
  | .error e => some e
  | .ok _ => none

/-- Mirror of `k8sErrors.IsNotFound`. -/
def k8sIsNotFound (err : Option K8sError) : Bool :=
  match err with
  | some .notFound => true
  | _ => false

/-- Go `fmt.Sprintf("%dGi", n)`. -/
def sprintfGi (n : Int) : String :=
  toString n ++ "Gi"

/-! ## The delete path -/

/-- Mirror of `deletePVC`: one claim deletion call; its three outcomes
(success, NotFound, other error) are only logged. -/
def deletePVC (w : World) (ns pvcName : String) (op : operator) : operator :=
  let err := errOf (w.pvcDelete op.calls.length ns pvcName)
  let op1 := issue (.PVCDelete ns pvcName) op
  match err with
  | none => op1
  | some e => if k8sIsNotFound (some e) then op1 else op1

/-- The goroutine started by `doDelete`, run for `ticks` iterations of its
`for` loop, which has no exit. -/
def deferredDelete (w : World) (job : Job) (snapshotName pvcName : String) :
    Nat → operator → operator
  | 0, op => op
  | ticks + 1, op =>
    let op1 := if !isProcessing snapshotName op then deletePVC w job.Namespace pvcName op else op
    deferredDelete w job snapshotName pvcName ticks op1

/-- Mirror of `doDelete`. The first component is the returned error (always nil). -/
def doDelete (w : World) (job : Job) (op : operator) : Option String × operator :=
  let op0 := enter .delete job op
  match getAnnotations job with
  | .error _ => (none, op0)
  | .ok (snapshotName, _) =>
    let pvcName := (diskNamesFromJob job snapshotName).1
    let op1 :=
      if isProcessing snapshotName op0 then
        spawn (.deferredDelete job snapshotName pvcName) op0
      else op0
    let op2 := deletePVC w job.Namespace pvcName op1
    (none, op2)

/-! ## The create path -/

/-- Mirror of `doCreate`. The first component is the returned error (always nil). -/
def doCreate (w : World) (job : Job) (op : operator) : Option String × operator :=
  let op0 := enter .create job op
  match getAnnotations job with
  | .error _ => (none, op0)
  | .ok (snapshotName, pdZone) =>
    if isProcessing snapshotName op0 then (none, op0)
    else
      let pvcName := (diskNamesFromJob job snapshotName).1
      let pdName := (diskNamesFromJob job snapshotName).2
      let err := errOf (w.disksGet op0.calls.length op0.gcpProject pdZone pdName)
      let op1 := issue (.DisksGet op0.gcpProject pdZone pdName) op0
      let start := fun (diskExists : Bool) =>
        (none, spawn (.createDisk job diskExists snapshotName pdZone pvcName pdName)
          (markProcessing snapshotName op1))
      match err with
      | some e => if isNotFound (some e) then start false else (none, op1)
      | none => start true

/-- Control flow inside `createDisk`: go on with a value (`next`), `return`
(`done`), or still inside the polling loop when the fuel ran out (`pending`). -/
inductive Flow (α : Type) where
  | next (a : α) (op : operator)
  | done (op : operator)
  | pending (op : operator)

/-- The state carried by a `Flow`. -/
def Flow.state {α : Type} : Flow α → operator
  | .next _ op => op
  | .done op => op
  | .pending op => op

/-- The `compute.Disk` literal built by `createDisk`. -/
def newDisk (gcpProject snapshotName pdZone pdName sourceSnapshot : String)
    (sizeInGb : Int) : Disk :=
  { Description := "created by snapshotter, from " ++ snapshotName
    Name := pdName
    SourceSnapshot := sourceSnapshot
    SizeGb := sizeInGb
    DiskType := "projects/" ++ gcpProject ++ "/zones/" ++ pdZone ++ "/diskTypes/pd-ssd"
    Status := "" }

/-- The result of running a goroutine with fuel: `returned` is false when the
function was still in its polling loop when the fuel ran out. -/
structure Outcome where
  returned : Bool
  state : operator
  deriving DecidableEq, Repr

/-- The disk creation block of `createDisk` (`if !diskExists`): source and size,
then `Disks.Insert`. -/
def createDiskInsert (w : World) (snapshotName pdZone pdName : String)
    (op : operator) : Flow Unit :=
  let insert := fun (sourceSnapshot : String) (sizeInGb : Int) (op1 : operator) =>
    let gcpDisk := newDisk op1.gcpProject snapshotName pdZone pdName sourceSnapshot sizeInGb
    let r := w.disksInsert op1.calls.length op1.gcpProject pdZone gcpDisk
    let op2 := issue (.DisksInsert op1.gcpProject pdZone gcpDisk) op1
    match r with
    | .error _ => Flow.done op2
    | .ok _ => Flow.next () op2
  if shouldUseSnapshotForDisk snapshotName then
    let r := w.snapshotsGet op.calls.length op.gcpProject snapshotName
    let op1 := issue (.SnapshotsGet op.gcpProject snapshotName) op
    match r with
    | .error _ => Flow.done op1
    | .ok snapshot => insert snapshot.SelfLink (wrapInt64 (snapshot.DiskSizeGb + 50)) op1
  else
    insert "" 50 op

/-- The polling loop of `createDisk`, for at most `fuel` iterations: `done` when
the loop returns from `createDisk`, `next targetSize` on `break`, `pending` when
the disk was not READY in any of the `fuel` polls. -/
def createDiskPoll (w : World) (pdZone pdName : String) :
    Nat → operator → Flow String
  | 0, op => Flow.pending op
  | fuel + 1, op =>
    let r := w.disksGet op.calls.length op.gcpProject pdZone pdName
    let op1 := issue (.DisksGet op.gcpProject pdZone pdName) op
    if isNotFound (errOf r) then Flow.done op1
    else
      match r with
      | .error _ => Flow.done op1
      | .ok disk =>
        if disk.Status = "READY" then Flow.next (sprintfGi disk.SizeGb) op1
        else createDiskPoll w pdZone pdName fuel op1

/-- The `v1.PersistentVolumeClaim` literal built by `createDisk`. -/
def newClaim (job : Job) (pvcName targetSize : String) : PersistentVolumeClaim :=
  { Namespace := job.Namespace
    Name := pvcName
    StorageRequest := targetSize
    StorageClassName := ""
    VolumeName := pvcName
    AccessModes := ["ReadWriteOnce"] }

/-- The `v1.PersistentVolume` literal built by `createDisk`. -/
def newVolume (pvName pdName targetSize : String) : PersistentVolume :=
  { Name := pvName
    Capacity := targetSize
    AccessModes := ["ReadWriteOnce"]
    PersistentVolumeReclaimPolicy := "Delete"
    PDName := pdName
    FSType := "ext4" }

/-- The end of `createDisk`: the claim, then the volume. -/
def createDiskBind (w : World) (job : Job) (pvcName pdName targetSize : String)
    (op : operator) : operator :=
  let pvc := newClaim job pvcName targetSize
  let r := w.pvcCreate op.calls.length job.Namespace pvc
  let op1 := issue (.PVCCreate job.Namespace pvc) op
  match r with
  | .error _ => op1
  | .ok _ =>
    let pvName := pvcName
    let pv := newVolume pvName pdName targetSize
    let r2 := w.pvCreate op1.calls.length pv
    let op2 := issue (.PVCreate pv) op1
    match r2 with
    | .error _ => op2
    | .ok _ => op2

/-- The body of `createDisk`, without the deferred `markDone`: `next` when the
function ran to its end, `done` on an early `return`, `pending` while polling. -/
def createDiskBody (w : World) (fuel : Nat) (job : Job) (diskExists : Bool)
    (snapshotName pdZone pvcName pdName : String) (op : operator) : Flow Unit :=
  let created : Flow Unit :=
    if !diskExists then createDiskInsert w snapshotName pdZone pdName op
    else Flow.next () op
  match created with
  | .done op1 => Flow.done op1
  | .pending op1 => Flow.pending op1
  | .next _ op1 =>
    match createDiskPoll w pdZone pdName fuel op1 with
    | .pending op2 => Flow.pending op2
    | .done op2 => Flow.done op2
    | .next targetSize op2 => Flow.next () (createDiskBind w job pvcName pdName targetSize op2)

/-- Mirror of `createDisk`: the body, then, when the function returns, the
deferred `markDone(snapshotName)`. -/
def createDisk (w : World) (fuel : Nat) (job : Job) (diskExists : Bool)
    (snapshotName pdZone pvcName pdName : String) (op : operator) : Outcome :=
  match createDiskBody w fuel job diskExists snapshotName pdZone pvcName pdName op with
  | .next _ op1 => ⟨true, markDone snapshotName op1⟩
  | .done op1 => ⟨true, markDone snapshotName op1⟩
  | .pending op1 => ⟨false, op1⟩

/-! ## The watch loop -/

/-- Mirror of `watch.Event`; `EvType` is the Go field `Type`, a string. On the
jobs watch the object of a non-error event is a job. -/
structure WatchEvent where
  EvType : String
  Object : Job
  deriving DecidableEq, Repr

namespace watch

/-- Mirror of `watch.Added`. -/
def Added : String := "ADDED"
/-- Mirror of `watch.Modified`. -/
def Modified : String := "MODIFIED"
/-- Mirror of `watch.Deleted`. -/
def Deleted : String := "DELETED"
/-- Mirror of `watch.Bookmark`. -/
def Bookmark : String := "BOOKMARK"
/-- Mirror of `watch.Error`. -/
def Error : String := "ERROR"

end watch

/-- The body of the `for ev := range` loop of `oneRun` for a non-error event:
the `switch ev.Type`. -/
def handleEvent (w : World) (ev : WatchEvent) (op : operator) : operator :=
  let job := ev.Object
  if ev.EvType = watch.Added ∨ ev.EvType = watch.Modified then
    if job.Status.Active = 0 ∧ job.Status.Failed = 0 ∧ job.Status.Succeeded ≠ 0 then
      (doDelete w job op).2
    else
      (doCreate w job op).2
  else if ev.EvType = watch.Deleted then
    (doDelete w job op).2
  else if ev.EvType = watch.Bookmark then
    op
  else
    op

/-- The `for ev := range lst.ResultChan()` loop of `oneRun` over the events the
channel delivers. The first component is the returned error. -/
def oneRunLoop (w : World) : List WatchEvent → operator → Option String × operator
  | [], op => (none, op)
  | ev :: evs, op =>
    if ev.EvType = watch.Error then (some "failed watching", op)
    else oneRunLoop w evs (handleEvent w ev op)

/-- Mirror of `oneRun`: `watchResult` is what `Jobs("").Watch` returned. -/
def oneRun (w : World) (watchResult : Except String (List WatchEvent))
    (op : operator) : Option String × operator :=
  match watchResult with
  | .error e => (some ("watching jobs: " ++ e), op)
  | .ok evs => oneRunLoop w evs op

/-! ## Reading traces -/

/-- The calls issued after `before` and up to `after`. -/
def newCalls (before after : operator) : List Issued :=
  after.calls.drop before.calls.length

/-- Is the call a disk creation? -/
def Call.isDisksInsert : Call → Bool
  | .DisksInsert _ _ _ => true
  | _ => false

/-- Is the call a disk query? -/
def Call.isDisksGet : Call → Bool
  | .DisksGet _ _ _ => true
  | _ => false

/-- Is the call a snapshot lookup? -/
def Call.isSnapshotsGet : Call → Bool
  | .SnapshotsGet _ _ => true
  | _ => false

/-- Is the call a claim creation? -/
def Call.isPVCCreate : Call → Bool
  | .PVCCreate _ _ => true
  | _ => false

/-- Is the call a volume creation? -/
def Call.isPVCreate : Call → Bool
  | .PVCreate _ => true
  | _ => false

/-- Is the call a claim deletion? -/
def Call.isPVCDelete : Call → Bool
  | .PVCDelete _ _ => true
  | _ => false

/-- The disk creation calls among `l`. -/
def insertsOf (l : List Issued) : List Call :=
  (l.map Issued.call).filter Call.isDisksInsert

/-- The snapshot lookups among `l`. -/
def lookupsOf (l : List Issued) : List Call :=
  (l.map Issued.call).filter Call.isSnapshotsGet

/-- The disk queries among `l`. -/
def queriesOf (l : List Issued) : List Call :=
  (l.map Issued.call).filter Call.isDisksGet

/-- The claim creation calls among `l`. -/
def claimCreatesOf (l : List Issued) : List Call :=
  (l.map Issued.call).filter Call.isPVCCreate

/-- The volume creation calls among `l`. -/
def volumeCreatesOf (l : List Issued) : List Call :=
  (l.map Issued.call).filter Call.isPVCreate

/-- The claim deletion calls among `l`. -/
def claimDeletesOf (l : List Issued) : List Call :=
  (l.map Issued.call).filter Call.isPVCDelete

/-- A poll answer that ends the polling loop: an error, or a READY disk. -/
def pollEnds (r : Except GcpError Disk) : Bool :=
  match r with
  | .error _ => true
  | .ok disk => decide (disk.Status = "READY")

/-- The claim names of the volumes of `job` whose claim name contains
`snapshotName`, in the order of the pod template. -/
def matchingClaims (job : Job) (snapshotName : String) : List String :=
  job.Spec.Template.Spec.Volumes.filterMap fun vol =>
    match vol.VolumeSource.PersistentVolumeClaim with
    | some claim =>
      if strings.Contains claim.ClaimName snapshotName then some claim.ClaimName else none
    | none => none

/-- `after` is `before` with more calls issued, each under the registry of
`before`; nothing else differs. -/
def Extends (before after : operator) : Prop :=
  after.gcpProject = before.gcpProject ∧ after.snapshotsLocks = before.snapshotsLocks ∧
  after.tasks = before.tasks ∧ after.entered = before.entered ∧
  ∃ new : List Issued, after.calls = before.calls ++ new ∧
    ∀ i ∈ new, i.locks = before.snapshotsLocks

/-! ## Concrete inputs -/

/-- A volume of a pod template that mounts the claim `claim`. -/
def claimVolume (name claim : String) : Volume :=
  { Name := name, VolumeSource := { PersistentVolumeClaim := some { ClaimName := claim } } }

/-- A job with the given annotations, volumes and status. -/
def mkJob (annotations : List (String × String)) (vols : List Volume)
    (status : JobStatus) : Job :=
  { Name := "job"
    Namespace := "default"
    Annotations := annotations
    Spec := { Template := { Spec := { Volumes := vols } } }
    Status := status }

/-- The job of the scenarios: source `img-17`, zone `us-central1-c`, claim `data-img-17`. -/
def jobImg17 : Job :=
  mkJob [("dfuse.io/snapshot-source", "img-17"), ("dfuse.io/snapshot-to-zone", "us-central1-c")]
    [claimVolume "data" "data-img-17"] { Active := 1, Failed := 0, Succeeded := 0 }

/-- An operator that has done nothing yet. -/
def op0 : operator :=
  { gcpProject := "proj", snapshotsLocks := [], calls := [], tasks := [], entered := [] }

/-- A disk as the cloud reports it. -/
def cloudDisk (name status : String) (size : Int) : Disk :=
  { Description := "", Name := name, SourceSnapshot := "", SizeGb := size,
    DiskType := "pd-ssd", Status := status }

/-- A world in which the disk is absent until it is inserted (the first two
calls are the query of `doCreate` and the snapshot lookup), is READY from then
on, and every other call succeeds; snapshots have 100 GB. -/
def worldOk : World :=
  { disksGet := fun clock _ _ name =>
      if clock < 2 then .error (.googleapi 404) else .ok (cloudDisk name "READY" 150)
    snapshotsGet := fun _ _ name => .ok { DiskSizeGb := 100, SelfLink := "selflink/" ++ name }
    disksInsert := fun _ _ _ _ => .ok ()
    pvcCreate := fun _ _ _ => .ok ()
    pvCreate := fun _ _ => .ok ()
    pvcDelete := fun _ _ _ => .ok () }

/-- The paths entered while `handleEvent` handles `ev`. -/
def pathsRun (w : World) (ev : WatchEvent) (op : operator) : List (Path × Job) :=
  (handleEvent w ev op).entered.drop op.entered.length

/-- The status test of `oneRun`: no active and no failed attempt, some success. -/
def succeededOnly (job : Job) : Prop :=
  job.Status.Active = 0 ∧ job.Status.Failed = 0 ∧ job.Status.Succeeded ≠ 0

instance (job : Job) : Decidable (succeededOnly job) := by
  unfold succeededOnly; infer_instance

/-- An operator whose registry marks `img-17`. -/
def opMarked : operator :=
  markProcessing "img-17" op0

/-- A world in which the disk already exists and is READY, and every call succeeds. -/
def worldReady : World :=
  { worldOk with disksGet := fun _ _ _ name => .ok (cloudDisk name "READY" 150) }

/-- The scenario job without any volume. -/
def jobNoVolume : Job :=
  mkJob [("dfuse.io/snapshot-source", "img-17"), ("dfuse.io/snapshot-to-zone", "us-central1-c")]
    [] { Active := 1, Failed := 0, Succeeded := 0 }

/-- The tasks started after `before` and up to `after`. -/
def newTasks (before after : operator) : List Task :=
  after.tasks.drop before.tasks.length

/-- The operator returned by `newOperator` when both clients could be built:
the registry is the zero `sync.Map`. -/
def newOperator (gcpProject : String) : operator :=
  { gcpProject := gcpProject, snapshotsLocks := [], calls := [], tasks := [], entered := [] }

/-- A world like `worldOk` in which the inserted disk is reported twice as
`CREATING` before it is READY. -/
def worldSlow : World :=
  { worldOk with disksGet := fun clock _ _ name =>
      (if clock < 3 then Except.error (GcpError.googleapi 404)
       else (if clock < 5 then Except.ok (cloudDisk name "CREATING" 150)
       else Except.ok (cloudDisk name "READY" 150))) }

/-- The state after `oneRun` handled the events `evs`, none of them an error. -/
def handleAll (w : World) (evs : List WatchEvent) (op : operator) : operator :=
  evs.foldl (fun s ev => handleEvent w ev s) op

/-- The answer of the world to the `idx`-th call of a trace, when that call is
a disk query. -/
def pollAt (w : World) (calls : List Issued) (idx : Nat) : Option (Except GcpError Disk) :=
  match calls[idx]? with
  | some ⟨.DisksGet project zone name, _⟩ => some (w.disksGet idx project zone name)
  | _ => none

/-- The calls that end a run of `createDisk` after a READY disk: the claim
creation, issued as call number `clock`, and the volume creation when the claim
creation succeeded. -/
def bindTrace (w : World) (job : Job) (pvcName pdName targetSize : String) (clock : Nat)
    (locks : List String) : List Issued :=
  match w.pvcCreate clock job.Namespace (newClaim job pvcName targetSize) with
  | .error _ => [⟨.PVCCreate job.Namespace (newClaim job pvcName targetSize), locks⟩]
  | .ok _ =>
    [⟨.PVCCreate job.Namespace (newClaim job pvcName targetSize), locks⟩,
      ⟨.PVCreate (newVolume pvcName pdName targetSize), locks⟩]

/-- The state in which the poller started by `doDelete` is left running: the
scenario job is created, deleted while `img-17` is marked, and `createDisk` then
runs to its end and clears the mark. -/
def opAfterRace : operator :=
  (createDisk worldOk 5 jobImg17 false "img-17" "us-central1-c" "data-img-17" "data-img-17"
    (doDelete worldOk jobImg17 (doCreate worldOk jobImg17 op0).2).2).state

end SnapshotOperator

/-!
# The restore tool and the volume tool

`cmd/snapshotter/gcloud/snapshot.go` (`FindSnapshot`),
`cmd/snapshotter/kubectl/pv.go` (`MatchesApp`, `Find`) and `cmd/main.go`
(`createVolumesFromList`).

* `time.Time` is the instant as an integer; `After` compares instants.
* `sort.Slice` is a parameter: the order it leaves between elements that compare
  equal is not specified.
* `log.Fatalln` ends the run; a function that can reach it returns the outcome.
-/

namespace Snapshotter

open SnapshotOperator

namespace strings

/-- Go `strings.HasPrefix(s, pfx)`. -/
def HasPrefix (s pfx : String) : Bool :=
  pfx.data.isPrefixOf s.data

end strings

namespace gcloud

/-- Mirror of `gcloud.Snapshot`. -/
structure Snapshot where
  Created : Int
  Name : String
  Size : String
  deriving DecidableEq, Repr

/-- Mirror of `Snapshot.Matches`. -/
def Snapshot.Matches (snap : Snapshot) (ns : String) : Bool :=
  if !strings.HasPrefix snap.Name ns then false
  else true

/-- The errors `FindSnapshot` returns; `indexOutOfRange` stands for the panic of
`found[0]` on an empty slice. -/
inductive FindError where
  | noSnapshots
  | notNamed (snapshotName : String) (count : Nat)
  | notInNamespace (ns : String) (count : Nat)
  | indexOutOfRange
  deriving DecidableEq, Repr

/-- The loop `for _, snap := range snapshots` that returns the first snapshot
named `snapshotName`. -/
def findNamed (snapshotName : String) : List Snapshot → Option Snapshot
  | [] => none
  | snap :: rest =>
    if snap.Name = snapshotName then some snap else findNamed snapshotName rest

/-- The comparison passed to `sort.Slice`: `a.Created.After(b.Created)`. -/
def createdAfter (a b : Snapshot) : Bool :=
  decide (a.Created > b.Created)

/-- Mirror of `FindSnapshot`; `sortSlice less l` is the slice `sort.Slice`
leaves. -/
def FindSnapshot (sortSlice : (Snapshot → Snapshot → Bool) → List Snapshot → List Snapshot)
    (snapshots : List Snapshot) (snapshotName ns : String) : Except FindError Snapshot :=
  if snapshots.length = 0 then .error .noSnapshots
  else if snapshotName ≠ "latest" then
    match findNamed snapshotName snapshots with
    | some snap => .ok snap
    | none => .error (.notNamed snapshotName snapshots.length)
  else
    let found := snapshots.filter fun snap => snap.Matches ns
    if found.length = 0 then .error (.notInNamespace ns snapshots.length)
    else
      match sortSlice createdAfter found with
      | first :: _ => .ok first
      | [] => .error .indexOutOfRange

/-- What `sort.Slice` guarantees for the comparison `createdAfter`: the slice is
rearranged, and no element is followed by one that must come before it. -/
def SortsByCreated
    (sortSlice : (Snapshot → Snapshot → Bool) → List Snapshot → List Snapshot) : Prop :=
  ∀ l : List Snapshot, (sortSlice createdAfter l).Perm l ∧
    (sortSlice createdAfter l).Pairwise fun a b => createdAfter b a = false

/-- A sort that meets `SortsByCreated`: merge sort with `a` before `b` unless
`less b a`. -/
def mergeSortSlice (less : Snapshot → Snapshot → Bool) (l : List Snapshot) : List Snapshot :=
  l.mergeSort fun a b => !less b a

/-- Three snapshots, two of them in namespace `eth-mainnet`. -/
def snapshots3 : List Snapshot :=
  [⟨10, "eth-mainnet-v2-0013642743", "100"⟩, ⟨30, "bsc-v1-0000000001", "50"⟩,
    ⟨20, "eth-mainnet-v2-0013650000", "100"⟩]

end gcloud

namespace kubectl

/-- Mirror of `kubectl.ClaimRef`. -/
structure ClaimRef where
  Name : String
  Namespace : String
  deriving DecidableEq, Repr

/-- Mirror of `kubectl.Csi`. -/
structure Csi where
  VolumeHandle : String
  deriving DecidableEq, Repr

/-- Mirror of `kubectl.GCEPersistentDisk`. -/
structure GCEPersistentDisk where
  PDName : String
  deriving DecidableEq, Repr

/-- Mirror of `kubectl.Metadata`; label values are kept as strings. -/
structure Metadata where
  Name : String
  Labels : List (String × String)
  deriving DecidableEq, Repr

/-- Mirror of `kubectl.Spec`. -/
structure Spec where
  ClaimRef : ClaimRef
  Csi : Csi
  Disk : GCEPersistentDisk
  deriving DecidableEq, Repr

/-- Mirror of `kubectl.PersistentVolume`. -/
structure PersistentVolume where
  Metadata : Metadata
  Spec : Spec
  deriving DecidableEq, Repr

/-- Mirror of `PersistentVolume.MatchesApp`; `mountName` is `none` for nil. -/
def PersistentVolume.MatchesApp (pv : PersistentVolume) (ns appName : String)
    (mountName : Option String) : Bool :=
  let claim := pv.Spec.ClaimRef.Name
  if pv.Spec.ClaimRef.Namespace ≠ ns then false
  else if !SnapshotOperator.strings.HasSuffix claim ("-" ++ appName) then false
  else
    match mountName with
    | none => true
    | some m => if !strings.HasPrefix claim m then false else true

/-- Mirror of `Find`: the first volume for which `MatchesApp` holds. -/
def Find (pvs : List PersistentVolume) (ns appName : String) (mountName : Option String) :
    Except String PersistentVolume :=
  match pvs with
  | [] => .error "not found"
  | pv :: rest =>
    if pv.MatchesApp ns appName mountName then .ok pv
    else Find rest ns appName mountName

/-- A volume bound to claim `claim` in namespace `ns`. -/
def boundVolume (name ns claim : String) : PersistentVolume :=
  { Metadata := { Name := name, Labels := [] }
    Spec :=
      { ClaimRef := { Name := claim, Namespace := ns }
        Csi := { VolumeHandle := "" }
        Disk := { PDName := name } } }

end kubectl

namespace cmd

/-- Mirror of `compute.Snapshot` as `cmd/main.go` reads it. -/
structure ComputeSnapshot where
  Name : String
  DiskSizeGb : Int
  deriving DecidableEq, Repr

/-- Mirror of `config`; `ns` is the Go field `namespace`. -/
structure config where
  ns : String
  region : String
  version : String
  force : Bool
  deriving DecidableEq, Repr

/-- How `createVolumesFromList` ends: `log.Fatalln`, or the call of
`createVolumes` with the selected snapshots. -/
inductive Run where
  | fatal (msg : String)
  | createVolumes (snapshots : List ComputeSnapshot)
  deriving DecidableEq, Repr

/-- Mirror of `listSnapshots`: the snapshots of the project whose name starts
with `pfx`; `all` is what `snapshotter.ListSnapshots` returned. -/
def listSnapshots (all : Except String (List ComputeSnapshot)) (pfx : String) :
    Except String (List ComputeSnapshot) :=
  match all with
  | .error err => .error err
  | .ok snapshots => .ok (snapshots.filter fun snapshot => strings.HasPrefix snapshot.Name pfx)

/-- The closure `isMatchingSnapshot` of `createVolumesFromList`. -/
def isMatchingSnapshot (snapshotSuffixes : List String) (snapshot : ComputeSnapshot) : Bool :=
  match snapshotSuffixes with
  | [] => false
  | snapshotSuffix :: rest =>
    if SnapshotOperator.strings.HasSuffix snapshot.Name snapshotSuffix then true
    else isMatchingSnapshot rest snapshot

/-- Mirror of `createVolumesFromList`; `envValid` is the error of
`snapshotter.EnvConfig.Valid()` (`none` for nil) and `all` the answer of
`snapshotter.ListSnapshots`. -/
def createVolumesFromList (envValid : Option String)
    (all : Except String (List ComputeSnapshot)) (cfg : config)
    (snapshotSuffixes : List String) : Run :=
  match envValid with
  | some err => .fatal err
  | none =>
    let snapshotPrefix := cfg.ns ++ "-" ++ cfg.version
    match listSnapshots all snapshotPrefix with
    | .error err => .fatal ("unable to list snapshots " ++ err)
    | .ok candidateSnapshots =>
      let snapshots := candidateSnapshots.filter (isMatchingSnapshot snapshotSuffixes)
      if snapshots.length ≠ snapshotSuffixes.length then
        .fatal "snapshot suffixes not fully resolved"
      else .createVolumes snapshots

/-- The suffixes are fully resolved by `snapshots`: each is a suffix of the name
of one of them. -/
def FullyResolved (snapshotSuffixes : List String) (snapshots : List ComputeSnapshot) : Prop :=
  ∀ snapshotSuffix ∈ snapshotSuffixes, ∃ snapshot ∈ snapshots,
    SnapshotOperator.strings.HasSuffix snapshot.Name snapshotSuffix = true

instance (snapshotSuffixes : List String) (snapshots : List ComputeSnapshot) :
    Decidable (FullyResolved snapshotSuffixes snapshots) := by
  unfold FullyResolved; infer_instance

/-- The configuration of the example: namespace `eth`, version `geth-v1`. -/
def cfgEth : config :=
  { ns := "eth", region := "us-central1", version := "geth-v1", force := false }

/-- Two snapshots of the project taken at the same block by two applications
whose names both start with `geth-v1`. -/
def sameBlockSnapshots : List ComputeSnapshot :=
  [⟨"eth-geth-v1-0013642743", 100⟩, ⟨"eth-geth-v10-0013642743", 100⟩]

end cmd

/-! ## Package `snapshotter`: `snapshot.go` -/

/-- Go `fmt.Sprintf("%0.10d", n)` for an unsigned integer: the decimal digits of
`n`, with zeros in front up to the precision of 10 digits. -/
def sprintfD10 (n : Nat) : String :=
  let digits := Nat.toDigits 10 n
  String.mk (List.replicate (10 - digits.length) '0' ++ digits)

/-- Mirror of `GenerateName`; `lastSeenBlockNum` is a `uint32`, a natural number
below `2 ^ 32`. -/
def GenerateName (ns appNameVer : String) (lastSeenBlockNum : Nat) : String :=
  ns ++ "-" ++ appNameVer ++ "-" ++ sprintfD10 lastSeenBlockNum

/-- The `k` last decimal digits of `n`, most significant first. -/
def positional : Nat → Nat → List Char
  | 0, _ => []
  | k + 1, n => positional k (n / 10) ++ [Nat.digitChar (n % 10)]

/-- The decimal form of `n` left-padded with zeros to exactly 10 digits. -/
def decimal10 (n : Nat) : String :=
  String.mk (positional 10 n)

/-- The decimal digits of `n` without padding, most significant first. -/
def decDigits (n : Nat) : List Char :=
  if n < 10 then [Nat.digitChar n]
  else decDigits (n / 10) ++ [Nat.digitChar (n % 10)]
decreasing_by omega

/-- Mirror of `v1.GCEPersistentDiskVolumeSource` (the field read). -/
structure GCEPersistentDiskVolumeSource where
  PDName : String
  deriving DecidableEq, Repr

/-- Mirror of `v1.CSIPersistentVolumeSource` (driver and handle). -/
structure CSIPersistentVolumeSource where
  Driver : String
  VolumeHandle : String
  deriving DecidableEq, Repr

/-- Mirror of `v1.PersistentVolumeSpec`: the two source pointers, `none` for nil. -/
structure PersistentVolumeSpec where
  GCEPersistentDisk : Option GCEPersistentDiskVolumeSource
  CSI : Option CSIPersistentVolumeSource
  deriving DecidableEq, Repr

/-- Mirror of `v1.PersistentVolume` as `getPersistentDisk` reads it. -/
structure PersistentVolume where
  Name : String
  Labels : List (String × String)
  Spec : PersistentVolumeSpec
  deriving DecidableEq, Repr

/-- Mirror of `v1.PersistentVolumeClaim` as `getPersistentDisk` reads it. -/
structure PersistentVolumeClaim where
  Name : String
  VolumeName : String
  deriving DecidableEq, Repr

/-- Mirror of `v1.Pod` as `getPersistentDisk` reads it. -/
structure Pod where
  Name : String
  Volumes : List SnapshotOperator.Volume
  deriving DecidableEq, Repr

/-- Mirror of `pdDef`. -/
structure pdDef where
  name : String
  zone : String
  region : String
  deriving DecidableEq, Repr

/-- The error of `Pods(namespace).Get`, as `getPersistentDisk` tells them apart. -/
inductive PodError where
  | notFound (msg : String)
  | status (message : String)
  | other (msg : String)
  deriving DecidableEq, Repr

/-- How a call of `getPersistentDisk` ends: with a disk definition, with an
error, or with the runtime panic of a nil pointer dereference. -/
inductive Result where
  | ok (out : pdDef)
  | error (msg : String)
  | nilDereference
  deriving DecidableEq, Repr

/-- The answers of the cluster to `getPersistentDisk`. -/
structure Cluster where
  configErr : Option String
  clientErr : Option String
  getPod : String → String → Except PodError Pod
  getClaim : String → String → Except String PersistentVolumeClaim
  getVolume : String → Except String PersistentVolume

/-- The loop of `getPersistentDisk` over the volumes of the pod: `claimName` is
the value carried so far. -/
def claimNameLoop (pfx : String) : List SnapshotOperator.Volume → String → String
  | [], claimName => claimName
  | vol :: vols, claimName =>
    match vol.VolumeSource.PersistentVolumeClaim with
    | some claim =>
      if strings.HasPrefix claim.ClaimName pfx then claimNameLoop pfx vols claim.ClaimName
      else claimNameLoop pfx vols claimName
    | none => claimNameLoop pfx vols claimName

/-- Go map read `v, ok := m[key]`: `none` when `ok` is false. -/
def labelLookup (labels : List (String × String)) (key : String) : Option String :=
  labels.lookup key

/-- The end of `getPersistentDisk`, from the source check on (lines 195-217). -/
def pdDefOfVolume (mypv : PersistentVolume) (pvName : String) : Result :=
  if mypv.Spec.GCEPersistentDisk = none ∧ mypv.Spec.CSI = none then
    .error "no gce persistent disk"
  else
    let labels := mypv.Labels
    let zone? :=
      match labelLookup labels "failure-domain.beta.kubernetes.io/zone" with
      | some zone => some zone
      | none => labelLookup labels "topology.kubernetes.io/zone"
    match zone? with
    | none => .error ("cannot find zone for PV " ++ pvName)
    | some zone =>
      let region? :=
        match labelLookup labels "failure-domain.beta.kubernetes.io/region" with
        | some region => some region
        | none => labelLookup labels "topology.kubernetes.io/region"
      match region? with
      | none => .error ("cannot find region for PV " ++ pvName)
      | some region =>
        match mypv.Spec.GCEPersistentDisk with
        | none => .nilDereference
        | some disk => .ok { name := disk.PDName, zone := zone, region := region }

/-- Mirror of `getPersistentDisk`. -/
def getPersistentDisk (c : Cluster) (pod ns pfx : String) : Result :=
  match c.configErr with
  | some err => .error ("in cluster config: " ++ err)
  | none =>
    match c.clientErr with
    | some err => .error ("new for config: " ++ err)
    | none =>
      match c.getPod ns pod with
      | .error (.notFound msg) => .error msg
      | .error (.status message) => .error ("cannot get pod: " ++ message)
      | .error (.other msg) => .error msg
      | .ok mypod =>
        let claimName := claimNameLoop pfx mypod.Volumes ""
        if claimName = "" then .error "did not find any pvc"
        else
          match c.getClaim ns claimName with
          | .error err => .error err
          | .ok mypvc =>
            let pvName := mypvc.VolumeName
            match c.getVolume pvName with
            | .error err => .error ("getting pv " ++ pvName ++ ": " ++ err)
            | .ok mypv => pdDefOfVolume mypv pvName

/-- A volume provisioned by the CSI driver: no `GCEPersistentDisk` source, a CSI
source, and both topology labels. -/
def csiVolume : PersistentVolume :=
  { Name := "pvc-1234"
    Labels := [("topology.kubernetes.io/zone", "us-central1-c"),
      ("topology.kubernetes.io/region", "us-central1")]
    Spec :=
      { GCEPersistentDisk := none
        CSI := some
          { Driver := "pd.csi.storage.gke.io"
            VolumeHandle := "projects/proj/zones/us-central1-c/disks/pvc-1234" } } }

/-- A cluster in which pod `mindreader-0` mounts claim `datadir-mindreader-0`,
bound to `csiVolume`. -/
def csiCluster : Cluster :=
  { configErr := none
    clientErr := none
    getPod := fun _ name =>
      .ok { Name := name, Volumes := [SnapshotOperator.claimVolume "data" "datadir-mindreader-0"] }
    getClaim := fun _ name => .ok { Name := name, VolumeName := "pvc-1234" }
    getVolume := fun _ => .ok csiVolume }

end Snapshotter

namespace SnapshotOperator

/-- A world in which the disk exists but is not READY when `doCreate` asks, and
every later disk query fails with a server error. -/
def worldPollFails : World :=
  { worldOk with disksGet := fun clock _ _ name =>
      (if clock < 1 then Except.ok (cloudDisk name "CREATING" 150)
       else Except.error (GcpError.googleapi 500)) }

/-! ## Frame lemmas: what each primitive leaves alone -/

@[simp] theorem issue_snapshotsLocks (c : Call) (op : operator) :
    (issue c op).snapshotsLocks = op.snapshotsLocks := rfl

@[simp] theorem issue_tasks (c : Call) (op : operator) :
    (issue c op).tasks = op.tasks := rfl

@[simp] theorem issue_entered (c : Call) (op : operator) :
    (issue c op).entered = op.entered := rfl

@[simp] theorem issue_gcpProject (c : Call) (op : operator) :
    (issue c op).gcpProject = op.gcpProject := rfl

@[simp] theorem issue_calls (c : Call) (op : operator) :
    (issue c op).calls = op.calls ++ [⟨c, op.snapshotsLocks⟩] := rfl

@[simp] theorem spawn_snapshotsLocks (t : Task) (op : operator) :
    (spawn t op).snapshotsLocks = op.snapshotsLocks := rfl

@[simp] theorem spawn_tasks (t : Task) (op : operator) :
    (spawn t op).tasks = op.tasks ++ [t] := rfl

@[simp] theorem spawn_entered (t : Task) (op : operator) :
    (spawn t op).entered = op.entered := rfl

@[simp] theorem spawn_gcpProject (t : Task) (op : operator) :
    (spawn t op).gcpProject = op.gcpProject := rfl

@[simp] theorem spawn_calls (t : Task) (op : operator) :
    (spawn t op).calls = op.calls := rfl

@[simp] theorem enter_snapshotsLocks (p : Path) (job : Job) (op : operator) :
    (enter p job op).snapshotsLocks = op.snapshotsLocks := rfl

@[simp] theorem enter_tasks (p : Path) (job : Job) (op : operator) :
    (enter p job op).tasks = op.tasks := rfl

@[simp] theorem enter_entered (p : Path) (job : Job) (op : operator) :
    (enter p job op).entered = op.entered ++ [(p, job)] := rfl

@[simp] theorem enter_gcpProject (p : Path) (job : Job) (op : operator) :
    (enter p job op).gcpProject = op.gcpProject := rfl

@[simp] theorem enter_calls (p : Path) (job : Job) (op : operator) :
    (enter p job op).calls = op.calls := rfl

@[simp] theorem markProcessing_tasks (n : String) (op : operator) :
    (markProcessing n op).tasks = op.tasks := rfl

@[simp] theorem markProcessing_entered (n : String) (op : operator) :
    (markProcessing n op).entered = op.entered := rfl

@[simp] theorem markProcessing_gcpProject (n : String) (op : operator) :
    (markProcessing n op).gcpProject = op.gcpProject := rfl

@[simp] theorem markProcessing_calls (n : String) (op : operator) :
    (markProcessing n op).calls = op.calls := rfl

@[simp] theorem markDone_tasks (n : String) (op : operator) :
    (markDone n op).tasks = op.tasks := rfl

@[simp] theorem markDone_entered (n : String) (op : operator) :
    (markDone n op).entered = op.entered := rfl

@[simp] theorem markDone_gcpProject (n : String) (op : operator) :
    (markDone n op).gcpProject = op.gcpProject := rfl

@[simp] theorem markDone_calls (n : String) (op : operator) :
    (markDone n op).calls = op.calls := rfl

@[simp] theorem isProcessing_issue (n : String) (c : Call) (op : operator) :
    isProcessing n (issue c op) = isProcessing n op := rfl

@[simp] theorem isProcessing_spawn (n : String) (t : Task) (op : operator) :
    isProcessing n (spawn t op) = isProcessing n op := rfl

@[simp] theorem isProcessing_enter (n : String) (p : Path) (job : Job) (op : operator) :
    isProcessing n (enter p job op) = isProcessing n op := rfl

/-- The single call of `deletePVC`, whatever its outcome. -/
theorem deletePVC_eq (w : World) (ns pvcName : String) (op : operator) :
    deletePVC w ns pvcName op = issue (.PVCDelete ns pvcName) op := by
  unfold deletePVC
  cases errOf (w.pvcDelete op.calls.length ns pvcName) with
  | none => rfl
  | some e => simp

/-- The path record of `doDelete`. -/
theorem doDelete_entered (w : World) (job : Job) (op : operator) :
    (doDelete w job op).2.entered = op.entered ++ [(Path.delete, job)] := by
  unfold doDelete
  cases getAnnotations job with
  | error e => simp
  | ok a =>
    obtain ⟨n, z⟩ := a
    simp only [deletePVC_eq]
    split <;> simp

/-- The path record of `doCreate`. -/
theorem doCreate_entered (w : World) (job : Job) (op : operator) :
    (doCreate w job op).2.entered = op.entered ++ [(Path.create, job)] := by
  unfold doCreate
  cases getAnnotations job with
  | error e => simp
  | ok a =>
    obtain ⟨n, z⟩ := a
    simp only
    split
    · simp
    · split
      · split <;> simp
      · simp

/-! ## C1: dispatch of watch events -/

/-- The event types of the `switch` are pairwise different strings. -/
theorem watch_types_distinct :
    watch.Added ≠ watch.Deleted ∧ watch.Modified ≠ watch.Deleted ∧
    watch.Added ≠ watch.Bookmark ∧ watch.Modified ≠ watch.Bookmark ∧
    watch.Deleted ≠ watch.Bookmark := by
  decide

/-- C1: for a non-error watch event, `oneRun` handles the event and goes on with
the next one; an Added or Modified event runs `doDelete` exactly when the job
status has Active = 0, Failed = 0 and Succeeded ≠ 0 and runs `doCreate`
otherwise; a Deleted event runs `doDelete`; a Bookmark event runs neither; and
no event enters more than one path. -/
theorem oneRun_dispatch (w : World) (ev : WatchEvent) (evs : List WatchEvent) (op : operator)
    (hne : ev.EvType ≠ watch.Error) :
    oneRunLoop w (ev :: evs) op = oneRunLoop w evs (handleEvent w ev op) ∧
    ((ev.EvType = watch.Added ∨ ev.EvType = watch.Modified) →
      handleEvent w ev op =
        (if succeededOnly ev.Object then (doDelete w ev.Object op).2
         else (doCreate w ev.Object op).2) ∧
      pathsRun w ev op =
        [(if succeededOnly ev.Object then Path.delete else Path.create, ev.Object)]) ∧
    (ev.EvType = watch.Deleted →
      handleEvent w ev op = (doDelete w ev.Object op).2 ∧
      pathsRun w ev op = [(Path.delete, ev.Object)]) ∧
    (ev.EvType = watch.Bookmark →
      handleEvent w ev op = op ∧ pathsRun w ev op = []) ∧
    (pathsRun w ev op).length ≤ 1 := by
  obtain ⟨hAD, hMD, hAB, hMB, hDB⟩ := watch_types_distinct
  have hdel : ∀ o : operator, ((doDelete w ev.Object o).2.entered).drop o.entered.length
      = [(Path.delete, ev.Object)] := by
    intro o; rw [doDelete_entered]; simp
  have hcre : ∀ o : operator, ((doCreate w ev.Object o).2.entered).drop o.entered.length
      = [(Path.create, ev.Object)] := by
    intro o; rw [doCreate_entered]; simp
  refine ⟨?_, ?_, ?_, ?_, ?_⟩
  · simp [oneRunLoop, hne]
  · intro hAM
    by_cases hs : succeededOnly ev.Object
    · have hs2 : ev.Object.Status.Active = 0 ∧ ev.Object.Status.Failed = 0 ∧
          ev.Object.Status.Succeeded ≠ 0 := hs
      have hE : handleEvent w ev op = (doDelete w ev.Object op).2 := by
        unfold handleEvent
        rw [if_pos hAM, if_pos hs2]
      rw [if_pos hs, if_pos hs]
      exact ⟨hE, by unfold pathsRun; rw [hE]; exact hdel op⟩
    · have hs2 : ¬ (ev.Object.Status.Active = 0 ∧ ev.Object.Status.Failed = 0 ∧
          ev.Object.Status.Succeeded ≠ 0) := hs
      have hE : handleEvent w ev op = (doCreate w ev.Object op).2 := by
        unfold handleEvent
        rw [if_pos hAM, if_neg hs2]
      rw [if_neg hs, if_neg hs]
      exact ⟨hE, by unfold pathsRun; rw [hE]; exact hcre op⟩
  · intro hD
    have h1 : ¬ (ev.EvType = watch.Added ∨ ev.EvType = watch.Modified) := by
      rw [hD]; intro h; rcases h with h | h
      · exact hAD h.symm
      · exact hMD h.symm
    have hE : handleEvent w ev op = (doDelete w ev.Object op).2 := by
      unfold handleEvent
      rw [if_neg h1, if_pos hD]
    exact ⟨hE, by unfold pathsRun; rw [hE]; exact hdel op⟩
  · intro hB
    have h1 : ¬ (ev.EvType = watch.Added ∨ ev.EvType = watch.Modified) := by
      rw [hB]; intro h; rcases h with h | h
      · exact hAB h.symm
      · exact hMB h.symm
    have h2 : ¬ ev.EvType = watch.Deleted := by
      rw [hB]; intro h; exact hDB h.symm
    have hE : handleEvent w ev op = op := by
      unfold handleEvent
      rw [if_neg h1, if_neg h2, if_pos hB]
    exact ⟨hE, by unfold pathsRun; rw [hE]; simp⟩
  · unfold pathsRun handleEvent
    simp only
    split_ifs
    · rw [hdel]; simp
    · rw [hcre]; simp
    · rw [hdel]; simp
    · simp
    · simp

/-- C1 at a concrete event: an Added event for the still active scenario job,
on a fresh operator, runs the create path and nothing else. -/
theorem oneRun_dispatch_witness :
    pathsRun worldOk ⟨watch.Added, jobImg17⟩ op0 = [(Path.create, jobImg17)] :=
  ((oneRun_dispatch worldOk ⟨watch.Added, jobImg17⟩ [] op0 (by decide)).2.1
    (Or.inl rfl)).2

/-! ## C2: a delete while the registry marks the snapshot -/

/-- What `doDelete` does for a job with both annotations: it starts the deferred
poller when the snapshot is marked, and in every case issues the claim deletion
at once, with the registry as it was on entry. -/
theorem doDelete_calls (w : World) (job : Job) (op : operator) (snapshotName pdZone : String)
    (hann : getAnnotations job = .ok (snapshotName, pdZone)) :
    (doDelete w job op).2.calls = op.calls ++
      [⟨.PVCDelete job.Namespace (diskNamesFromJob job snapshotName).1, op.snapshotsLocks⟩] ∧
    (doDelete w job op).2.snapshotsLocks = op.snapshotsLocks := by
  unfold doDelete
  rw [hann]
  simp only [deletePVC_eq]
  split <;> simp

/-- C2, the code at the failing input: the registry marks `img-17`, and `doDelete`
for the scenario job issues the deletion of claim `data-img-17` at once, while
the mark is set (the call is recorded with registry `["img-17"]`, and the mark
is still there when `doDelete` returns); it also starts the deferred poller. -/
theorem doDelete_deletes_while_marked :
    isProcessing "img-17" opMarked = true ∧
    newCalls opMarked (doDelete worldOk jobImg17 opMarked).2 =
      [⟨.PVCDelete "default" "data-img-17", ["img-17"]⟩] ∧
    isProcessing "img-17" (doDelete worldOk jobImg17 opMarked).2 = true ∧
    (doDelete worldOk jobImg17 opMarked).2.tasks =
      [.deferredDelete jobImg17 "img-17" "data-img-17"] := by
  decide

/-! ## C3: a missing annotation -/

/-- C3: when the Go map read of either annotation gives the empty string (the
annotation is absent or empty), `getAnnotations` returns an error, and `doCreate`
and `doDelete` return nil with no call issued, no task started and the registry
unchanged. -/
theorem missing_annotation_noop (w : World) (job : Job) (op : operator)
    (h : mapIndex job.Annotations "dfuse.io/snapshot-source" = "" ∨
      mapIndex job.Annotations "dfuse.io/snapshot-to-zone" = "") :
    getAnnotations job = .error "failed" ∧
    ((doCreate w job op).1 = none ∧ (doCreate w job op).2.calls = op.calls ∧
      (doCreate w job op).2.tasks = op.tasks ∧
      (doCreate w job op).2.snapshotsLocks = op.snapshotsLocks) ∧
    ((doDelete w job op).1 = none ∧ (doDelete w job op).2.calls = op.calls ∧
      (doDelete w job op).2.tasks = op.tasks ∧
      (doDelete w job op).2.snapshotsLocks = op.snapshotsLocks) := by
  have hg : getAnnotations job = .error "failed" := by
    unfold getAnnotations
    by_cases h1 : mapIndex job.Annotations "dfuse.io/snapshot-source" = ""
    · simp [h1]
    · have h2 : mapIndex job.Annotations "dfuse.io/snapshot-to-zone" = "" := by
        rcases h with h | h
        · exact absurd h h1
        · exact h
      simp [h1, h2]
  refine ⟨hg, ?_, ?_⟩
  · unfold doCreate; rw [hg]; simp
  · unfold doDelete; rw [hg]; simp

/-- C3 at a concrete job: the scenario job without its zone annotation. -/
theorem missing_annotation_noop_witness :
    getAnnotations (mkJob [("dfuse.io/snapshot-source", "img-17")] [claimVolume "data" "data-img-17"]
      ⟨1, 0, 0⟩) = .error "failed" :=
  (missing_annotation_noop worldOk
    (mkJob [("dfuse.io/snapshot-source", "img-17")] [claimVolume "data" "data-img-17"] ⟨1, 0, 0⟩)
    op0 (Or.inr (by decide))).1

/-! ## The trace of `createDisk` -/

theorem Extends.refl (op : operator) : Extends op op :=
  ⟨rfl, rfl, rfl, rfl, [], by simp, by simp⟩

theorem Extends.trans {a b c : operator} (h1 : Extends a b) (h2 : Extends b c) :
    Extends a c := by
  obtain ⟨p1, l1, t1, e1, n1, c1, k1⟩ := h1
  obtain ⟨p2, l2, t2, e2, n2, c2, k2⟩ := h2
  refine ⟨p2.trans p1, l2.trans l1, t2.trans t1, e2.trans e1, n1 ++ n2, ?_, ?_⟩
  · rw [c2, c1, List.append_assoc]
  · intro i hi
    rcases List.mem_append.mp hi with h | h
    · exact k1 i h
    · rw [k2 i h, l1]

theorem issue_extends (c : Call) (op : operator) : Extends op (issue c op) :=
  ⟨rfl, rfl, rfl, rfl, [⟨c, op.snapshotsLocks⟩], rfl, by simp⟩

/-- The calls issued between two states, when the later one extends the earlier. -/
theorem newCalls_append (before after : operator) (new : List Issued)
    (h : after.calls = before.calls ++ new) : newCalls before after = new := by
  unfold newCalls
  rw [h]
  simp

/-- Every new call of an extension was issued under the registry of the start. -/
theorem Extends.locks {a b : operator} (h : Extends a b) :
    ∀ i ∈ newCalls a b, i.locks = a.snapshotsLocks := by
  obtain ⟨_, _, _, _, n, c, k⟩ := h
  rw [newCalls_append a b n c]
  exact k

/-- The creation block for an empty-disk request: one insert, no lookup. -/
theorem createDiskInsert_empty (w : World) (snapshotName pdZone pdName : String)
    (op : operator) (h : shouldUseSnapshotForDisk snapshotName = false) :
    (createDiskInsert w snapshotName pdZone pdName op).state =
      issue (.DisksInsert op.gcpProject pdZone
        (newDisk op.gcpProject snapshotName pdZone pdName "" 50)) op := by
  unfold createDiskInsert
  simp only [h, Bool.false_eq_true, if_false]
  split <;> rfl

/-- The creation block when the snapshot lookup succeeds: lookup, then one insert. -/
theorem createDiskInsert_found (w : World) (snapshotName pdZone pdName : String)
    (op : operator) (snapshot : Snapshot)
    (h : shouldUseSnapshotForDisk snapshotName = true)
    (hs : w.snapshotsGet op.calls.length op.gcpProject snapshotName = .ok snapshot) :
    (createDiskInsert w snapshotName pdZone pdName op).state =
      issue (.DisksInsert op.gcpProject pdZone
        (newDisk op.gcpProject snapshotName pdZone pdName snapshot.SelfLink
          (wrapInt64 (snapshot.DiskSizeGb + 50))))
        (issue (.SnapshotsGet op.gcpProject snapshotName) op) := by
  unfold createDiskInsert
  simp only [h, hs, if_true]
  split <;> rfl

/-- The creation block when the snapshot lookup fails: `createDisk` returns. -/
theorem createDiskInsert_failed (w : World) (snapshotName pdZone pdName : String)
    (op : operator) (e : GcpError)
    (h : shouldUseSnapshotForDisk snapshotName = true)
    (hs : w.snapshotsGet op.calls.length op.gcpProject snapshotName = .error e) :
    createDiskInsert w snapshotName pdZone pdName op =
      Flow.done (issue (.SnapshotsGet op.gcpProject snapshotName) op) := by
  unfold createDiskInsert
  simp only [h, hs, if_true]

/-- The creation block never stays pending. -/
theorem createDiskInsert_not_pending (w : World) (snapshotName pdZone pdName : String)
    (op op1 : operator) :
    createDiskInsert w snapshotName pdZone pdName op ≠ Flow.pending op1 := by
  unfold createDiskInsert
  simp only
  split
  · split
    · simp
    · split <;> simp
  · split <;> simp

/-- The creation block only issues calls. -/
theorem createDiskInsert_extends (w : World) (snapshotName pdZone pdName : String)
    (op : operator) : Extends op (createDiskInsert w snapshotName pdZone pdName op).state := by
  cases h : shouldUseSnapshotForDisk snapshotName with
  | false => rw [createDiskInsert_empty w _ _ _ _ h]; exact issue_extends _ _
  | true =>
    cases hs : w.snapshotsGet op.calls.length op.gcpProject snapshotName with
    | error e =>
      rw [createDiskInsert_failed w _ _ _ _ e h hs]
      exact issue_extends _ _
    | ok snapshot =>
      rw [createDiskInsert_found w _ _ _ _ snapshot h hs]
      exact (issue_extends _ _).trans (issue_extends _ _)

/-- The polling loop issues disk queries for `pdName` only, each under the
registry of the start, and changes nothing else. -/
theorem createDiskPoll_trace (w : World) (pdZone pdName : String) (fuel : Nat) :
    ∀ op : operator, ∃ polls : List Issued,
      (createDiskPoll w pdZone pdName fuel op).state.calls = op.calls ++ polls ∧
      (∀ i ∈ polls, i = ⟨.DisksGet op.gcpProject pdZone pdName, op.snapshotsLocks⟩) ∧
      (createDiskPoll w pdZone pdName fuel op).state.gcpProject = op.gcpProject ∧
      (createDiskPoll w pdZone pdName fuel op).state.snapshotsLocks = op.snapshotsLocks ∧
      (createDiskPoll w pdZone pdName fuel op).state.tasks = op.tasks ∧
      (createDiskPoll w pdZone pdName fuel op).state.entered = op.entered := by
  induction fuel with
  | zero => intro op; exact ⟨[], by simp [createDiskPoll, Flow.state]⟩
  | succ n ih =>
    intro op
    have one : ∃ polls : List Issued,
        (issue (.DisksGet op.gcpProject pdZone pdName) op).calls = op.calls ++ polls ∧
        (∀ i ∈ polls, i = ⟨.DisksGet op.gcpProject pdZone pdName, op.snapshotsLocks⟩) ∧
        (issue (.DisksGet op.gcpProject pdZone pdName) op).gcpProject = op.gcpProject ∧
        (issue (.DisksGet op.gcpProject pdZone pdName) op).snapshotsLocks = op.snapshotsLocks ∧
        (issue (.DisksGet op.gcpProject pdZone pdName) op).tasks = op.tasks ∧
        (issue (.DisksGet op.gcpProject pdZone pdName) op).entered = op.entered :=
      ⟨[⟨.DisksGet op.gcpProject pdZone pdName, op.snapshotsLocks⟩], by simp⟩
    unfold createDiskPoll
    simp only
    split
    · exact one
    · split
      · exact one
      · split
        · exact one
        · obtain ⟨polls, hc, hp, h1, h2, h3, h4⟩ :=
            ih (issue (.DisksGet op.gcpProject pdZone pdName) op)
          refine ⟨⟨.DisksGet op.gcpProject pdZone pdName, op.snapshotsLocks⟩ :: polls,
            ?_, ?_, ?_, ?_, ?_, ?_⟩
          · rw [hc]; simp
          · intro i hi
            rcases List.mem_cons.mp hi with h | h
            · exact h
            · simpa using hp i h
          · simpa using h1
          · simpa using h2
          · simpa using h3
          · simpa using h4

/-- The end of `createDisk` issues the claim creation and, when that one
succeeds, the volume creation; it changes nothing else. -/
theorem createDiskBind_trace (w : World) (job : Job) (pvcName pdName targetSize : String)
    (op : operator) :
    ∃ post : List Issued,
      (createDiskBind w job pvcName pdName targetSize op).calls = op.calls ++ post ∧
      (post = [⟨.PVCCreate job.Namespace (newClaim job pvcName targetSize),
          op.snapshotsLocks⟩] ∨
        post = [⟨.PVCCreate job.Namespace (newClaim job pvcName targetSize),
            op.snapshotsLocks⟩,
          ⟨.PVCreate (newVolume pvcName pdName targetSize), op.snapshotsLocks⟩]) ∧
      Extends op (createDiskBind w job pvcName pdName targetSize op) := by
  unfold createDiskBind
  simp only
  split
  · exact ⟨_, rfl, Or.inl rfl, issue_extends _ _⟩
  · split
    · exact ⟨[_, _], by simp, Or.inr rfl, (issue_extends _ _).trans (issue_extends _ _)⟩
    · exact ⟨[_, _], by simp, Or.inr rfl, (issue_extends _ _).trans (issue_extends _ _)⟩

/-- The state after the creation block of `createDisk` (skipped when the disk exists). -/
theorem createDiskBody_trace (w : World) (fuel : Nat) (job : Job) (diskExists : Bool)
    (snapshotName pdZone pvcName pdName : String) (op : operator) :
    ∃ pre polls post : List Issued,
      (if diskExists = true then op
        else (createDiskInsert w snapshotName pdZone pdName op).state).calls = op.calls ++ pre ∧
      (createDiskBody w fuel job diskExists snapshotName pdZone pvcName pdName op).state.calls
        = op.calls ++ (pre ++ (polls ++ post)) ∧
      (∀ i ∈ polls, i = ⟨.DisksGet op.gcpProject pdZone pdName, op.snapshotsLocks⟩) ∧
      (post = [] ∨ ∃ targetSize : String,
        post = [⟨.PVCCreate job.Namespace (newClaim job pvcName targetSize),
            op.snapshotsLocks⟩] ∨
        post = [⟨.PVCCreate job.Namespace (newClaim job pvcName targetSize),
            op.snapshotsLocks⟩,
          ⟨.PVCreate (newVolume pvcName pdName targetSize), op.snapshotsLocks⟩]) ∧
      Extends op
        (createDiskBody w fuel job diskExists snapshotName pdZone pvcName pdName op).state := by
  -- the part after the creation block, from a state `op1` that extends `op`
  have rest : ∀ op1 : operator, Extends op op1 →
      ∃ polls post : List Issued,
        (match createDiskPoll w pdZone pdName fuel op1 with
          | .pending op2 => (Flow.pending op2 : Flow Unit)
          | .done op2 => Flow.done op2
          | .next targetSize op2 =>
            Flow.next () (createDiskBind w job pvcName pdName targetSize op2)).state.calls
          = op1.calls ++ (polls ++ post) ∧
        (∀ i ∈ polls, i = ⟨.DisksGet op.gcpProject pdZone pdName, op.snapshotsLocks⟩) ∧
        (post = [] ∨ ∃ targetSize : String,
          post = [⟨.PVCCreate job.Namespace (newClaim job pvcName targetSize),
              op.snapshotsLocks⟩] ∨
          post = [⟨.PVCCreate job.Namespace (newClaim job pvcName targetSize),
              op.snapshotsLocks⟩,
            ⟨.PVCreate (newVolume pvcName pdName targetSize), op.snapshotsLocks⟩]) ∧
        Extends op
          (match createDiskPoll w pdZone pdName fuel op1 with
          | .pending op2 => (Flow.pending op2 : Flow Unit)
          | .done op2 => Flow.done op2
          | .next targetSize op2 =>
            Flow.next () (createDiskBind w job pvcName pdName targetSize op2)).state := by
    intro op1 hext
    obtain ⟨hp1, hl1, _, _, _, _, _⟩ := id hext
    obtain ⟨polls, hc, hp, h1, h2, h3, h4⟩ := createDiskPoll_trace w pdZone pdName fuel op1
    have hpolls : ∀ i ∈ polls, i = ⟨.DisksGet op.gcpProject pdZone pdName, op.snapshotsLocks⟩ := by
      intro i hi; rw [hp i hi, hp1, hl1]
    have hpollsL : ∀ i ∈ polls, i.locks = op1.snapshotsLocks := by
      intro i hi; rw [hp i hi]
    have hextp : Extends op1 (createDiskPoll w pdZone pdName fuel op1).state :=
      ⟨h1, h2, h3, h4, polls, hc, hpollsL⟩
    cases hpoll : createDiskPoll w pdZone pdName fuel op1 with
    | pending op2 =>
      rw [hpoll] at hc hextp
      exact ⟨polls, [], by simpa [Flow.state] using hc, hpolls, Or.inl rfl,
        hext.trans hextp⟩
    | done op2 =>
      rw [hpoll] at hc hextp
      exact ⟨polls, [], by simpa [Flow.state] using hc, hpolls, Or.inl rfl,
        hext.trans hextp⟩
    | next targetSize op2 =>
      rw [hpoll] at hc hextp h2
      simp only [Flow.state] at hc hextp h2
      obtain ⟨post, hcb, hpost, hextb⟩ :=
        createDiskBind_trace w job pvcName pdName targetSize op2
      rw [h2, hl1] at hpost
      refine ⟨polls, post, ?_, hpolls, Or.inr ⟨targetSize, hpost⟩, ?_⟩
      · simp only [Flow.state]; rw [hcb, hc, List.append_assoc]
      · exact (hext.trans hextp).trans hextb
  cases hde : diskExists with
  | true =>
    obtain ⟨polls, post, hc, hp, hpost, hext⟩ := rest op (Extends.refl op)
    refine ⟨[], polls, post, by simp, ?_, hp, hpost, ?_⟩
    · simpa [createDiskBody] using hc
    · simpa [createDiskBody] using hext
  | false =>
    have hexti := createDiskInsert_extends w snapshotName pdZone pdName op
    obtain ⟨_, _, _, _, pre, hpre, _⟩ := id hexti
    cases hins : createDiskInsert w snapshotName pdZone pdName op with
    | pending op1 => exact absurd hins (createDiskInsert_not_pending w _ _ _ _ _)
    | done op1 =>
      rw [hins] at hpre hexti
      simp only [Flow.state] at hpre hexti
      refine ⟨pre, [], [], by simpa [Flow.state] using hpre, ?_, by simp, Or.inl rfl, ?_⟩
      · simpa [createDiskBody, hins, Flow.state] using hpre
      · simpa [createDiskBody, hins, Flow.state] using hexti
    | next u op1 =>
      rw [hins] at hpre hexti
      simp only [Flow.state] at hpre hexti
      obtain ⟨polls, post, hc, hp, hpost, hext⟩ := rest op1 hexti
      refine ⟨pre, polls, post, by simpa [Flow.state] using hpre, ?_, hp, hpost, ?_⟩
      · simp only [createDiskBody, hins, Bool.not_false, if_true]
        rw [hc, hpre, List.append_assoc]
      · simpa [createDiskBody, hins] using hext

/-- The deferred `markDone` does not touch the trace. -/
theorem createDisk_calls (w : World) (fuel : Nat) (job : Job) (diskExists : Bool)
    (snapshotName pdZone pvcName pdName : String) (op : operator) :
    (createDisk w fuel job diskExists snapshotName pdZone pvcName pdName op).state.calls =
      (createDiskBody w fuel job diskExists snapshotName pdZone pvcName pdName op).state.calls := by
  unfold createDisk
  cases createDiskBody w fuel job diskExists snapshotName pdZone pvcName pdName op <;> rfl

/-- The registry after `createDisk`: the start registry without `snapshotName`
when the function returned, the start registry while it is still polling. -/
theorem createDisk_locks (w : World) (fuel : Nat) (job : Job) (diskExists : Bool)
    (snapshotName pdZone pvcName pdName : String) (op : operator) :
    (createDisk w fuel job diskExists snapshotName pdZone pvcName pdName op).state.snapshotsLocks =
      if (createDisk w fuel job diskExists snapshotName pdZone pvcName pdName op).returned = true
      then op.snapshotsLocks.filter (fun k => k ≠ snapshotName)
      else op.snapshotsLocks := by
  obtain ⟨_, _, _, _, _, _, _, ⟨_, hl, _⟩⟩ :=
    createDiskBody_trace w fuel job diskExists snapshotName pdZone pvcName pdName op
  unfold createDisk
  cases hb : createDiskBody w fuel job diskExists snapshotName pdZone pvcName pdName op with
  | next u op1 => rw [hb] at hl; simp only [Flow.state] at hl; simp [markDone, hl]
  | done op1 => rw [hb] at hl; simp only [Flow.state] at hl; simp [markDone, hl]
  | pending op1 => rw [hb] at hl; simp only [Flow.state] at hl; simp [hl]

/-- The polling loop ends within `fuel` polls when the answers from the
`fuel`-th poll on end it. -/
theorem createDiskPoll_ends (w : World) (pdZone pdName : String) (fuel : Nat) :
    ∀ op : operator, 0 < fuel →
      (∀ c, op.calls.length + fuel ≤ c + 1 →
        pollEnds (w.disksGet c op.gcpProject pdZone pdName) = true) →
      ∀ op2, createDiskPoll w pdZone pdName fuel op ≠ Flow.pending op2 := by
  induction fuel with
  | zero => intro op h; exact absurd h (Nat.lt_irrefl 0)
  | succ n ih =>
    intro op _ hend op2
    unfold createDiskPoll
    simp only
    split
    · simp
    · cases hr : w.disksGet op.calls.length op.gcpProject pdZone pdName with
      | error e => simp
      | ok disk =>
        simp only
        split
        · simp
        · rename_i hready
          have hn : 0 < n := by
            rcases Nat.eq_zero_or_pos n with h0 | h0
            · exfalso
              have := hend op.calls.length (by omega)
              rw [hr] at this
              simp [pollEnds] at this
              exact hready this
            · exact h0
          apply ih (issue (.DisksGet op.gcpProject pdZone pdName) op) hn
          intro c hc
          apply hend c
          simp at hc
          omega

/-- In range, Go's `int64` addition is the exact sum. -/
theorem wrapInt64_exact (x : Int) (h1 : -2 ^ 63 ≤ x) (h2 : x < 2 ^ 63) : wrapInt64 x = x := by
  unfold wrapInt64
  omega

/-- Disk queries are neither creations, lookups, nor claim or volume calls. -/
theorem polls_filter (P : Call → Bool) (c : Call) (hP : P c = false) (L : List String)
    (polls : List Issued) (h : ∀ i ∈ polls, i = ⟨c, L⟩) :
    (polls.map Issued.call).filter P = [] := by
  rw [List.filter_eq_nil_iff]
  intro a ha
  obtain ⟨i, hi, rfl⟩ := List.mem_map.mp ha
  rw [h i hi]
  simp [hP]

theorem newCalls_self (op : operator) : newCalls op op = [] := by
  simp [newCalls]

theorem newCalls_issue (c : Call) (op : operator) :
    newCalls op (issue c op) = [⟨c, op.snapshotsLocks⟩] :=
  newCalls_append _ _ _ rfl

theorem newCalls_issue_issue (c1 c2 : Call) (op : operator) :
    newCalls op (issue c2 (issue c1 op)) =
      [⟨c1, op.snapshotsLocks⟩, ⟨c2, op.snapshotsLocks⟩] :=
  newCalls_append _ _ _ (by simp)

/-- Calls of a kind that neither the polling loop nor the end of `createDisk`
issues are exactly those of the creation block. -/
theorem createDisk_filter_pre (P : Call → Bool)
    (hGet : ∀ p z n, P (.DisksGet p z n) = false)
    (hC : ∀ ns c, P (.PVCCreate ns c) = false) (hV : ∀ v, P (.PVCreate v) = false)
    (w : World) (fuel : Nat) (job : Job) (diskExists : Bool)
    (snapshotName pdZone pvcName pdName : String) (op : operator) :
    ((newCalls op
        (createDisk w fuel job diskExists snapshotName pdZone pvcName pdName op).state).map
        Issued.call).filter P =
    ((newCalls op (if diskExists = true then op
        else (createDiskInsert w snapshotName pdZone pdName op).state)).map
        Issued.call).filter P := by
  obtain ⟨pre, polls, post, hpre, hc, hpolls, hpost, _⟩ :=
    createDiskBody_trace w fuel job diskExists snapshotName pdZone pvcName pdName op
  rw [← createDisk_calls] at hc
  rw [newCalls_append _ _ _ hc, newCalls_append _ _ _ hpre]
  have h1 := polls_filter P _ (hGet op.gcpProject pdZone pdName) _ polls hpolls
  have h2 : (post.map Issued.call).filter P = [] := by
    rcases hpost with h | ⟨t, h | h⟩ <;> subst h <;> simp [hC, hV]
  simp [List.filter_append, h1, h2]

/-- Calls of a kind that neither the creation block nor the polling loop issues
are among the at most two calls that end `createDisk`. -/
theorem createDisk_filter_post (P : Call → Bool)
    (hGet : ∀ p z n, P (.DisksGet p z n) = false)
    (hS : ∀ p n, P (.SnapshotsGet p n) = false) (hI : ∀ p z d, P (.DisksInsert p z d) = false)
    (w : World) (fuel : Nat) (job : Job) (diskExists : Bool)
    (snapshotName pdZone pvcName pdName : String) (op : operator) :
    ∃ post : List Issued,
      ((newCalls op
        (createDisk w fuel job diskExists snapshotName pdZone pvcName pdName op).state).map
        Issued.call).filter P = (post.map Issued.call).filter P ∧
      (post = [] ∨ ∃ targetSize : String,
        post = [⟨.PVCCreate job.Namespace (newClaim job pvcName targetSize),
            op.snapshotsLocks⟩] ∨
        post = [⟨.PVCCreate job.Namespace (newClaim job pvcName targetSize),
            op.snapshotsLocks⟩,
          ⟨.PVCreate (newVolume pvcName pdName targetSize), op.snapshotsLocks⟩]) := by
  obtain ⟨pre, polls, post, hpre, hc, hpolls, hpost, _⟩ :=
    createDiskBody_trace w fuel job diskExists snapshotName pdZone pvcName pdName op
  rw [← createDisk_calls] at hc
  refine ⟨post, ?_, hpost⟩
  rw [newCalls_append _ _ _ hc]
  have h1 := polls_filter P _ (hGet op.gcpProject pdZone pdName) _ polls hpolls
  have h0 : (pre.map Issued.call).filter P = [] := by
    have hpre2 := newCalls_append _ _ _ hpre
    cases hde : diskExists with
    | true => rw [hde] at hpre2; simp [newCalls_self] at hpre2; subst hpre2; rfl
    | false =>
      rw [hde] at hpre2
      simp only [Bool.false_eq_true, if_false] at hpre2
      cases h : shouldUseSnapshotForDisk snapshotName with
      | false =>
        rw [createDiskInsert_empty w _ _ _ _ h, newCalls_issue] at hpre2
        subst hpre2; simp [hI]
      | true =>
        cases hs : w.snapshotsGet op.calls.length op.gcpProject snapshotName with
        | error e =>
          rw [createDiskInsert_failed w _ _ _ _ e h hs] at hpre2
          simp only [Flow.state] at hpre2
          rw [newCalls_issue] at hpre2
          subst hpre2; simp [hS]
        | ok snapshot =>
          rw [createDiskInsert_found w _ _ _ _ snapshot h hs, newCalls_issue_issue] at hpre2
          subst hpre2; simp [hS, hI]
  simp [List.filter_append, h0, h1]

/-! ## C5: size and source of the created disk -/

/-- C5: in a run of `createDisk` with the disk absent (`diskExists = false`),
whatever the fuel: when `snapshotName` ends with `empty-disk`, the one disk
creation call carries `SizeGb = 50` and an empty source snapshot, and no
snapshot lookup is made; when it does not and the lookup returns a snapshot, the
one disk creation call carries `SizeGb = DiskSizeGb + 50` in Go's `int64`
arithmetic (the exact sum whenever that fits `int64`) and the snapshot's
`SelfLink` as source. -/
theorem createDisk_disk_parameters (w : World) (fuel : Nat) (job : Job)
    (snapshotName pdZone pvcName pdName : String) (op : operator) :
    (strings.HasSuffix snapshotName emptyDirSnapshotSuffix = true →
      ∃ disk : Disk,
        insertsOf (newCalls op
          (createDisk w fuel job false snapshotName pdZone pvcName pdName op).state) =
          [.DisksInsert op.gcpProject pdZone disk] ∧
        disk.Name = pdName ∧ disk.SizeGb = 50 ∧ disk.SourceSnapshot = "" ∧
        lookupsOf (newCalls op
          (createDisk w fuel job false snapshotName pdZone pvcName pdName op).state) = []) ∧
    (strings.HasSuffix snapshotName emptyDirSnapshotSuffix = false →
      ∀ snapshot : Snapshot,
        w.snapshotsGet op.calls.length op.gcpProject snapshotName = .ok snapshot →
        ∃ disk : Disk,
          insertsOf (newCalls op
            (createDisk w fuel job false snapshotName pdZone pvcName pdName op).state) =
            [.DisksInsert op.gcpProject pdZone disk] ∧
          disk.Name = pdName ∧
          disk.SizeGb = wrapInt64 (snapshot.DiskSizeGb + 50) ∧
          (-2 ^ 63 ≤ snapshot.DiskSizeGb + 50 → snapshot.DiskSizeGb + 50 < 2 ^ 63 →
            disk.SizeGb = snapshot.DiskSizeGb + 50) ∧
          disk.SourceSnapshot = snapshot.SelfLink ∧
          lookupsOf (newCalls op
            (createDisk w fuel job false snapshotName pdZone pvcName pdName op).state) =
            [.SnapshotsGet op.gcpProject snapshotName]) := by
  have hI := createDisk_filter_pre Call.isDisksInsert (fun _ _ _ => rfl) (fun _ _ => rfl)
    (fun _ => rfl) w fuel job false snapshotName pdZone pvcName pdName op
  have hS := createDisk_filter_pre Call.isSnapshotsGet (fun _ _ _ => rfl) (fun _ _ => rfl)
    (fun _ => rfl) w fuel job false snapshotName pdZone pvcName pdName op
  simp only [Bool.false_eq_true, if_false] at hI hS
  constructor
  · intro hsuf
    have h : shouldUseSnapshotForDisk snapshotName = false := by
      simp [shouldUseSnapshotForDisk, hsuf]
    rw [createDiskInsert_empty w _ _ _ _ h, newCalls_issue] at hI hS
    refine ⟨newDisk op.gcpProject snapshotName pdZone pdName "" 50, ?_, rfl, rfl, rfl, ?_⟩
    · unfold insertsOf; rw [hI]; rfl
    · unfold lookupsOf; rw [hS]; rfl
  · intro hsuf snapshot hs
    have h : shouldUseSnapshotForDisk snapshotName = true := by
      simp [shouldUseSnapshotForDisk, hsuf]
    rw [createDiskInsert_found w _ _ _ _ snapshot h hs, newCalls_issue_issue] at hI hS
    refine ⟨newDisk op.gcpProject snapshotName pdZone pdName snapshot.SelfLink
      (wrapInt64 (snapshot.DiskSizeGb + 50)), ?_, rfl, rfl, ?_, rfl, ?_⟩
    · unfold insertsOf; rw [hI]; rfl
    · intro h1 h2; exact wrapInt64_exact _ h1 h2
    · unfold lookupsOf; rw [hS]; rfl

/-! ## C6: the registry when `createDisk` returns -/

/-- C6: whenever `createDisk` returns, whatever happened on the way, the registry
no longer marks `snapshotName` and marks every other identifier as it did at the
start; and `createDisk` does return, within `k + 1` polls, as soon as the disk
queries from the `k`-th call on answer with an error or a READY disk. -/
theorem createDisk_clears_mark (w : World) (job : Job) (diskExists : Bool)
    (snapshotName pdZone pvcName pdName : String) (op : operator) :
    (∀ fuel : Nat,
      (createDisk w fuel job diskExists snapshotName pdZone pvcName pdName op).returned = true →
      isProcessing snapshotName
        (createDisk w fuel job diskExists snapshotName pdZone pvcName pdName op).state = false ∧
      ∀ id : String, id ≠ snapshotName →
        isProcessing id
          (createDisk w fuel job diskExists snapshotName pdZone pvcName pdName op).state =
        isProcessing id op) ∧
    (∀ k : Nat,
      (∀ c, op.calls.length + k ≤ c →
        pollEnds (w.disksGet c op.gcpProject pdZone pdName) = true) →
      (createDisk w (k + 1) job diskExists snapshotName pdZone pvcName pdName op).returned
        = true) := by
  constructor
  · intro fuel hret
    have hl := createDisk_locks w fuel job diskExists snapshotName pdZone pvcName pdName op
    rw [if_pos hret] at hl
    unfold isProcessing
    rw [hl]
    constructor
    · simp
    · intro id hid
      simp [List.mem_filter, hid]
  · intro k hend
    have hpoll : ∀ op1 : operator, Extends op op1 → ∀ op2,
        createDiskPoll w pdZone pdName (k + 1) op1 ≠ Flow.pending op2 := by
      intro op1 hext op2
      obtain ⟨hp, _, _, _, new, hc, _⟩ := hext
      apply createDiskPoll_ends w pdZone pdName (k + 1) op1 (Nat.succ_pos k)
      intro c hc2
      rw [hp]
      apply hend
      rw [hc] at hc2
      simp at hc2
      omega
    unfold createDisk createDiskBody
    cases diskExists with
    | true =>
      simp only [Bool.not_true, Bool.false_eq_true, if_false]
      cases h : createDiskPoll w pdZone pdName (k + 1) op with
      | pending op2 => exact absurd h (hpoll op (Extends.refl op) op2)
      | done op2 => rfl
      | next t op2 => rfl
    | false =>
      simp only [Bool.not_false, if_true]
      have hext := createDiskInsert_extends w snapshotName pdZone pdName op
      cases hins : createDiskInsert w snapshotName pdZone pdName op with
      | pending op1 => exact absurd hins (createDiskInsert_not_pending w _ _ _ _ _)
      | done op1 => rfl
      | next u op1 =>
        rw [hins] at hext
        simp only [Flow.state] at hext
        simp only
        cases h : createDiskPoll w pdZone pdName (k + 1) op1 with
        | pending op2 => exact absurd h (hpoll op1 hext op2)
        | done op2 => rfl
        | next t op2 => rfl

/-! ## C7: the registry at the time of the claim and volume creation -/

/-- C7 fails: in the scenario run (disk absent, every call succeeds) started by
`doCreate`, the claim creation and the volume creation are both issued while the
registry still marks `img-17`. -/
theorem createDisk_mark_cleared_before_bind_counterexample :
    ¬ (∀ i ∈ (createDisk worldOk 5 jobImg17 false "img-17" "us-central1-c" "data-img-17"
          "data-img-17" (doCreate worldOk jobImg17 op0).2).state.calls,
        (i.call.isPVCCreate = true ∨ i.call.isPVCreate = true) → "img-17" ∉ i.locks) := by
  decide

/-- C7 as amended: every call of a `createDisk` run, the claim and the volume
creation included, is issued under the registry `createDisk` started with, so
when `snapshotName` is marked at the start (as `doCreate` leaves it) it is still
marked when the claim and the volume are created; the mark is cleared only
afterwards, when `createDisk` returns. -/
theorem createDisk_mark_held_until_return (w : World) (fuel : Nat) (job : Job)
    (diskExists : Bool) (snapshotName pdZone pvcName pdName : String) (op : operator)
    (hmark : isProcessing snapshotName op = true) :
    (∀ i ∈ newCalls op
        (createDisk w fuel job diskExists snapshotName pdZone pvcName pdName op).state,
      i.locks = op.snapshotsLocks ∧
      ((i.call.isPVCCreate = true ∨ i.call.isPVCreate = true) → snapshotName ∈ i.locks)) ∧
    ((createDisk w fuel job diskExists snapshotName pdZone pvcName pdName op).returned = true →
      isProcessing snapshotName
        (createDisk w fuel job diskExists snapshotName pdZone pvcName pdName op).state
        = false) := by
  constructor
  · intro i hi
    obtain ⟨_, _, _, _, _, _, _, hext⟩ :=
      createDiskBody_trace w fuel job diskExists snapshotName pdZone pvcName pdName op
    have hl : i.locks = op.snapshotsLocks := by
      apply hext.locks
      unfold newCalls at hi ⊢
      rw [createDisk_calls] at hi
      exact hi
    refine ⟨hl, fun _ => ?_⟩
    rw [hl]
    simpa [isProcessing] using hmark
  · intro hret
    have hl := createDisk_locks w fuel job diskExists snapshotName pdZone pvcName pdName op
    rw [if_pos hret] at hl
    unfold isProcessing
    rw [hl]
    simp

/-- C7 as amended, at the scenario run: the claim creation is on the trace and
was issued under the mark. -/
theorem createDisk_mark_held_until_return_witness :
    isProcessing "img-17" (doCreate worldOk jobImg17 op0).2 = true ∧
    (∀ i ∈ newCalls (doCreate worldOk jobImg17 op0).2
        (createDisk worldOk 5 jobImg17 false "img-17" "us-central1-c" "data-img-17"
          "data-img-17" (doCreate worldOk jobImg17 op0).2).state,
      i.locks = (doCreate worldOk jobImg17 op0).2.snapshotsLocks ∧
      ((i.call.isPVCCreate = true ∨ i.call.isPVCreate = true) → "img-17" ∈ i.locks)) :=
  ⟨by decide,
    (createDisk_mark_held_until_return worldOk 5 jobImg17 false "img-17" "us-central1-c"
      "data-img-17" "data-img-17" (doCreate worldOk jobImg17 op0).2 (by decide)).1⟩

/-! ## The cases of `doCreate` -/

@[simp] theorem isProcessing_markProcessing (n : String) (op : operator) :
    isProcessing n (markProcessing n op) = true := by
  unfold isProcessing markProcessing
  by_cases h : n ∈ op.snapshotsLocks <;> simp [h]

/-- `doCreate` while the snapshot is marked: nothing but the path record. -/
theorem doCreate_marked (w : World) (job : Job) (op : operator) (snapshotName pdZone : String)
    (hann : getAnnotations job = .ok (snapshotName, pdZone))
    (hm : isProcessing snapshotName op = true) :
    doCreate w job op = (none, enter .create job op) := by
  unfold doCreate
  rw [hann]
  simp [hm]

/-- `doCreate` when the disk query succeeds: mark, and start `createDisk` with
`diskExists = true`. -/
theorem doCreate_found (w : World) (job : Job) (op : operator) (snapshotName pdZone : String)
    (disk : Disk)
    (hann : getAnnotations job = .ok (snapshotName, pdZone))
    (hm : isProcessing snapshotName op = false)
    (hq : w.disksGet op.calls.length op.gcpProject pdZone (diskNamesFromJob job snapshotName).2
      = .ok disk) :
    doCreate w job op = (none,
      spawn (.createDisk job true snapshotName pdZone (diskNamesFromJob job snapshotName).1
          (diskNamesFromJob job snapshotName).2)
        (markProcessing snapshotName
          (issue (.DisksGet op.gcpProject pdZone (diskNamesFromJob job snapshotName).2)
            (enter .create job op)))) := by
  unfold doCreate
  rw [hann]
  simp [hm, hq, errOf]

/-- `doCreate` when the disk query fails with a 404: mark, and start
`createDisk` with `diskExists = false`. -/
theorem doCreate_missing (w : World) (job : Job) (op : operator) (snapshotName pdZone : String)
    (e : GcpError)
    (hann : getAnnotations job = .ok (snapshotName, pdZone))
    (hm : isProcessing snapshotName op = false)
    (hq : w.disksGet op.calls.length op.gcpProject pdZone (diskNamesFromJob job snapshotName).2
      = .error e)
    (he : isNotFound (some e) = true) :
    doCreate w job op = (none,
      spawn (.createDisk job false snapshotName pdZone (diskNamesFromJob job snapshotName).1
          (diskNamesFromJob job snapshotName).2)
        (markProcessing snapshotName
          (issue (.DisksGet op.gcpProject pdZone (diskNamesFromJob job snapshotName).2)
            (enter .create job op)))) := by
  unfold doCreate
  rw [hann]
  simp [hm, hq, errOf, he]

/-- `doCreate` when the disk query fails with another error: the query only. -/
theorem doCreate_query_failed (w : World) (job : Job) (op : operator)
    (snapshotName pdZone : String) (e : GcpError)
    (hann : getAnnotations job = .ok (snapshotName, pdZone))
    (hm : isProcessing snapshotName op = false)
    (hq : w.disksGet op.calls.length op.gcpProject pdZone (diskNamesFromJob job snapshotName).2
      = .error e)
    (he : isNotFound (some e) = false) :
    doCreate w job op = (none,
      issue (.DisksGet op.gcpProject pdZone (diskNamesFromJob job snapshotName).2)
        (enter .create job op)) := by
  unfold doCreate
  rw [hann]
  simp [hm, hq, errOf, he]

/-- `doCreate` starts at most one task, and starts none unless it marks. -/
theorem doCreate_tasks (w : World) (job : Job) (op : operator) (snapshotName pdZone : String)
    (hann : getAnnotations job = .ok (snapshotName, pdZone)) :
    (doCreate w job op).2.tasks = op.tasks ∨
    ∃ diskExists : Bool, (doCreate w job op).2.tasks = op.tasks ++
      [.createDisk job diskExists snapshotName pdZone (diskNamesFromJob job snapshotName).1
        (diskNamesFromJob job snapshotName).2] := by
  cases hm : isProcessing snapshotName op with
  | true => rw [doCreate_marked w job op _ _ hann hm]; exact Or.inl rfl
  | false =>
    cases hq : w.disksGet op.calls.length op.gcpProject pdZone
        (diskNamesFromJob job snapshotName).2 with
    | ok disk => rw [doCreate_found w job op _ _ disk hann hm hq]; exact Or.inr ⟨true, rfl⟩
    | error e =>
      cases he : isNotFound (some e) with
      | true => rw [doCreate_missing w job op _ _ e hann hm hq he]; exact Or.inr ⟨false, rfl⟩
      | false => rw [doCreate_query_failed w job op _ _ e hann hm hq he]; exact Or.inl rfl

/-! ## Counting the calls of a `createDisk` run -/

/-- The creation block issues at most one lookup and at most one insert, and
none when it is skipped. -/
theorem createDisk_pre_counts (w : World) (diskExists : Bool)
    (snapshotName pdZone pdName : String) (op : operator) :
    (insertsOf (newCalls op (if diskExists = true then op
      else (createDiskInsert w snapshotName pdZone pdName op).state))).length ≤ 1 ∧
    (lookupsOf (newCalls op (if diskExists = true then op
      else (createDiskInsert w snapshotName pdZone pdName op).state))).length ≤ 1 ∧
    (diskExists = true →
      insertsOf (newCalls op (if diskExists = true then op
        else (createDiskInsert w snapshotName pdZone pdName op).state)) = [] ∧
      lookupsOf (newCalls op (if diskExists = true then op
        else (createDiskInsert w snapshotName pdZone pdName op).state)) = []) := by
  cases diskExists with
  | true => simp [newCalls_self, insertsOf, lookupsOf]
  | false =>
    simp only [Bool.false_eq_true, if_false, false_implies, and_true]
    cases h : shouldUseSnapshotForDisk snapshotName with
    | false =>
      rw [createDiskInsert_empty w _ _ _ _ h, newCalls_issue]
      simp [insertsOf, lookupsOf, Call.isDisksInsert, Call.isSnapshotsGet]
    | true =>
      cases hs : w.snapshotsGet op.calls.length op.gcpProject snapshotName with
      | error e =>
        rw [createDiskInsert_failed w _ _ _ _ e h hs]
        simp only [Flow.state]
        rw [newCalls_issue]
        simp [insertsOf, lookupsOf, Call.isDisksInsert, Call.isSnapshotsGet]
      | ok snapshot =>
        rw [createDiskInsert_found w _ _ _ _ snapshot h hs, newCalls_issue_issue]
        simp [insertsOf, lookupsOf, Call.isDisksInsert, Call.isSnapshotsGet]

/-- A run of `createDisk` issues at most one disk creation, one snapshot lookup,
one claim creation and one volume creation; with `diskExists = true` it issues
no disk creation and no snapshot lookup at all. -/
theorem createDisk_counts (w : World) (fuel : Nat) (job : Job) (diskExists : Bool)
    (snapshotName pdZone pvcName pdName : String) (op : operator) :
    (insertsOf (newCalls op
      (createDisk w fuel job diskExists snapshotName pdZone pvcName pdName op).state)).length
      ≤ 1 ∧
    (lookupsOf (newCalls op
      (createDisk w fuel job diskExists snapshotName pdZone pvcName pdName op).state)).length
      ≤ 1 ∧
    (claimCreatesOf (newCalls op
      (createDisk w fuel job diskExists snapshotName pdZone pvcName pdName op).state)).length
      ≤ 1 ∧
    (volumeCreatesOf (newCalls op
      (createDisk w fuel job diskExists snapshotName pdZone pvcName pdName op).state)).length
      ≤ 1 ∧
    (diskExists = true →
      insertsOf (newCalls op
        (createDisk w fuel job diskExists snapshotName pdZone pvcName pdName op).state) = [] ∧
      lookupsOf (newCalls op
        (createDisk w fuel job diskExists snapshotName pdZone pvcName pdName op).state) = []) := by
  have hI := createDisk_filter_pre Call.isDisksInsert (fun _ _ _ => rfl) (fun _ _ => rfl)
    (fun _ => rfl) w fuel job diskExists snapshotName pdZone pvcName pdName op
  have hS := createDisk_filter_pre Call.isSnapshotsGet (fun _ _ _ => rfl) (fun _ _ => rfl)
    (fun _ => rfl) w fuel job diskExists snapshotName pdZone pvcName pdName op
  obtain ⟨p1, hC, hp1⟩ := createDisk_filter_post Call.isPVCCreate (fun _ _ _ => rfl)
    (fun _ _ => rfl) (fun _ _ _ => rfl) w fuel job diskExists snapshotName pdZone pvcName pdName op
  obtain ⟨p2, hV, hp2⟩ := createDisk_filter_post Call.isPVCreate (fun _ _ _ => rfl)
    (fun _ _ => rfl) (fun _ _ _ => rfl) w fuel job diskExists snapshotName pdZone pvcName pdName op
  obtain ⟨c1, c2, c3⟩ := createDisk_pre_counts w diskExists snapshotName pdZone pdName op
  simp only [insertsOf, lookupsOf] at c1 c2 c3
  simp only [insertsOf, lookupsOf, claimCreatesOf, volumeCreatesOf]
  rw [hI, hS, hC, hV]
  refine ⟨c1, c2, ?_, ?_, c3⟩
  · rcases hp1 with h | ⟨t, h | h⟩ <;> subst h <;> simp [Call.isPVCCreate]
  · rcases hp2 with h | ⟨t, h | h⟩ <;> subst h <;> simp [Call.isPVCreate]

/-- With the disk absent, an empty-disk request or a successful snapshot lookup
leads to exactly one disk creation call. -/
theorem createDisk_one_insert (w : World) (fuel : Nat) (job : Job)
    (snapshotName pdZone pvcName pdName : String) (op : operator)
    (h : strings.HasSuffix snapshotName emptyDirSnapshotSuffix = true ∨
      ∃ snapshot, w.snapshotsGet op.calls.length op.gcpProject snapshotName = .ok snapshot) :
    (insertsOf (newCalls op
      (createDisk w fuel job false snapshotName pdZone pvcName pdName op).state)).length
      = 1 := by
  have hI := createDisk_filter_pre Call.isDisksInsert (fun _ _ _ => rfl) (fun _ _ => rfl)
    (fun _ => rfl) w fuel job false snapshotName pdZone pvcName pdName op
  simp only [Bool.false_eq_true, if_false] at hI
  unfold insertsOf
  rw [hI]
  cases hu : shouldUseSnapshotForDisk snapshotName with
  | false =>
    rw [createDiskInsert_empty w _ _ _ _ hu, newCalls_issue]
    simp [Call.isDisksInsert]
  | true =>
    have hsuf : strings.HasSuffix snapshotName emptyDirSnapshotSuffix = false := by
      simpa [shouldUseSnapshotForDisk] using hu
    rcases h with h | ⟨snapshot, hs⟩
    · rw [hsuf] at h; exact absurd h (by simp)
    · rw [createDiskInsert_found w _ _ _ _ snapshot hu hs, newCalls_issue_issue]
      simp [Call.isDisksInsert, Call.isSnapshotsGet]

/-! ## C9: the names derived from the job -/

/-- `containsChars` decides the infix relation. -/
theorem containsChars_iff (s substr : List Char) :
    containsChars s substr = true ↔ substr <:+: s := by
  induction s with
  | nil => simp [containsChars, List.infix_nil]
  | cons c cs ih =>
    rw [containsChars, Bool.or_eq_true, ih, List.infix_cons_iff, List.isPrefixOf_iff_prefix]

/-- `strings.Contains` is the substring relation on the characters. -/
theorem Contains_iff (s substr : String) :
    strings.Contains s substr = true ↔ substr.data <:+: s.data :=
  containsChars_iff s.data substr.data

/-- The loop of `diskNamesFromJob` keeps the last matching claim name. -/
theorem diskNamesLoop_eq (snapshotName : String) (vols : List Volume) :
    ∀ pvcName : String, diskNamesLoop snapshotName vols pvcName =
      ((vols.filterMap fun vol =>
        match vol.VolumeSource.PersistentVolumeClaim with
        | some claim =>
          if strings.Contains claim.ClaimName snapshotName then some claim.ClaimName else none
        | none => none).getLast?).getD pvcName := by
  induction vols with
  | nil => intro pvcName; simp [diskNamesLoop]
  | cons vol vols ih =>
    intro pvcName
    unfold diskNamesLoop
    cases hv : vol.VolumeSource.PersistentVolumeClaim with
    | none => simp only [List.filterMap_cons, hv]; exact ih pvcName
    | some claim =>
      simp only [List.filterMap_cons, hv]
      by_cases hc : strings.Contains claim.ClaimName snapshotName = true
      · simp only [hc, if_true]
        rw [ih, List.getLast?_cons]
        simp
      · simp only [hc, if_false]
        exact ih pvcName

/-- The names `getAnnotations` returns are not empty. -/
theorem getAnnotations_nonempty (job : Job) (snapshotName pdZone : String)
    (h : getAnnotations job = .ok (snapshotName, pdZone)) :
    snapshotName ≠ "" ∧ pdZone ≠ "" := by
  unfold getAnnotations at h
  simp only at h
  split at h
  · cases h
  · split at h
    · cases h
    · rename_i h1 h2
      simp only [Except.ok.injEq, Prod.mk.injEq] at h
      exact ⟨h.1 ▸ h1, h.2 ▸ h2⟩

/-- C9: for every job and `snapshotName`, `diskNamesFromJob` returns the same
name twice; the name is the claim name of the last volume of the pod template
whose claim name contains `snapshotName` as a substring, and `""` when there is
none; and it is `""` exactly when no volume has such a claim, for every
`snapshotName` that is not empty, so for every `snapshotName` that
`getAnnotations` hands to `doCreate` and `doDelete`, the two callers. -/
theorem diskNamesFromJob_spec (job : Job) (snapshotName : String) :
    (diskNamesFromJob job snapshotName).1 = (diskNamesFromJob job snapshotName).2 ∧
    (diskNamesFromJob job snapshotName).1 =
      ((matchingClaims job snapshotName).getLast?).getD "" ∧
    (∀ name : String, name ∈ matchingClaims job snapshotName ↔
      ∃ vol ∈ job.Spec.Template.Spec.Volumes, ∃ claim,
        vol.VolumeSource.PersistentVolumeClaim = some claim ∧ claim.ClaimName = name ∧
        snapshotName.data <:+: name.data) ∧
    (snapshotName ≠ "" →
      ((diskNamesFromJob job snapshotName).1 = "" ↔ matchingClaims job snapshotName = [])) ∧
    (∀ pdZone : String, getAnnotations job = .ok (snapshotName, pdZone) →
      ((diskNamesFromJob job snapshotName).1 = "" ↔ matchingClaims job snapshotName = []) ∧
      ((diskNamesFromJob job snapshotName).1 = "" ↔
        ∀ vol ∈ job.Spec.Template.Spec.Volumes, ∀ claim,
          vol.VolumeSource.PersistentVolumeClaim = some claim →
          ¬ snapshotName.data <:+: claim.ClaimName.data)) := by
  have hres : (diskNamesFromJob job snapshotName).1 =
      ((matchingClaims job snapshotName).getLast?).getD "" := by
    unfold diskNamesFromJob matchingClaims
    exact diskNamesLoop_eq snapshotName _ ""
  have hmem : ∀ name : String, name ∈ matchingClaims job snapshotName ↔
      ∃ vol ∈ job.Spec.Template.Spec.Volumes, ∃ claim,
        vol.VolumeSource.PersistentVolumeClaim = some claim ∧ claim.ClaimName = name ∧
        snapshotName.data <:+: name.data := by
    intro name
    unfold matchingClaims
    rw [List.mem_filterMap]
    constructor
    · rintro ⟨vol, hvol, h⟩
      cases hv : vol.VolumeSource.PersistentVolumeClaim with
      | none => rw [hv] at h; simp at h
      | some claim =>
        rw [hv] at h
        by_cases hc : strings.Contains claim.ClaimName snapshotName = true
        · simp only [hc, if_true, Option.some.injEq] at h
          exact ⟨vol, hvol, claim, hv, h, by rw [← h]; exact (Contains_iff _ _).mp hc⟩
        · simp [hc] at h
    · rintro ⟨vol, hvol, claim, hv, hn, hinf⟩
      refine ⟨vol, hvol, ?_⟩
      have hc : strings.Contains claim.ClaimName snapshotName = true := by
        rw [Contains_iff, hn]; exact hinf
      rw [hn] at hc
      simp only [hv, hn, hc, if_true]
  have hiff : snapshotName ≠ "" →
      ((diskNamesFromJob job snapshotName).1 = "" ↔ matchingClaims job snapshotName = []) := by
    intro hne
    rw [hres]
    constructor
    · intro h
      by_contra hcon
      have hlast := List.getLast?_eq_getLast _ hcon
      rw [hlast] at h
      simp only [Option.getD_some] at h
      have hin := List.getLast_mem hcon
      rw [h] at hin
      obtain ⟨_, _, _, _, _, hinf⟩ := (hmem "").mp hin
      have : snapshotName.data = [] := by simpa using hinf
      apply hne
      cases snapshotName
      simp_all
    · intro h
      rw [h]
      rfl
  refine ⟨rfl, hres, hmem, hiff, ?_⟩
  intro pdZone hann
  have hne := (getAnnotations_nonempty job snapshotName pdZone hann).1
  refine ⟨hiff hne, ?_⟩
  rw [hiff hne, List.eq_nil_iff_forall_not_mem]
  constructor
  · intro h vol hvol claim hv hinf
    exact h claim.ClaimName ((hmem _).mpr ⟨vol, hvol, claim, hv, rfl, hinf⟩)
  · intro h name hname
    obtain ⟨vol, hvol, claim, hv, hn, hinf⟩ := (hmem name).mp hname
    exact h vol hvol claim hv (by rw [hn]; exact hinf)

/-! ## C8: no volume matches the snapshot name -/

/-- Without a matching volume the loop of `diskNamesFromJob` returns what it
started with. -/
theorem diskNamesLoop_no_match (snapshotName : String) (vols : List Volume)
    (hno : ∀ vol ∈ vols, ∀ claim, vol.VolumeSource.PersistentVolumeClaim = some claim →
      strings.Contains claim.ClaimName snapshotName = false) :
    ∀ pvcName : String, diskNamesLoop snapshotName vols pvcName = pvcName := by
  induction vols with
  | nil => intro pvcName; rfl
  | cons vol vols ih =>
    intro pvcName
    have ih2 := ih (fun v hv => hno v (List.mem_cons_of_mem _ hv))
    unfold diskNamesLoop
    cases hv : vol.VolumeSource.PersistentVolumeClaim with
    | none => exact ih2 pvcName
    | some claim =>
      have hc := hno vol (List.mem_cons_self _ _) claim hv
      simp only [hc, Bool.false_eq_true, if_false]
      exact ih2 pvcName

/-- C8 fails as stated: for the scenario job without any volume, on a fresh
operator, `doCreate` issues a disk query for the empty disk name and, the answer
being a 404, marks the registry and starts a `createDisk` task with empty names;
`doDelete` issues a claim deletion for the empty claim name. -/
theorem no_matching_volume_counterexample :
    diskNamesFromJob jobNoVolume "img-17" = ("", "") ∧
    newCalls op0 (doCreate worldOk jobNoVolume op0).2 =
      [⟨.DisksGet "proj" "us-central1-c" "", []⟩] ∧
    isProcessing "img-17" (doCreate worldOk jobNoVolume op0).2 = true ∧
    (doCreate worldOk jobNoVolume op0).2.tasks =
      [.createDisk jobNoVolume false "img-17" "us-central1-c" "" ""] ∧
    newCalls op0 (doDelete worldOk jobNoVolume op0).2 = [⟨.PVCDelete "default" "", []⟩] ∧
    ¬ (queriesOf (newCalls op0 (doCreate worldOk jobNoVolume op0).2) = [] ∧
      claimDeletesOf (newCalls op0 (doDelete worldOk jobNoVolume op0).2) = []) := by
  decide

/-- C8 as amended: for a job with both annotations and no volume whose claim
name contains `snapshotName`, `diskNamesFromJob` returns empty names and both
paths go on with them: `doDelete` issues one claim deletion for the empty claim
name; `doCreate`, unless the snapshot is already marked, issues one disk query
for the empty disk name, and marks the registry and starts `createDisk` with the
empty names unless that query fails with an error other than a 404. -/
theorem no_matching_volume (w : World) (job : Job) (op : operator)
    (snapshotName pdZone : String)
    (hann : getAnnotations job = .ok (snapshotName, pdZone))
    (hno : ∀ vol ∈ job.Spec.Template.Spec.Volumes, ∀ claim,
      vol.VolumeSource.PersistentVolumeClaim = some claim →
      strings.Contains claim.ClaimName snapshotName = false) :
    diskNamesFromJob job snapshotName = ("", "") ∧
    (doDelete w job op).2.calls =
      op.calls ++ [⟨.PVCDelete job.Namespace "", op.snapshotsLocks⟩] ∧
    (isProcessing snapshotName op = false →
      queriesOf (newCalls op (doCreate w job op).2) = [.DisksGet op.gcpProject pdZone ""] ∧
      ((∀ e, w.disksGet op.calls.length op.gcpProject pdZone "" = .error e →
          e = .googleapi 404) →
        isProcessing snapshotName (doCreate w job op).2 = true ∧
        ∃ diskExists : Bool, newTasks op (doCreate w job op).2 =
          [.createDisk job diskExists snapshotName pdZone "" ""])) := by
  have hnames : diskNamesFromJob job snapshotName = ("", "") := by
    unfold diskNamesFromJob
    simp only [diskNamesLoop_no_match snapshotName _ hno ""]
  refine ⟨hnames, ?_, ?_⟩
  · have h := (doDelete_calls w job op snapshotName pdZone hann).1
    rw [hnames] at h
    exact h
  · intro hm
    have hn2 : (diskNamesFromJob job snapshotName).2 = "" := by rw [hnames]
    have hn1 : (diskNamesFromJob job snapshotName).1 = "" := by rw [hnames]
    cases hq : w.disksGet op.calls.length op.gcpProject pdZone "" with
    | ok disk =>
      have h := doCreate_found w job op _ _ disk hann hm (by rw [hn2]; exact hq)
      rw [hn1, hn2] at h
      rw [h]
      refine ⟨?_, fun _ => ⟨by simp, true, ?_⟩⟩
      · simp [queriesOf, newCalls, Call.isDisksGet]
      · simp [newTasks]
    | error e =>
      cases he : isNotFound (some e) with
      | true =>
        have h := doCreate_missing w job op _ _ e hann hm (by rw [hn2]; exact hq) he
        rw [hn1, hn2] at h
        rw [h]
        refine ⟨?_, fun _ => ⟨by simp, false, ?_⟩⟩
        · simp [queriesOf, newCalls, Call.isDisksGet]
        · simp [newTasks]
      | false =>
        have h := doCreate_query_failed w job op _ _ e hann hm (by rw [hn2]; exact hq) he
        rw [hn2] at h
        rw [h]
        refine ⟨?_, fun h404 => ?_⟩
        · simp [queriesOf, newCalls, Call.isDisksGet]
        · have := h404 e rfl
          rw [this] at he
          simp [isNotFound] at he

/-- C8 as amended, at the scenario job without any volume. -/
theorem no_matching_volume_witness :
    getAnnotations jobNoVolume = .ok ("img-17", "us-central1-c") ∧
    diskNamesFromJob jobNoVolume "img-17" = ("", "") ∧
    (doDelete worldOk jobNoVolume op0).2.calls =
      op0.calls ++ [⟨.PVCDelete jobNoVolume.Namespace "", op0.snapshotsLocks⟩] :=
  ⟨rfl,
    (no_matching_volume worldOk jobNoVolume op0 "img-17" "us-central1-c" rfl
      (by intro vol hvol; exact absurd hvol (List.not_mem_nil vol))).1,
    (no_matching_volume worldOk jobNoVolume op0 "img-17" "us-central1-c" rfl
      (by intro vol hvol; exact absurd hvol (List.not_mem_nil vol))).2.1⟩

/-! ## C10: the disk query of `doCreate` -/

/-- The 404 test of `isNotFound`. -/
theorem isNotFound_iff (e : GcpError) : isNotFound (some e) = true ↔ e = .googleapi 404 := by
  cases e with
  | googleapi code => simp [isNotFound]
  | other msg => simp [isNotFound]

/-- C10: for a job with both annotations whose `snapshotName` is not marked: when
the disk query of `doCreate` succeeds, the registry is marked and the started
`createDisk` (with `diskExists = true`) issues no snapshot lookup and no disk
creation; when the query fails with a 404, the registry is marked and the
started `createDisk` (with `diskExists = false`) issues at most one disk
creation, exactly one for an empty-disk request or a successful lookup; when the
query fails with another error, the registry is not marked and no task starts. -/
theorem doCreate_disk_query (w : World) (job : Job) (op : operator)
    (snapshotName pdZone : String)
    (hann : getAnnotations job = .ok (snapshotName, pdZone))
    (hm : isProcessing snapshotName op = false) :
    (∀ disk : Disk,
      w.disksGet op.calls.length op.gcpProject pdZone (diskNamesFromJob job snapshotName).2
        = .ok disk →
      isProcessing snapshotName (doCreate w job op).2 = true ∧
      newTasks op (doCreate w job op).2 =
        [.createDisk job true snapshotName pdZone (diskNamesFromJob job snapshotName).1
          (diskNamesFromJob job snapshotName).2] ∧
      ∀ (fuel : Nat) (op1 : operator),
        lookupsOf (newCalls op1 (createDisk w fuel job true snapshotName pdZone
          (diskNamesFromJob job snapshotName).1 (diskNamesFromJob job snapshotName).2
          op1).state) = [] ∧
        insertsOf (newCalls op1 (createDisk w fuel job true snapshotName pdZone
          (diskNamesFromJob job snapshotName).1 (diskNamesFromJob job snapshotName).2
          op1).state) = []) ∧
    (w.disksGet op.calls.length op.gcpProject pdZone (diskNamesFromJob job snapshotName).2
        = .error (.googleapi 404) →
      isProcessing snapshotName (doCreate w job op).2 = true ∧
      newTasks op (doCreate w job op).2 =
        [.createDisk job false snapshotName pdZone (diskNamesFromJob job snapshotName).1
          (diskNamesFromJob job snapshotName).2] ∧
      ∀ (fuel : Nat) (op1 : operator),
        (insertsOf (newCalls op1 (createDisk w fuel job false snapshotName pdZone
          (diskNamesFromJob job snapshotName).1 (diskNamesFromJob job snapshotName).2
          op1).state)).length ≤ 1 ∧
        ((strings.HasSuffix snapshotName emptyDirSnapshotSuffix = true ∨
            ∃ snapshot,
              w.snapshotsGet op1.calls.length op1.gcpProject snapshotName = .ok snapshot) →
          (insertsOf (newCalls op1 (createDisk w fuel job false snapshotName pdZone
            (diskNamesFromJob job snapshotName).1 (diskNamesFromJob job snapshotName).2
            op1).state)).length = 1)) ∧
    (∀ e : GcpError,
      w.disksGet op.calls.length op.gcpProject pdZone (diskNamesFromJob job snapshotName).2
        = .error e →
      e ≠ .googleapi 404 →
      (doCreate w job op).1 = none ∧
      (doCreate w job op).2.snapshotsLocks = op.snapshotsLocks ∧
      isProcessing snapshotName (doCreate w job op).2 = false ∧
      newTasks op (doCreate w job op).2 = []) := by
  refine ⟨?_, ?_, ?_⟩
  · intro disk hq
    rw [doCreate_found w job op _ _ disk hann hm hq]
    refine ⟨by simp, by simp [newTasks], ?_⟩
    intro fuel op1
    obtain ⟨_, _, _, _, h⟩ := createDisk_counts w fuel job true snapshotName pdZone
      (diskNamesFromJob job snapshotName).1 (diskNamesFromJob job snapshotName).2 op1
    exact ⟨(h rfl).2, (h rfl).1⟩
  · intro hq
    rw [doCreate_missing w job op _ _ _ hann hm hq ((isNotFound_iff _).mpr rfl)]
    refine ⟨by simp, by simp [newTasks], ?_⟩
    intro fuel op1
    exact ⟨(createDisk_counts w fuel job false snapshotName pdZone _ _ op1).1,
      fun h => createDisk_one_insert w fuel job snapshotName pdZone _ _ op1 h⟩
  · intro e hq hne
    have he : isNotFound (some e) = false := by
      cases h : isNotFound (some e) with
      | false => rfl
      | true => exact absurd ((isNotFound_iff e).mp h) hne
    rw [doCreate_query_failed w job op _ _ e hann hm hq he]
    refine ⟨rfl, rfl, ?_, by simp [newTasks]⟩
    simpa using hm

/-- C10 at the scenario job on a fresh operator, where the disk query answers 404. -/
theorem doCreate_disk_query_witness :
    getAnnotations jobImg17 = .ok ("img-17", "us-central1-c") ∧
    isProcessing "img-17" op0 = false ∧
    isProcessing "img-17" (doCreate worldOk jobImg17 op0).2 = true ∧
    newTasks op0 (doCreate worldOk jobImg17 op0).2 =
      [.createDisk jobImg17 false "img-17" "us-central1-c"
        (diskNamesFromJob jobImg17 "img-17").1 (diskNamesFromJob jobImg17 "img-17").2] :=
  ⟨rfl, by decide,
    ((doCreate_disk_query worldOk jobImg17 op0 "img-17" "us-central1-c" rfl (by decide)).2.1
      rfl).1,
    ((doCreate_disk_query worldOk jobImg17 op0 "img-17" "us-central1-c" rfl (by decide)).2.1
      rfl).2.1⟩

/-! ## C13: the delete path reports no error -/

/-- C13: `doDelete` returns nil for every job, state and world, so for every
outcome of the claim deletion call (success, NotFound or another error); and the
state `deletePVC` leaves does not depend on the answer of the cluster: a
NotFound answer is handled like a successful deletion. -/
theorem doDelete_no_error (w : World) (job : Job) (op : operator) :
    (doDelete w job op).1 = none ∧
    (∀ (w2 : World) (ns pvcName : String),
      deletePVC w ns pvcName op = deletePVC w2 ns pvcName op) ∧
    (∀ ns pvcName : String,
      newCalls op (deletePVC w ns pvcName op) = [⟨.PVCDelete ns pvcName, op.snapshotsLocks⟩]) := by
  refine ⟨?_, ?_, ?_⟩
  · unfold doDelete
    cases getAnnotations job with
    | error e => rfl
    | ok a => rfl
  · intro w2 ns pvcName
    rw [deletePVC_eq, deletePVC_eq]
  · intro ns pvcName
    rw [deletePVC_eq, newCalls_issue]

/-! ## C14: error events of the watch -/

/-- The watch loop over events without an error event handles them all and
returns nil. -/
theorem oneRunLoop_no_error (w : World) (evs : List WatchEvent) :
    ∀ op : operator, (∀ e ∈ evs, e.EvType ≠ watch.Error) →
      oneRunLoop w evs op = (none, handleAll w evs op) := by
  induction evs with
  | nil => intro op _; rfl
  | cons ev evs ih =>
    intro op h
    have hev : ev.EvType ≠ watch.Error := h ev (List.mem_cons_self _ _)
    unfold oneRunLoop
    rw [if_neg hev, ih _ (fun e he => h e (List.mem_cons_of_mem _ he))]
    rfl

/-- The watch loop stops at the first error event. -/
theorem oneRunLoop_error (w : World) (pre : List WatchEvent) (ev : WatchEvent)
    (rest : List WatchEvent) :
    ∀ op : operator, (∀ e ∈ pre, e.EvType ≠ watch.Error) → ev.EvType = watch.Error →
      oneRunLoop w (pre ++ ev :: rest) op = (some "failed watching", handleAll w pre op) := by
  induction pre with
  | nil =>
    intro op _ hev
    simp [oneRunLoop, hev, handleAll]
  | cons e pre ih =>
    intro op h hev
    have he : e.EvType ≠ watch.Error := h e (List.mem_cons_self _ _)
    rw [List.cons_append]
    unfold oneRunLoop
    rw [if_neg he, ih _ (fun x hx => h x (List.mem_cons_of_mem _ hx)) hev]
    rfl

/-- C14: when the events before `ev` are no error events and `ev` is an error
event, `oneRun` returns a non-nil error and its state is the one reached after
the events before `ev`: neither path runs for `ev` and no later event is
handled; and when the stream ends without an error event `oneRun` returns nil
after handling every event. -/
theorem oneRun_error_event (w : World) (pre rest : List WatchEvent) (ev : WatchEvent)
    (op : operator) (hpre : ∀ e ∈ pre, e.EvType ≠ watch.Error) :
    (ev.EvType = watch.Error →
      (oneRun w (.ok (pre ++ ev :: rest)) op).1 ≠ none ∧
      (oneRun w (.ok (pre ++ ev :: rest)) op).2 = handleAll w pre op ∧
      (oneRun w (.ok (pre ++ ev :: rest)) op).2.entered = (handleAll w pre op).entered) ∧
    ((oneRun w (.ok pre) op).1 = none ∧ (oneRun w (.ok pre) op).2 = handleAll w pre op) := by
  constructor
  · intro hev
    unfold oneRun
    simp only
    rw [oneRunLoop_error w pre ev rest op hpre hev]
    exact ⟨by simp, rfl, rfl⟩
  · unfold oneRun
    simp only
    rw [oneRunLoop_no_error w pre op hpre]
    exact ⟨rfl, rfl⟩

/-- C14 at a concrete stream: an Added event, an error event, a Deleted event.
Only the create path of the first event runs. -/
theorem oneRun_error_event_witness :
    (oneRun worldOk (.ok ([⟨watch.Added, jobImg17⟩] ++ ⟨watch.Error, jobImg17⟩ ::
        [⟨watch.Deleted, jobImg17⟩])) op0).1 ≠ none ∧
    (oneRun worldOk (.ok ([⟨watch.Added, jobImg17⟩] ++ ⟨watch.Error, jobImg17⟩ ::
        [⟨watch.Deleted, jobImg17⟩])) op0).2.entered = [(Path.create, jobImg17)] := by
  have h := (oneRun_error_event worldOk [⟨watch.Added, jobImg17⟩] [⟨watch.Deleted, jobImg17⟩]
    ⟨watch.Error, jobImg17⟩ op0 (by decide)).1 rfl
  exact ⟨h.1, by rw [h.2.2]; decide⟩

/-! ## C15: the deferred deletion poller -/

/-- Once the snapshot is no longer marked, every tick of the poller issues one
more claim deletion. -/
theorem deferredDelete_unmarked (w : World) (job : Job) (snapshotName pvcName : String)
    (ticks : Nat) :
    ∀ op : operator, isProcessing snapshotName op = false →
      (deferredDelete w job snapshotName pvcName ticks op).calls = op.calls ++
        List.replicate ticks ⟨.PVCDelete job.Namespace pvcName, op.snapshotsLocks⟩ := by
  induction ticks with
  | zero => intro op _; simp [deferredDelete]
  | succ n ih =>
    intro op hm
    unfold deferredDelete
    simp only [hm, Bool.not_false, if_true, deletePVC_eq]
    rw [ih (issue (.PVCDelete job.Namespace pvcName) op) (by simpa using hm)]
    simp [List.replicate_succ]

/-- While the snapshot is marked, the poller issues nothing. -/
theorem deferredDelete_marked (w : World) (job : Job) (snapshotName pvcName : String)
    (ticks : Nat) (op : operator) (hm : isProcessing snapshotName op = true) :
    deferredDelete w job snapshotName pvcName ticks op = op := by
  induction ticks with
  | zero => rfl
  | succ n ih =>
    unfold deferredDelete
    simp only [hm, Bool.not_true, Bool.false_eq_true, if_false]
    exact ih

/-- C15, the code at the failing input: `doDelete` started the poller while
`img-17` was marked and `createDisk` has since cleared the mark; from there
three ticks of the poller issue three deletions of the claim `data-img-17`, one
per tick, and `ticks` ticks issue `ticks` deletions: the loop has no exit. -/
theorem deferredDelete_deletes_every_tick :
    Task.deferredDelete jobImg17 "img-17" "data-img-17" ∈ opAfterRace.tasks ∧
    isProcessing "img-17" opAfterRace = false ∧
    claimDeletesOf (newCalls opAfterRace
      (deferredDelete worldOk jobImg17 "img-17" "data-img-17" 3 opAfterRace)) =
      [.PVCDelete "default" "data-img-17", .PVCDelete "default" "data-img-17",
        .PVCDelete "default" "data-img-17"] ∧
    (∀ ticks : Nat,
      (claimDeletesOf (newCalls opAfterRace
        (deferredDelete worldOk jobImg17 "img-17" "data-img-17" ticks opAfterRace))).length
        = ticks) := by
  refine ⟨by decide, by decide, by decide, ?_⟩
  intro ticks
  rw [newCalls_append _ _ _ (deferredDelete_unmarked worldOk jobImg17 "img-17" "data-img-17"
    ticks opAfterRace (by decide))]
  simp [claimDeletesOf, Call.isPVCDelete]

/-! ## C18: the processing registry -/

/-- C18: `isProcessing` is false on the registry of a new operator, true after
`markProcessing` and false after `markDone`; marking twice or clearing twice is
the same as once; and neither changes `isProcessing` of another identifier. -/
theorem registry_spec (op : operator) (id : String) :
    (∀ gcpProject : String, isProcessing id (newOperator gcpProject) = false) ∧
    isProcessing id (markProcessing id op) = true ∧
    isProcessing id (markDone id op) = false ∧
    isProcessing id (markDone id (markProcessing id op)) = false ∧
    markProcessing id (markProcessing id op) = markProcessing id op ∧
    markDone id (markDone id op) = markDone id op ∧
    (∀ other : String, other ≠ id →
      isProcessing other (markProcessing id op) = isProcessing other op ∧
      isProcessing other (markDone id op) = isProcessing other op) := by
  refine ⟨fun _ => by simp [isProcessing, newOperator], isProcessing_markProcessing id op,
    ?_, ?_, ?_, ?_, ?_⟩
  · simp [isProcessing, markDone]
  · simp [isProcessing, markDone]
  · unfold markProcessing
    by_cases h : id ∈ op.snapshotsLocks <;> simp [h]
  · simp [markDone]
  · intro other hne
    constructor
    · unfold isProcessing markProcessing
      by_cases h : id ∈ op.snapshotsLocks <;> simp [h, hne]
    · simp [isProcessing, markDone, hne]

/-! ## The shape of a `createDisk` run -/

/-- The end of `createDisk` appends `bindTrace`. -/
theorem createDiskBind_calls (w : World) (job : Job) (pvcName pdName targetSize : String)
    (op : operator) :
    (createDiskBind w job pvcName pdName targetSize op).calls =
      op.calls ++ bindTrace w job pvcName pdName targetSize op.calls.length
        op.snapshotsLocks := by
  unfold createDiskBind bindTrace
  simp only
  split
  · rfl
  · split <;> simp

/-- The polling loop: `n` polls, all but the last answered with a disk that is
not READY; the last one ends the loop unless the fuel ran out. -/
theorem createDiskPoll_shape (w : World) (pdZone pdName : String) (fuel : Nat) :
    ∀ op : operator, ∃ n : Nat,
      (createDiskPoll w pdZone pdName fuel op).state.calls = op.calls ++
        List.replicate n ⟨.DisksGet op.gcpProject pdZone pdName, op.snapshotsLocks⟩ ∧
      (∀ j, j + 1 < n → ∃ d, w.disksGet (op.calls.length + j) op.gcpProject pdZone pdName
        = .ok d ∧ d.Status ≠ "READY") ∧
      (match createDiskPoll w pdZone pdName fuel op with
        | .next t _ => 0 < n ∧ ∃ d,
            w.disksGet (op.calls.length + (n - 1)) op.gcpProject pdZone pdName = .ok d ∧
            d.Status = "READY" ∧ t = sprintfGi d.SizeGb
        | .done _ => 0 < n ∧ ∃ e,
            w.disksGet (op.calls.length + (n - 1)) op.gcpProject pdZone pdName = .error e
        | .pending _ => ∀ j, j < n → ∃ d,
            w.disksGet (op.calls.length + j) op.gcpProject pdZone pdName = .ok d ∧
            d.Status ≠ "READY") := by
  induction fuel with
  | zero =>
    intro op
    refine ⟨0, by simp [createDiskPoll, Flow.state], fun j hj => absurd hj (by omega), ?_⟩
    simp only [createDiskPoll]
    intro j hj
    exact absurd hj (by omega)
  | succ k ih =>
    intro op
    unfold createDiskPoll
    simp only
    cases hr : w.disksGet op.calls.length op.gcpProject pdZone pdName with
    | error e =>
      have hdone : (if isNotFound (errOf (Except.error e : Except GcpError Disk)) = true
          then (Flow.done (issue (.DisksGet op.gcpProject pdZone pdName) op) : Flow String)
          else Flow.done (issue (.DisksGet op.gcpProject pdZone pdName) op)) =
          Flow.done (issue (.DisksGet op.gcpProject pdZone pdName) op) := by
        split <;> rfl
      simp only [hdone]
      refine ⟨1, by simp [Flow.state], fun j hj => absurd hj (by omega), ?_⟩
      exact ⟨Nat.one_pos, e, by simpa using hr⟩
    | ok disk =>
      have hnf : isNotFound (errOf (Except.ok disk : Except GcpError Disk)) = false := rfl
      simp only [hnf, Bool.false_eq_true, if_false]
      by_cases hready : disk.Status = "READY"
      · simp only [hready, if_true]
        refine ⟨1, by simp [Flow.state], fun j hj => absurd hj (by omega), ?_⟩
        exact ⟨Nat.one_pos, disk, by simpa using hr, hready, rfl⟩
      · simp only [hready, if_false]
        obtain ⟨n, hc, hmid, hlast⟩ := ih (issue (.DisksGet op.gcpProject pdZone pdName) op)
        simp only [issue_calls, issue_gcpProject, issue_snapshotsLocks, List.length_append,
          List.length_singleton] at hc hmid hlast
        have hshift : ∀ j, op.calls.length + 1 + j = op.calls.length + (j + 1) := by
          intro j; omega
        refine ⟨n + 1, ?_, ?_, ?_⟩
        · rw [hc]; simp [List.replicate_succ]
        · intro j hj
          cases j with
          | zero => exact ⟨disk, by simpa using hr, hready⟩
          | succ j' =>
            obtain ⟨d, hd, hs⟩ := hmid j' (by omega)
            exact ⟨d, by rw [← hshift]; exact hd, hs⟩
        · cases hp : createDiskPoll w pdZone pdName k
              (issue (.DisksGet op.gcpProject pdZone pdName) op) with
          | next t o2 =>
            rw [hp] at hlast
            obtain ⟨hn, d, hd, hs, ht⟩ := hlast
            refine ⟨Nat.succ_pos n, d, ?_, hs, ht⟩
            have : op.calls.length + (n + 1 - 1) = op.calls.length + 1 + (n - 1) := by omega
            rw [this]; exact hd
          | done o2 =>
            rw [hp] at hlast
            obtain ⟨hn, e, he⟩ := hlast
            refine ⟨Nat.succ_pos n, e, ?_⟩
            have : op.calls.length + (n + 1 - 1) = op.calls.length + 1 + (n - 1) := by omega
            rw [this]; exact he
          | pending o2 =>
            rw [hp] at hlast
            intro j hj
            cases j with
            | zero => exact ⟨disk, by simpa using hr, hready⟩
            | succ j' =>
              obtain ⟨d, hd, hs⟩ := hlast j' (by omega)
              exact ⟨d, by rw [← hshift]; exact hd, hs⟩

/-- The creation block issues snapshot lookups and disk creations only. -/
theorem createDiskInsert_kinds (w : World) (snapshotName pdZone pdName : String)
    (op : operator) :
    ∃ pre : List Issued,
      (createDiskInsert w snapshotName pdZone pdName op).state.calls = op.calls ++ pre ∧
      (∀ i ∈ pre, i.call.isDisksGet = false ∧ i.call.isPVCCreate = false ∧
        i.call.isPVCreate = false) := by
  cases h : shouldUseSnapshotForDisk snapshotName with
  | false =>
    rw [createDiskInsert_empty w _ _ _ _ h]
    exact ⟨[_], rfl, by simp [Call.isDisksGet, Call.isPVCCreate, Call.isPVCreate]⟩
  | true =>
    cases hs : w.snapshotsGet op.calls.length op.gcpProject snapshotName with
    | error e =>
      rw [createDiskInsert_failed w _ _ _ _ e h hs]
      exact ⟨[_], rfl, by simp [Call.isDisksGet, Call.isPVCCreate, Call.isPVCreate]⟩
    | ok snapshot =>
      rw [createDiskInsert_found w _ _ _ _ snapshot h hs]
      exact ⟨[⟨.SnapshotsGet op.gcpProject snapshotName, op.snapshotsLocks⟩,
          ⟨.DisksInsert op.gcpProject pdZone
            (newDisk op.gcpProject snapshotName pdZone pdName snapshot.SelfLink
              (wrapInt64 (snapshot.DiskSizeGb + 50))), op.snapshotsLocks⟩],
        by simp, by simp [Call.isDisksGet, Call.isPVCCreate, Call.isPVCreate]⟩

/-- The trace of a `createDisk` run: the calls of the creation block, then `n`
polls of which all but the last are answered with a disk that is not READY, and
then either nothing more, the last poll not being answered with a READY disk,
or, after a last poll answered with a READY disk, the claim creation and (when
it succeeds) the volume creation. -/
theorem createDisk_shape (w : World) (fuel : Nat) (job : Job) (diskExists : Bool)
    (snapshotName pdZone pvcName pdName : String) (op : operator) :
    ∃ (pre : List Issued) (n : Nat),
      (∀ i ∈ pre, i.call.isDisksGet = false ∧ i.call.isPVCCreate = false ∧
        i.call.isPVCreate = false) ∧
      (∀ j, j + 1 < n → ∃ d,
        w.disksGet (op.calls.length + pre.length + j) op.gcpProject pdZone pdName = .ok d ∧
        d.Status ≠ "READY") ∧
      (((createDisk w fuel job diskExists snapshotName pdZone pvcName pdName op).state.calls =
          op.calls ++ (pre ++ List.replicate n
            ⟨.DisksGet op.gcpProject pdZone pdName, op.snapshotsLocks⟩) ∧
        (∀ d, 0 < n →
          w.disksGet (op.calls.length + pre.length + (n - 1)) op.gcpProject pdZone pdName
            = .ok d → d.Status ≠ "READY")) ∨
      (0 < n ∧ ∃ d,
        w.disksGet (op.calls.length + pre.length + (n - 1)) op.gcpProject pdZone pdName
          = .ok d ∧ d.Status = "READY" ∧
        (createDisk w fuel job diskExists snapshotName pdZone pvcName pdName op).state.calls =
          op.calls ++ (pre ++ (List.replicate n
            ⟨.DisksGet op.gcpProject pdZone pdName, op.snapshotsLocks⟩ ++
            bindTrace w job pvcName pdName (sprintfGi d.SizeGb)
              (op.calls.length + pre.length + n) op.snapshotsLocks)))) := by
  rw [createDisk_calls]
  -- the run from the state `op1` in which polling starts
  have rest : ∀ (op1 : operator) (pre : List Issued), op1.calls = op.calls ++ pre →
      op1.gcpProject = op.gcpProject → op1.snapshotsLocks = op.snapshotsLocks →
      ∃ n : Nat,
        (∀ j, j + 1 < n → ∃ d,
          w.disksGet (op.calls.length + pre.length + j) op.gcpProject pdZone pdName = .ok d ∧
          d.Status ≠ "READY") ∧
        (((match createDiskPoll w pdZone pdName fuel op1 with
            | .pending op2 => (Flow.pending op2 : Flow Unit)
            | .done op2 => Flow.done op2
            | .next targetSize op2 =>
              Flow.next () (createDiskBind w job pvcName pdName targetSize op2)).state.calls =
            op.calls ++ (pre ++ List.replicate n
              ⟨.DisksGet op.gcpProject pdZone pdName, op.snapshotsLocks⟩) ∧
          (∀ d, 0 < n →
            w.disksGet (op.calls.length + pre.length + (n - 1)) op.gcpProject pdZone pdName
              = .ok d → d.Status ≠ "READY")) ∨
        (0 < n ∧ ∃ d,
          w.disksGet (op.calls.length + pre.length + (n - 1)) op.gcpProject pdZone pdName
            = .ok d ∧ d.Status = "READY" ∧
          (match createDiskPoll w pdZone pdName fuel op1 with
            | .pending op2 => (Flow.pending op2 : Flow Unit)
            | .done op2 => Flow.done op2
            | .next targetSize op2 =>
              Flow.next () (createDiskBind w job pvcName pdName targetSize op2)).state.calls =
            op.calls ++ (pre ++ (List.replicate n
              ⟨.DisksGet op.gcpProject pdZone pdName, op.snapshotsLocks⟩ ++
              bindTrace w job pvcName pdName (sprintfGi d.SizeGb)
                (op.calls.length + pre.length + n) op.snapshotsLocks)))) := by
    intro op1 pre hc1 hp1 hl1
    obtain ⟨n, hc, hmid, hlast⟩ := createDiskPoll_shape w pdZone pdName fuel op1
    obtain ⟨_, _, _, _, hl2, _, _⟩ := createDiskPoll_trace w pdZone pdName fuel op1
    have hlen : op1.calls.length = op.calls.length + pre.length := by rw [hc1]; simp
    rw [hp1, hl1, hc1] at hc
    rw [hp1, hlen] at hmid hlast
    refine ⟨n, hmid, ?_⟩
    cases hpoll : createDiskPoll w pdZone pdName fuel op1 with
    | pending op2 =>
      rw [hpoll] at hc hlast
      left
      refine ⟨by simpa [Flow.state, List.append_assoc] using hc, ?_⟩
      intro d hn hd
      obtain ⟨d2, hd2, hs⟩ := hlast (n - 1) (by omega)
      rw [hd] at hd2
      cases hd2
      exact hs
    | done op2 =>
      rw [hpoll] at hc hlast
      left
      refine ⟨by simpa [Flow.state, List.append_assoc] using hc, ?_⟩
      intro d _ hd
      obtain ⟨_, e, he⟩ := hlast
      rw [hd] at he
      cases he
    | next t op2 =>
      rw [hpoll] at hc hlast hl2
      simp only [Flow.state] at hc hl2
      obtain ⟨hn, d, hd, hs, ht⟩ := hlast
      right
      refine ⟨hn, d, hd, hs, ?_⟩
      simp only [Flow.state]
      rw [createDiskBind_calls, hc, hl2, hl1, ht]
      have hlen2 : (op.calls ++ pre ++ List.replicate n
          (⟨.DisksGet op.gcpProject pdZone pdName, op.snapshotsLocks⟩ : Issued)).length =
          op.calls.length + pre.length + n := by simp; omega
      rw [hlen2]
      simp [List.append_assoc]
  cases hde : diskExists with
  | true =>
    obtain ⟨n, h1, h2⟩ := rest op [] (by simp) rfl rfl
    refine ⟨[], n, by simp, by simpa using h1, ?_⟩
    simpa [createDiskBody] using h2
  | false =>
    obtain ⟨pre, hpre, hkinds⟩ := createDiskInsert_kinds w snapshotName pdZone pdName op
    obtain ⟨hp, hl, _, _, _⟩ := createDiskInsert_extends w snapshotName pdZone pdName op
    cases hins : createDiskInsert w snapshotName pdZone pdName op with
    | pending op1 => exact absurd hins (createDiskInsert_not_pending w _ _ _ _ _)
    | done op1 =>
      rw [hins] at hpre
      simp only [Flow.state] at hpre
      refine ⟨pre, 0, hkinds, fun j hj => absurd hj (by omega), Or.inl ⟨?_, ?_⟩⟩
      · simpa [createDiskBody, hins, Flow.state] using hpre
      · intro d hn; exact absurd hn (by omega)
    | next u op1 =>
      rw [hins] at hpre hp hl
      simp only [Flow.state] at hpre hp hl
      obtain ⟨n, h1, h2⟩ := rest op1 pre hpre hp hl
      refine ⟨pre, n, hkinds, h1, ?_⟩
      simpa [createDiskBody, hins] using h2

/-- Where a call at position `idx` of a trace `A ++ pre ++ n polls ++ post` lies. -/
theorem position_cases (A pre post : List Issued) (P c : Issued) (n idx : Nat)
    (hidx : A.length ≤ idx)
    (hget : (A ++ (pre ++ (List.replicate n P ++ post)))[idx]? = some c) :
    c ∈ pre ∨ (c = P ∧ ∃ j, j < n ∧ idx = A.length + pre.length + j) ∨
    (c ∈ post ∧ A.length + pre.length + n ≤ idx) := by
  rw [List.getElem?_append_right hidx] at hget
  by_cases h1 : idx - A.length < pre.length
  · rw [List.getElem?_append_left h1] at hget
    exact Or.inl (List.getElem?_mem hget)
  · rw [List.getElem?_append_right (by omega)] at hget
    by_cases h2 : idx - A.length - pre.length < n
    · rw [List.getElem?_append_left (by simpa using h2), List.getElem?_replicate, if_pos h2] at hget
      exact Or.inr (Or.inl ⟨(Option.some.inj hget).symm, idx - A.length - pre.length, h2,
        by omega⟩)
    · rw [List.getElem?_append_right (by simpa using Nat.le_of_not_lt h2)] at hget
      exact Or.inr (Or.inr ⟨List.getElem?_mem hget, by omega⟩)

/-- Reading `pollAt`. -/
theorem pollAt_eq_some (w : World) (calls : List Issued) (idx : Nat)
    (r : Except GcpError Disk) (h : pollAt w calls idx = some r) :
    ∃ project zone name locks, calls[idx]? = some ⟨.DisksGet project zone name, locks⟩ ∧
      r = w.disksGet idx project zone name := by
  unfold pollAt at h
  split at h
  · rename_i p z n L hc
    exact ⟨p, z, n, L, hc, (Option.some.inj h).symm⟩
  · cases h

/-- The calls of `bindTrace` are claim and volume creations. -/
theorem bindTrace_mem (w : World) (job : Job) (pvcName pdName targetSize : String)
    (clock : Nat) (locks : List String) (c : Issued)
    (h : c ∈ bindTrace w job pvcName pdName targetSize clock locks) :
    c.call = .PVCCreate job.Namespace (newClaim job pvcName targetSize) ∨
    c.call = .PVCreate (newVolume pvcName pdName targetSize) := by
  unfold bindTrace at h
  split at h
  · simp at h; subst h; exact Or.inl rfl
  · simp at h
    rcases h with h | h <;> subst h
    · exact Or.inl rfl
    · exact Or.inr rfl

/-! ## C11: the claim, then the volume -/

/-- C11: in every run of `createDisk`, a disk query of the run answered with a
READY disk is followed by exactly the claim creation and, when that succeeds, the
volume creation, in this order and nothing else; when the claim creation fails
the claim creation is the last call. Claim and volume are both named `pvcName`
and the claim's `VolumeName` is `pvcName`. For the scenario job on a fresh
operator (disk absent), `doCreate` starts `createDisk` with `data-img-17` for
both names and its run issues the snapshot lookup, one disk creation named
`data-img-17` in `us-central1-c`, polls until READY (one poll when the disk is
READY at once, three when it is reported twice as CREATING), the claim creation
and then the volume creation, both for `data-img-17`. -/
theorem createDisk_claim_then_volume (w : World) (fuel : Nat) (job : Job) (diskExists : Bool)
    (snapshotName pdZone pvcName pdName : String) (op : operator) :
    (∀ (idx : Nat) (disk : Disk), op.calls.length ≤ idx →
      pollAt w (createDisk w fuel job diskExists snapshotName pdZone pvcName pdName op).state.calls
        idx = some (.ok disk) →
      disk.Status = "READY" →
      (createDisk w fuel job diskExists snapshotName pdZone pvcName pdName op).state.calls.drop
        (idx + 1) =
        bindTrace w job pvcName pdName (sprintfGi disk.SizeGb) (idx + 1) op.snapshotsLocks) ∧
    (∀ (targetSize : String) (clock : Nat) (locks : List String),
      (∀ e, w.pvcCreate clock job.Namespace (newClaim job pvcName targetSize) = .error e →
        bindTrace w job pvcName pdName targetSize clock locks =
          [⟨.PVCCreate job.Namespace (newClaim job pvcName targetSize), locks⟩]) ∧
      (w.pvcCreate clock job.Namespace (newClaim job pvcName targetSize) = .ok () →
        bindTrace w job pvcName pdName targetSize clock locks =
          [⟨.PVCCreate job.Namespace (newClaim job pvcName targetSize), locks⟩,
            ⟨.PVCreate (newVolume pvcName pdName targetSize), locks⟩]) ∧
      (newClaim job pvcName targetSize).Name = pvcName ∧
      (newClaim job pvcName targetSize).VolumeName = pvcName ∧
      (newVolume pvcName pdName targetSize).Name = pvcName) ∧
    ((doCreate worldOk jobImg17 op0).2.tasks =
        [.createDisk jobImg17 false "img-17" "us-central1-c" "data-img-17" "data-img-17"] ∧
      (newCalls (doCreate worldOk jobImg17 op0).2
        (createDisk worldOk 5 jobImg17 false "img-17" "us-central1-c" "data-img-17" "data-img-17"
          (doCreate worldOk jobImg17 op0).2).state).map Issued.call =
        [.SnapshotsGet "proj" "img-17",
          .DisksInsert "proj" "us-central1-c"
            (newDisk "proj" "img-17" "us-central1-c" "data-img-17" "selflink/img-17" 150),
          .DisksGet "proj" "us-central1-c" "data-img-17",
          .PVCCreate "default" (newClaim jobImg17 "data-img-17" "150Gi"),
          .PVCreate (newVolume "data-img-17" "data-img-17" "150Gi")] ∧
      (newCalls (doCreate worldSlow jobImg17 op0).2
        (createDisk worldSlow 5 jobImg17 false "img-17" "us-central1-c" "data-img-17"
          "data-img-17" (doCreate worldSlow jobImg17 op0).2).state).map Issued.call =
        [.SnapshotsGet "proj" "img-17",
          .DisksInsert "proj" "us-central1-c"
            (newDisk "proj" "img-17" "us-central1-c" "data-img-17" "selflink/img-17" 150),
          .DisksGet "proj" "us-central1-c" "data-img-17",
          .DisksGet "proj" "us-central1-c" "data-img-17",
          .DisksGet "proj" "us-central1-c" "data-img-17",
          .PVCCreate "default" (newClaim jobImg17 "data-img-17" "150Gi"),
          .PVCreate (newVolume "data-img-17" "data-img-17" "150Gi")]) := by
  refine ⟨?_, ?_, by decide⟩
  · intro idx disk hidx hpoll hready
    obtain ⟨pre, n, hkinds, hmid, hcase⟩ :=
      createDisk_shape w fuel job diskExists snapshotName pdZone pvcName pdName op
    obtain ⟨p, z, nm, L, hget, hans⟩ := pollAt_eq_some _ _ _ _ hpoll
    -- the READY poll is the last of the `n` polls
    have key : ∀ post : List Issued,
        (∀ i ∈ post, i.call.isDisksGet = false) →
        (createDisk w fuel job diskExists snapshotName pdZone pvcName pdName op).state.calls =
          op.calls ++ (pre ++ (List.replicate n
            ⟨.DisksGet op.gcpProject pdZone pdName, op.snapshotsLocks⟩ ++ post)) →
        0 < n ∧ idx = op.calls.length + pre.length + (n - 1) ∧
        w.disksGet (op.calls.length + pre.length + (n - 1)) op.gcpProject pdZone pdName
          = .ok disk := by
      intro post hpost hcalls
      rw [hcalls] at hget
      rcases position_cases _ _ _ _ _ _ _ hidx hget with h | ⟨h, j, hj, hidxj⟩ | ⟨h, _⟩
      · have := (hkinds _ h).1
        simp [Call.isDisksGet] at this
      · have hP : p = op.gcpProject ∧ z = pdZone ∧ nm = pdName := by
          simpa using congrArg Issued.call h
        obtain ⟨rfl, rfl, rfl⟩ := hP
        rw [hidxj] at hans
        by_cases hlast : j + 1 < n
        · obtain ⟨d, hd, hs⟩ := hmid j hlast
          rw [hd] at hans
          cases hans
          exact absurd hready hs
        · have hjn : j = n - 1 := by omega
          subst hjn
          exact ⟨by omega, hidxj, hans.symm⟩
      · have := hpost _ h
        simp [Call.isDisksGet] at this
    rcases hcase with ⟨hcalls, hnot⟩ | ⟨hn, d, hd, hs, hcalls⟩
    · obtain ⟨hn, _, hlast⟩ := key [] (by simp) (by simpa using hcalls)
      exact absurd hready (hnot disk hn hlast)
    · have hpostk : ∀ i ∈ bindTrace w job pvcName pdName (sprintfGi d.SizeGb)
          (op.calls.length + pre.length + n) op.snapshotsLocks, i.call.isDisksGet = false := by
        intro i hi
        rcases bindTrace_mem _ _ _ _ _ _ _ _ hi with h | h <;> rw [h] <;> rfl
      obtain ⟨_, hidxe, hlast⟩ := key _ hpostk hcalls
      rw [hd] at hlast
      cases hlast
      have hi1 : idx + 1 = (op.calls ++ (pre ++ List.replicate n
          (⟨.DisksGet op.gcpProject pdZone pdName, op.snapshotsLocks⟩ : Issued))).length := by
        simp; omega
      have hclock : op.calls.length + pre.length + n = idx + 1 := by omega
      rw [hcalls, hclock]
      have hassoc : op.calls ++ (pre ++ (List.replicate n
          (⟨.DisksGet op.gcpProject pdZone pdName, op.snapshotsLocks⟩ : Issued) ++
          bindTrace w job pvcName pdName (sprintfGi disk.SizeGb) (idx + 1) op.snapshotsLocks)) =
          (op.calls ++ (pre ++ List.replicate n
            (⟨.DisksGet op.gcpProject pdZone pdName, op.snapshotsLocks⟩ : Issued))) ++
          bindTrace w job pvcName pdName (sprintfGi disk.SizeGb) (idx + 1) op.snapshotsLocks := by
        simp [List.append_assoc]
      rw [hassoc, hi1, List.drop_left]
  · intro targetSize clock locks
    refine ⟨?_, ?_, rfl, rfl, rfl⟩
    · intro e he
      unfold bindTrace
      rw [he]
    · intro hok
      unfold bindTrace
      rw [hok]

/-! ## C12: claim and volume only after READY -/

/-- C12: in every run of `createDisk`, each claim or volume creation call of the
run comes after a disk query of the run that was answered with a READY disk, and
it is the creation of the claim with storage request `<N>Gi`, or of the volume
with capacity `<N>Gi` and persistent-disk name `pdName`, where `N` is the
`SizeGb` of that READY disk; and when a disk query of the run is answered with
an error (not found or any other), no claim and no volume creation is issued. -/
theorem createDisk_bind_only_after_ready (w : World) (fuel : Nat) (job : Job)
    (diskExists : Bool) (snapshotName pdZone pvcName pdName : String) (op : operator) :
    (∀ (i : Nat) (c : Issued), op.calls.length ≤ i →
      (createDisk w fuel job diskExists snapshotName pdZone pvcName pdName op).state.calls[i]?
        = some c →
      (c.call.isPVCCreate = true ∨ c.call.isPVCreate = true) →
      ∃ (idx : Nat) (disk : Disk), op.calls.length ≤ idx ∧ idx < i ∧
        pollAt w
          (createDisk w fuel job diskExists snapshotName pdZone pvcName pdName op).state.calls
          idx = some (.ok disk) ∧
        disk.Status = "READY" ∧
        (c.call = .PVCCreate job.Namespace
            (newClaim job pvcName (toString disk.SizeGb ++ "Gi")) ∨
          c.call = .PVCreate (newVolume pvcName pdName (toString disk.SizeGb ++ "Gi")))) ∧
    (∀ targetSize : String,
      (newClaim job pvcName targetSize).StorageRequest = targetSize ∧
      (newVolume pvcName pdName targetSize).Capacity = targetSize ∧
      (newVolume pvcName pdName targetSize).PDName = pdName) ∧
    (∀ (idx : Nat) (e : GcpError), op.calls.length ≤ idx →
      pollAt w (createDisk w fuel job diskExists snapshotName pdZone pvcName pdName op).state.calls
        idx = some (.error e) →
      claimCreatesOf (newCalls op
        (createDisk w fuel job diskExists snapshotName pdZone pvcName pdName op).state) = [] ∧
      volumeCreatesOf (newCalls op
        (createDisk w fuel job diskExists snapshotName pdZone pvcName pdName op).state) = []) := by
  obtain ⟨pre, n, hkinds, hmid, hcase⟩ :=
    createDisk_shape w fuel job diskExists snapshotName pdZone pvcName pdName op
  refine ⟨?_, fun _ => ⟨rfl, rfl, rfl⟩, ?_⟩
  · intro i c hi hget hkind
    rcases hcase with ⟨hcalls, _⟩ | ⟨hn, d, hd, hs, hcalls⟩
    · exfalso
      have hcalls2 : (createDisk w fuel job diskExists snapshotName pdZone pvcName pdName
          op).state.calls = op.calls ++ (pre ++ (List.replicate n
            ⟨.DisksGet op.gcpProject pdZone pdName, op.snapshotsLocks⟩ ++ [])) := by
        simpa using hcalls
      rw [hcalls2] at hget
      rcases position_cases _ _ _ _ _ _ _ hi hget with h | ⟨h, _⟩ | ⟨h, _⟩
      · have := hkinds _ h
        rcases hkind with hk | hk
        · rw [this.2.1] at hk; cases hk
        · rw [this.2.2] at hk; cases hk
      · subst h
        rcases hkind with hk | hk <;> simp [Call.isPVCCreate, Call.isPVCreate] at hk
      · simp at h
    · have hget2 := hget
      rw [hcalls] at hget2
      rcases position_cases _ _ _ _ _ _ _ hi hget2 with h | ⟨h, _⟩ | ⟨h, hpos⟩
      · exfalso
        have := hkinds _ h
        rcases hkind with hk | hk
        · rw [this.2.1] at hk; cases hk
        · rw [this.2.2] at hk; cases hk
      · exfalso
        subst h
        rcases hkind with hk | hk <;> simp [Call.isPVCCreate, Call.isPVCreate] at hk
      · refine ⟨op.calls.length + pre.length + (n - 1), d, by omega, by omega, ?_, hs, ?_⟩
        · unfold pollAt
          have hP : (createDisk w fuel job diskExists snapshotName pdZone pvcName pdName
              op).state.calls[op.calls.length + pre.length + (n - 1)]? =
              some ⟨.DisksGet op.gcpProject pdZone pdName, op.snapshotsLocks⟩ := by
            rw [hcalls, List.getElem?_append_right (by omega),
              List.getElem?_append_right (by omega),
              List.getElem?_append_left (by simp; omega), List.getElem?_replicate,
              if_pos (by omega)]
          rw [hP]
          simp only
          rw [hd]
        · exact bindTrace_mem _ _ _ _ _ _ _ _ h
  · intro idx e hidx hpoll
    obtain ⟨p, z, nm, L, hget, hans⟩ := pollAt_eq_some _ _ _ _ hpoll
    have key : ∀ post : List Issued,
        (∀ i ∈ post, i.call.isDisksGet = false) →
        (createDisk w fuel job diskExists snapshotName pdZone pvcName pdName op).state.calls =
          op.calls ++ (pre ++ (List.replicate n
            ⟨.DisksGet op.gcpProject pdZone pdName, op.snapshotsLocks⟩ ++ post)) →
        0 < n ∧
        w.disksGet (op.calls.length + pre.length + (n - 1)) op.gcpProject pdZone pdName
          = .error e := by
      intro post hpost hcalls
      rw [hcalls] at hget
      rcases position_cases _ _ _ _ _ _ _ hidx hget with h | ⟨h, j, hj, hidxj⟩ | ⟨h, _⟩
      · have := (hkinds _ h).1
        simp [Call.isDisksGet] at this
      · have hP : p = op.gcpProject ∧ z = pdZone ∧ nm = pdName := by
          simpa using congrArg Issued.call h
        obtain ⟨rfl, rfl, rfl⟩ := hP
        rw [hidxj] at hans
        by_cases hlast : j + 1 < n
        · obtain ⟨d, hd, hs⟩ := hmid j hlast
          rw [hd] at hans
          cases hans
        · have hjn : j = n - 1 := by omega
          subst hjn
          exact ⟨by omega, hans.symm⟩
      · have := hpost _ h
        simp [Call.isDisksGet] at this
    rcases hcase with ⟨hcalls, _⟩ | ⟨hn, d, hd, hs, hcalls⟩
    · rw [newCalls_append _ _ _ hcalls]
      have h1 : ∀ i ∈ pre ++ List.replicate n
          (⟨.DisksGet op.gcpProject pdZone pdName, op.snapshotsLocks⟩ : Issued),
          i.call.isPVCCreate = false ∧ i.call.isPVCreate = false := by
        intro i hi
        rcases List.mem_append.mp hi with h | h
        · exact (hkinds _ h).2
        · rw [(List.mem_replicate.mp h).2]; exact ⟨rfl, rfl⟩
      constructor
      · unfold claimCreatesOf
        rw [List.filter_eq_nil_iff]
        intro a ha
        obtain ⟨i, hi, rfl⟩ := List.mem_map.mp ha
        simp [(h1 i hi).1]
      · unfold volumeCreatesOf
        rw [List.filter_eq_nil_iff]
        intro a ha
        obtain ⟨i, hi, rfl⟩ := List.mem_map.mp ha
        simp [(h1 i hi).2]
    · exfalso
      have hpostk : ∀ i ∈ bindTrace w job pvcName pdName (sprintfGi d.SizeGb)
          (op.calls.length + pre.length + n) op.snapshotsLocks, i.call.isDisksGet = false := by
        intro i hi
        rcases bindTrace_mem _ _ _ _ _ _ _ _ hi with h | h <;> rw [h] <;> rfl
      obtain ⟨_, hlast⟩ := key _ hpostk hcalls
      rw [hd] at hlast
      cases hlast

/-! ## C4: `doCreate` twice in a row -/

/-- Calls of a kind that a part of the trace does not hold. -/
theorem filter_none (P : Call → Bool) (front : List Issued)
    (h : ∀ i ∈ front, P i.call = false) : (front.map Issued.call).filter P = [] := by
  rw [List.filter_eq_nil_iff]
  intro a ha
  obtain ⟨i, hi, rfl⟩ := List.mem_map.mp ha
  simp [h i hi]

/-- A run in which a disk query is answered with a READY disk ends with
`bindTrace`, and issues no claim or volume creation before. -/
theorem createDisk_ready_split (w : World) (fuel : Nat) (job : Job) (diskExists : Bool)
    (snapshotName pdZone pvcName pdName : String) (op : operator) (idx : Nat) (disk : Disk)
    (hidx : op.calls.length ≤ idx)
    (hpoll : pollAt w
      (createDisk w fuel job diskExists snapshotName pdZone pvcName pdName op).state.calls idx
      = some (.ok disk))
    (hready : disk.Status = "READY") :
    ∃ front : List Issued,
      newCalls op (createDisk w fuel job diskExists snapshotName pdZone pvcName pdName op).state
        = front ++ bindTrace w job pvcName pdName (sprintfGi disk.SizeGb) (idx + 1)
          op.snapshotsLocks ∧
      ∀ i ∈ front, i.call.isPVCCreate = false ∧ i.call.isPVCreate = false := by
  obtain ⟨pre, n, hkinds, hmid, hcase⟩ :=
    createDisk_shape w fuel job diskExists snapshotName pdZone pvcName pdName op
  obtain ⟨p, z, nm, L, hget, hans⟩ := pollAt_eq_some _ _ _ _ hpoll
  have key : ∀ post : List Issued,
      (∀ i ∈ post, i.call.isDisksGet = false) →
      (createDisk w fuel job diskExists snapshotName pdZone pvcName pdName op).state.calls =
        op.calls ++ (pre ++ (List.replicate n
          ⟨.DisksGet op.gcpProject pdZone pdName, op.snapshotsLocks⟩ ++ post)) →
      0 < n ∧ idx = op.calls.length + pre.length + (n - 1) ∧
      w.disksGet (op.calls.length + pre.length + (n - 1)) op.gcpProject pdZone pdName
        = .ok disk := by
    intro post hpost hcalls
    rw [hcalls] at hget
    rcases position_cases _ _ _ _ _ _ _ hidx hget with h | ⟨h, j, hj, hidxj⟩ | ⟨h, _⟩
    · have := (hkinds _ h).1
      simp [Call.isDisksGet] at this
    · have hP : p = op.gcpProject ∧ z = pdZone ∧ nm = pdName := by
        simpa using congrArg Issued.call h
      obtain ⟨rfl, rfl, rfl⟩ := hP
      rw [hidxj] at hans
      by_cases hlast : j + 1 < n
      · obtain ⟨d, hd, hs⟩ := hmid j hlast
        rw [hd] at hans
        cases hans
        exact absurd hready hs
      · have hjn : j = n - 1 := by omega
        subst hjn
        exact ⟨by omega, hidxj, hans.symm⟩
    · have := hpost _ h
      simp [Call.isDisksGet] at this
  rcases hcase with ⟨hcalls, hnot⟩ | ⟨hn, d, hd, hs, hcalls⟩
  · obtain ⟨hn, _, hlast⟩ := key [] (by simp) (by simpa using hcalls)
    exact absurd hready (hnot disk hn hlast)
  · have hpostk : ∀ i ∈ bindTrace w job pvcName pdName (sprintfGi d.SizeGb)
        (op.calls.length + pre.length + n) op.snapshotsLocks, i.call.isDisksGet = false := by
      intro i hi
      rcases bindTrace_mem _ _ _ _ _ _ _ _ hi with h | h <;> rw [h] <;> rfl
    obtain ⟨_, hidxe, hlast⟩ := key _ hpostk hcalls
    rw [hd] at hlast
    cases hlast
    have hclock : op.calls.length + pre.length + n = idx + 1 := by omega
    rw [hclock] at hcalls
    refine ⟨pre ++ List.replicate n ⟨.DisksGet op.gcpProject pdZone pdName, op.snapshotsLocks⟩,
      ?_, ?_⟩
    · rw [newCalls_append _ _ _ hcalls, List.append_assoc]
    · intro i hi
      rcases List.mem_append.mp hi with h | h
      · exact (hkinds _ h).2
      · rw [(List.mem_replicate.mp h).2]; exact ⟨rfl, rfl⟩

/-- A run in which no disk query is answered with a READY disk issues no claim
and no volume creation. -/
theorem createDisk_no_ready (w : World) (fuel : Nat) (job : Job) (diskExists : Bool)
    (snapshotName pdZone pvcName pdName : String) (op : operator)
    (hno : ∀ (idx : Nat) (disk : Disk), op.calls.length ≤ idx →
      pollAt w
        (createDisk w fuel job diskExists snapshotName pdZone pvcName pdName op).state.calls idx
        = some (.ok disk) → disk.Status ≠ "READY") :
    claimCreatesOf (newCalls op
      (createDisk w fuel job diskExists snapshotName pdZone pvcName pdName op).state) = [] ∧
    volumeCreatesOf (newCalls op
      (createDisk w fuel job diskExists snapshotName pdZone pvcName pdName op).state) = [] := by
  obtain ⟨pre, n, hkinds, hmid, hcase⟩ :=
    createDisk_shape w fuel job diskExists snapshotName pdZone pvcName pdName op
  rcases hcase with ⟨hcalls, _⟩ | ⟨hn, d, hd, hs, hcalls⟩
  · rw [newCalls_append _ _ _ hcalls]
    have h1 : ∀ i ∈ pre ++ List.replicate n
        (⟨.DisksGet op.gcpProject pdZone pdName, op.snapshotsLocks⟩ : Issued),
        i.call.isPVCCreate = false ∧ i.call.isPVCreate = false := by
      intro i hi
      rcases List.mem_append.mp hi with h | h
      · exact (hkinds _ h).2
      · rw [(List.mem_replicate.mp h).2]; exact ⟨rfl, rfl⟩
    exact ⟨filter_none _ _ (fun i hi => (h1 i hi).1), filter_none _ _ (fun i hi => (h1 i hi).2)⟩
  · exfalso
    have hP : (createDisk w fuel job diskExists snapshotName pdZone pvcName pdName
        op).state.calls[op.calls.length + pre.length + (n - 1)]? =
        some ⟨.DisksGet op.gcpProject pdZone pdName, op.snapshotsLocks⟩ := by
      rw [hcalls, List.getElem?_append_right (by omega),
        List.getElem?_append_right (by omega),
        List.getElem?_append_left (by simp; omega), List.getElem?_replicate,
        if_pos (by omega)]
    have hp : pollAt w (createDisk w fuel job diskExists snapshotName pdZone pvcName pdName
        op).state.calls (op.calls.length + pre.length + (n - 1)) = some (.ok d) := by
      unfold pollAt
      rw [hP]
      simp only
      rw [hd]
    exact hno _ d (by omega) hp hs

/-- C4 fails as stated: when the disk already exists and is READY, two calls of
`doCreate` in a row (the second under the mark of the first) start one
`createDisk` task whose run issues no disk creation call at all, not exactly
one; and when the disk exists but the polling query fails, the run of that one
task issues no disk creation and creates neither claim nor volume, not exactly
one pair. -/
theorem doCreate_twice_counterexample :
    (isProcessing "img-17" (doCreate worldReady jobImg17 op0).2 = true ∧
      (doCreate worldReady jobImg17 (doCreate worldReady jobImg17 op0).2).2.tasks =
        [.createDisk jobImg17 true "img-17" "us-central1-c" "data-img-17" "data-img-17"] ∧
      (createDisk worldReady 5 jobImg17 true "img-17" "us-central1-c" "data-img-17"
        "data-img-17"
        (doCreate worldReady jobImg17 (doCreate worldReady jobImg17 op0).2).2).returned = true ∧
      ¬ ((insertsOf (createDisk worldReady 5 jobImg17 true "img-17" "us-central1-c"
          "data-img-17" "data-img-17"
          (doCreate worldReady jobImg17 (doCreate worldReady jobImg17 op0).2).2).state.calls).length
        = 1)) ∧
    (isProcessing "img-17" (doCreate worldPollFails jobImg17 op0).2 = true ∧
      (doCreate worldPollFails jobImg17 (doCreate worldPollFails jobImg17 op0).2).2.tasks =
        [.createDisk jobImg17 true "img-17" "us-central1-c" "data-img-17" "data-img-17"] ∧
      (createDisk worldPollFails 5 jobImg17 true "img-17" "us-central1-c" "data-img-17"
        "data-img-17"
        (doCreate worldPollFails jobImg17 (doCreate worldPollFails jobImg17 op0).2).2).returned
        = true ∧
      ¬ ((insertsOf (createDisk worldPollFails 5 jobImg17 true "img-17" "us-central1-c"
          "data-img-17" "data-img-17"
          (doCreate worldPollFails jobImg17
            (doCreate worldPollFails jobImg17 op0).2).2).state.calls).length = 1) ∧
      ¬ ((claimCreatesOf (createDisk worldPollFails 5 jobImg17 true "img-17" "us-central1-c"
          "data-img-17" "data-img-17"
          (doCreate worldPollFails jobImg17
            (doCreate worldPollFails jobImg17 op0).2).2).state.calls).length = 1) ∧
      ¬ ((volumeCreatesOf (createDisk worldPollFails 5 jobImg17 true "img-17" "us-central1-c"
          "data-img-17" "data-img-17"
          (doCreate worldPollFails jobImg17
            (doCreate worldPollFails jobImg17 op0).2).2).state.calls).length = 1)) := by
  decide

/-- C4 as amended: for a job with both annotations, the second of two `doCreate`
calls, made while the mark is set after the first, issues no call, starts no task
and leaves the registry unchanged, so the two calls start at most one `createDisk`
task, and exactly one when the first call set the mark. A `createDisk` run issues
at most one disk creation, one claim creation and one volume creation. It issues
no disk creation when the disk already exists, and exactly one when the disk is
absent and the request is an empty-disk request or the lookup succeeds. It
creates exactly one claim/volume pair when one of its disk queries is answered
with a READY disk and the claim creation succeeds (the claim alone when the claim
creation fails), and neither claim nor volume when none of its disk queries is
answered with a READY disk. -/
theorem doCreate_twice (w : World) (job : Job) (op : operator) (snapshotName pdZone : String)
    (hann : getAnnotations job = .ok (snapshotName, pdZone)) :
    (isProcessing snapshotName (doCreate w job op).2 = true →
      (doCreate w job (doCreate w job op).2).2.calls = (doCreate w job op).2.calls ∧
      (doCreate w job (doCreate w job op).2).2.tasks = (doCreate w job op).2.tasks ∧
      (doCreate w job (doCreate w job op).2).2.snapshotsLocks
        = (doCreate w job op).2.snapshotsLocks ∧
      (newTasks op (doCreate w job (doCreate w job op).2).2).length ≤ 1) ∧
    (∀ (fuel : Nat) (diskExists : Bool) (pvcName pdName : String) (op1 : operator),
      (insertsOf (newCalls op1
        (createDisk w fuel job diskExists snapshotName pdZone pvcName pdName op1).state)).length
        ≤ 1 ∧
      (claimCreatesOf (newCalls op1
        (createDisk w fuel job diskExists snapshotName pdZone pvcName pdName op1).state)).length
        ≤ 1 ∧
      (volumeCreatesOf (newCalls op1
        (createDisk w fuel job diskExists snapshotName pdZone pvcName pdName op1).state)).length
        ≤ 1) ∧
    (isProcessing snapshotName op = false →
      ∀ e : GcpError,
        w.disksGet op.calls.length op.gcpProject pdZone (diskNamesFromJob job snapshotName).2
          = .error e →
        isNotFound (some e) = true →
        newTasks op (doCreate w job (doCreate w job op).2).2 =
          [.createDisk job false snapshotName pdZone (diskNamesFromJob job snapshotName).1
            (diskNamesFromJob job snapshotName).2] ∧
        ((strings.HasSuffix snapshotName emptyDirSnapshotSuffix = true ∨
            ∃ snapshot, w.snapshotsGet (doCreate w job (doCreate w job op).2).2.calls.length
              (doCreate w job (doCreate w job op).2).2.gcpProject snapshotName = .ok snapshot) →
          ∀ fuel : Nat,
            (insertsOf (newCalls (doCreate w job (doCreate w job op).2).2
              (createDisk w fuel job false snapshotName pdZone
                (diskNamesFromJob job snapshotName).1 (diskNamesFromJob job snapshotName).2
                (doCreate w job (doCreate w job op).2).2).state)).length = 1)) ∧
    (isProcessing snapshotName op = false →
      ∀ disk : Disk,
        w.disksGet op.calls.length op.gcpProject pdZone (diskNamesFromJob job snapshotName).2
          = .ok disk →
        newTasks op (doCreate w job (doCreate w job op).2).2 =
          [.createDisk job true snapshotName pdZone (diskNamesFromJob job snapshotName).1
            (diskNamesFromJob job snapshotName).2] ∧
        ∀ (fuel : Nat) (op1 : operator),
          insertsOf (newCalls op1
            (createDisk w fuel job true snapshotName pdZone
              (diskNamesFromJob job snapshotName).1 (diskNamesFromJob job snapshotName).2
              op1).state) = []) ∧
    (∀ (fuel : Nat) (pvcName pdName : String) (op1 : operator),
      (insertsOf (newCalls op1
        (createDisk w fuel job true snapshotName pdZone pvcName pdName op1).state) = []) ∧
      ((strings.HasSuffix snapshotName emptyDirSnapshotSuffix = true ∨
          ∃ snapshot, w.snapshotsGet op1.calls.length op1.gcpProject snapshotName
            = .ok snapshot) →
        (insertsOf (newCalls op1
          (createDisk w fuel job false snapshotName pdZone pvcName pdName op1).state)).length
          = 1)) ∧
    (∀ (fuel : Nat) (diskExists : Bool) (pvcName pdName : String) (op1 : operator)
        (idx : Nat) (disk : Disk),
      op1.calls.length ≤ idx →
      pollAt w
        (createDisk w fuel job diskExists snapshotName pdZone pvcName pdName op1).state.calls idx
        = some (.ok disk) →
      disk.Status = "READY" →
      claimCreatesOf (newCalls op1
        (createDisk w fuel job diskExists snapshotName pdZone pvcName pdName op1).state) =
        [.PVCCreate job.Namespace (newClaim job pvcName (sprintfGi disk.SizeGb))] ∧
      (w.pvcCreate (idx + 1) job.Namespace (newClaim job pvcName (sprintfGi disk.SizeGb))
          = .ok () →
        volumeCreatesOf (newCalls op1
          (createDisk w fuel job diskExists snapshotName pdZone pvcName pdName op1).state) =
          [.PVCreate (newVolume pvcName pdName (sprintfGi disk.SizeGb))]) ∧
      (∀ e, w.pvcCreate (idx + 1) job.Namespace (newClaim job pvcName (sprintfGi disk.SizeGb))
          = .error e →
        volumeCreatesOf (newCalls op1
          (createDisk w fuel job diskExists snapshotName pdZone pvcName pdName op1).state)
          = [])) ∧
    (∀ (fuel : Nat) (diskExists : Bool) (pvcName pdName : String) (op1 : operator),
      (∀ (idx : Nat) (disk : Disk), op1.calls.length ≤ idx →
        pollAt w
          (createDisk w fuel job diskExists snapshotName pdZone pvcName pdName op1).state.calls
          idx = some (.ok disk) → disk.Status ≠ "READY") →
      claimCreatesOf (newCalls op1
        (createDisk w fuel job diskExists snapshotName pdZone pvcName pdName op1).state) = [] ∧
      volumeCreatesOf (newCalls op1
        (createDisk w fuel job diskExists snapshotName pdZone pvcName pdName op1).state) = []) := by
  refine ⟨?_, ?_, ?_, ?_, ?_, ?_, ?_⟩
  · intro hm
    rw [doCreate_marked w job (doCreate w job op).2 _ _ hann hm]
    refine ⟨rfl, rfl, rfl, ?_⟩
    unfold newTasks
    simp only [enter_tasks]
    rcases doCreate_tasks w job op _ _ hann with h | ⟨d, h⟩ <;> rw [h] <;> simp
  · intro fuel diskExists pvcName pdName op1
    obtain ⟨h1, _, h3, h4, _⟩ :=
      createDisk_counts w fuel job diskExists snapshotName pdZone pvcName pdName op1
    exact ⟨h1, h3, h4⟩
  · intro hm e hq he
    have h1 := doCreate_missing w job op _ _ e hann hm hq he
    have hm1 : isProcessing snapshotName (doCreate w job op).2 = true := by
      rw [h1]; simp
    have h2 := doCreate_marked w job (doCreate w job op).2 _ _ hann hm1
    constructor
    · rw [h2, h1]; simp [newTasks]
    · intro hs fuel
      exact createDisk_one_insert w fuel job snapshotName pdZone _ _ _ hs
  · intro hm disk hq
    have h1 := doCreate_found w job op _ _ disk hann hm hq
    have hm1 : isProcessing snapshotName (doCreate w job op).2 = true := by
      rw [h1]; simp
    have h2 := doCreate_marked w job (doCreate w job op).2 _ _ hann hm1
    constructor
    · rw [h2, h1]; simp [newTasks]
    · intro fuel op1
      exact ((createDisk_counts w fuel job true snapshotName pdZone _ _ op1).2.2.2.2 rfl).1
  · intro fuel pvcName pdName op1
    exact ⟨((createDisk_counts w fuel job true snapshotName pdZone _ _ op1).2.2.2.2 rfl).1,
      fun hs => createDisk_one_insert w fuel job snapshotName pdZone _ _ op1 hs⟩
  · intro fuel diskExists pvcName pdName op1 idx disk hidx hpoll hready
    obtain ⟨front, hsplit, hfront⟩ := createDisk_ready_split w fuel job diskExists snapshotName
      pdZone pvcName pdName op1 idx disk hidx hpoll hready
    have hf1 := filter_none Call.isPVCCreate front (fun i hi => (hfront i hi).1)
    have hf2 := filter_none Call.isPVCreate front (fun i hi => (hfront i hi).2)
    rw [hsplit]
    unfold claimCreatesOf volumeCreatesOf
    simp only [List.map_append, List.filter_append, hf1, hf2, List.nil_append]
    refine ⟨?_, ?_, ?_⟩
    · unfold bindTrace
      split <;> simp [Call.isPVCCreate]
    · intro hok
      unfold bindTrace
      rw [hok]
      simp [Call.isPVCreate]
    · intro e he
      unfold bindTrace
      rw [he]
      simp [Call.isPVCreate]
  · intro fuel diskExists pvcName pdName op1 hno
    exact createDisk_no_ready w fuel job diskExists snapshotName pdZone pvcName pdName op1 hno

/-- C4 as amended, at the scenario job on a fresh operator. -/
theorem doCreate_twice_witness :
    getAnnotations jobImg17 = .ok ("img-17", "us-central1-c") ∧
    isProcessing "img-17" (doCreate worldOk jobImg17 op0).2 = true ∧
      (doCreate worldOk jobImg17 (doCreate worldOk jobImg17 op0).2).2.calls =
        (doCreate worldOk jobImg17 op0).2.calls ∧
      (doCreate worldOk jobImg17 (doCreate worldOk jobImg17 op0).2).2.tasks =
        (doCreate worldOk jobImg17 op0).2.tasks ∧
      (doCreate worldOk jobImg17 (doCreate worldOk jobImg17 op0).2).2.snapshotsLocks =
        (doCreate worldOk jobImg17 op0).2.snapshotsLocks ∧
      (newTasks op0 (doCreate worldOk jobImg17 (doCreate worldOk jobImg17 op0).2).2).length ≤ 1 :=
  ⟨rfl, by decide,
    (doCreate_twice worldOk jobImg17 op0 "img-17" "us-central1-c" rfl).1 (by decide)⟩

end SnapshotOperator

namespace Snapshotter

open SnapshotOperator

/-! ## C16 and C17: `FindSnapshot` -/

/-- `strings.HasPrefix` is the prefix relation on the characters. -/
theorem HasPrefix_iff (s pfx : String) :
    strings.HasPrefix s pfx = true ↔ pfx.data <+: s.data := by
  unfold strings.HasPrefix
  exact List.isPrefixOf_iff_prefix

/-- `Matches` is the prefix test on the name. -/
theorem Matches_eq (snap : gcloud.Snapshot) (ns : String) :
    snap.Matches ns = strings.HasPrefix snap.Name ns := by
  unfold gcloud.Snapshot.Matches
  cases strings.HasPrefix snap.Name ns <;> rfl

/-- Merge sort meets the guarantee of `sort.Slice` for `createdAfter`. -/
theorem mergeSortSlice_sorts : gcloud.SortsByCreated gcloud.mergeSortSlice := by
  intro l
  refine ⟨List.mergeSort_perm l _, ?_⟩
  have h : (l.mergeSort fun a b : gcloud.Snapshot => !gcloud.createdAfter b a).Pairwise
      fun a b => (!gcloud.createdAfter b a) = true :=
    List.sorted_mergeSort
      (by
        intro a b c hab hbc
        simp only [gcloud.createdAfter, Bool.not_eq_true', decide_eq_false_iff_not, gt_iff_lt,
          not_lt] at hab hbc ⊢
        omega)
      (by
        intro a b
        simp only [gcloud.createdAfter, Bool.or_eq_true, Bool.not_eq_true',
          decide_eq_false_iff_not, gt_iff_lt, not_lt]
        omega) l
  unfold gcloud.mergeSortSlice
  refine List.Pairwise.imp ?_ h
  intro a b hab
  simpa using hab

/-- The first loop of `FindSnapshot` is `List.find?`. -/
theorem findNamed_eq_find (snapshotName : String) (l : List gcloud.Snapshot) :
    gcloud.findNamed snapshotName l = l.find? fun s => decide (s.Name = snapshotName) := by
  induction l with
  | nil => rfl
  | cons s rest ih =>
    unfold gcloud.findNamed
    rw [List.find?_cons]
    by_cases h : s.Name = snapshotName
    · simp [h]
    · simp [h, ih]

/-- C16: for a non-empty list and a `sort.Slice` that sorts by creation time,
`FindSnapshot(snapshots, "latest", namespace)` returns, when some snapshot of the
list has a name starting with `namespace`, such a snapshot of the list whose
creation time is not earlier than that of any snapshot of the list whose name
starts with `namespace`; and it returns an error exactly when no snapshot of the
list has a name starting with `namespace`. -/
theorem FindSnapshot_latest
    (sortSlice : (gcloud.Snapshot → gcloud.Snapshot → Bool) → List gcloud.Snapshot →
      List gcloud.Snapshot)
    (hsort : gcloud.SortsByCreated sortSlice)
    (snapshots : List gcloud.Snapshot) (ns : String) (hne : snapshots ≠ []) :
    ((∃ s ∈ snapshots, strings.HasPrefix s.Name ns = true) →
      ∃ r, gcloud.FindSnapshot sortSlice snapshots "latest" ns = .ok r ∧ r ∈ snapshots ∧
        strings.HasPrefix r.Name ns = true ∧
        ∀ s ∈ snapshots, strings.HasPrefix s.Name ns = true → s.Created ≤ r.Created) ∧
    ((∃ e, gcloud.FindSnapshot sortSlice snapshots "latest" ns = .error e) ↔
      ∀ s ∈ snapshots, strings.HasPrefix s.Name ns = false) := by
  have hlen : ¬ snapshots.length = 0 := by
    intro h; exact hne (List.length_eq_zero.mp h)
  have hmemf : ∀ s, s ∈ snapshots.filter (fun snap => snap.Matches ns) ↔
      s ∈ snapshots ∧ strings.HasPrefix s.Name ns = true := by
    intro s; rw [List.mem_filter, Matches_eq]
  obtain ⟨hperm, hpair⟩ := hsort (snapshots.filter fun snap => snap.Matches ns)
  have hstep : gcloud.FindSnapshot sortSlice snapshots "latest" ns =
      if (snapshots.filter fun snap => snap.Matches ns).length = 0 then
        .error (.notInNamespace ns snapshots.length)
      else
        match sortSlice gcloud.createdAfter (snapshots.filter fun snap => snap.Matches ns) with
        | first :: _ => .ok first
        | [] => .error .indexOutOfRange := by
    unfold gcloud.FindSnapshot
    simp [hlen]
  -- when some snapshot matches, the sorted slice has a head
  have hfound : (∃ s ∈ snapshots, strings.HasPrefix s.Name ns = true) →
      ∃ first rest, sortSlice gcloud.createdAfter
        (snapshots.filter fun snap => snap.Matches ns) = first :: rest ∧
        ¬ (snapshots.filter fun snap => snap.Matches ns).length = 0 := by
    rintro ⟨s, hs, hp⟩
    have hsf : s ∈ snapshots.filter fun snap => snap.Matches ns := (hmemf s).mpr ⟨hs, hp⟩
    have hss := hperm.mem_iff.mpr hsf
    cases hsorted : sortSlice gcloud.createdAfter
        (snapshots.filter fun snap => snap.Matches ns) with
    | nil => rw [hsorted] at hss; cases hss
    | cons first rest =>
      refine ⟨first, rest, rfl, ?_⟩
      intro h0
      rw [List.length_eq_zero.mp h0] at hsf
      cases hsf
  constructor
  · intro hex
    obtain ⟨first, rest, hsorted, hnz⟩ := hfound hex
    have hfirst : first ∈ snapshots.filter fun snap => snap.Matches ns :=
      hperm.mem_iff.mp (by rw [hsorted]; exact List.mem_cons_self _ _)
    refine ⟨first, ?_, ((hmemf first).mp hfirst).1, ((hmemf first).mp hfirst).2, ?_⟩
    · rw [hstep, if_neg hnz, hsorted]
    · intro s hs hp
      have hss := hperm.mem_iff.mpr ((hmemf s).mpr ⟨hs, hp⟩)
      rw [hsorted] at hss hpair
      rcases List.mem_cons.mp hss with h | h
      · rw [h]
      · have := List.rel_of_pairwise_cons hpair h
        simpa [gcloud.createdAfter] using this
  · constructor
    · rintro ⟨e, he⟩ s hs
      cases hp : strings.HasPrefix s.Name ns with
      | false => rfl
      | true =>
        obtain ⟨first, rest, hsorted, hnz⟩ := hfound ⟨s, hs, hp⟩
        rw [hstep, if_neg hnz, hsorted] at he
        cases he
    · intro hall
      have hnil : snapshots.filter (fun snap => snap.Matches ns) = [] := by
        rw [List.filter_eq_nil_iff]
        intro s hs
        rw [Matches_eq, hall s hs]
        simp
      exact ⟨_, by rw [hstep, hnil]; rfl⟩

/-- C16 at a concrete list: the latest of the two `eth-mainnet` snapshots. -/
theorem FindSnapshot_latest_witness :
    ∃ r, gcloud.FindSnapshot gcloud.mergeSortSlice gcloud.snapshots3 "latest" "eth-mainnet"
        = .ok r ∧ r ∈ gcloud.snapshots3 ∧
      strings.HasPrefix r.Name "eth-mainnet" = true ∧
      ∀ s ∈ gcloud.snapshots3, strings.HasPrefix s.Name "eth-mainnet" = true →
        s.Created ≤ r.Created :=
  (FindSnapshot_latest gcloud.mergeSortSlice mergeSortSlice_sorts gcloud.snapshots3
    "eth-mainnet" (by decide)).1 ⟨⟨10, "eth-mainnet-v2-0013642743", "100"⟩, by decide, by decide⟩

/-- C17: for a `snapshotName` other than `latest`, `FindSnapshot` does not depend
on the namespace argument (nor on the sort), returns the first snapshot of the
list whose name equals `snapshotName`, and returns an error exactly when the list
is empty or holds no snapshot of that name; on the empty list it returns an error
for every `snapshotName`, `latest` included. -/
theorem FindSnapshot_named
    (sortSlice : (gcloud.Snapshot → gcloud.Snapshot → Bool) → List gcloud.Snapshot →
      List gcloud.Snapshot)
    (snapshots : List gcloud.Snapshot) (snapshotName ns : String) :
    (snapshotName ≠ "latest" →
      (∀ (sortSlice2 : (gcloud.Snapshot → gcloud.Snapshot → Bool) → List gcloud.Snapshot →
          List gcloud.Snapshot) (ns2 : String),
        gcloud.FindSnapshot sortSlice2 snapshots snapshotName ns2 =
          gcloud.FindSnapshot sortSlice snapshots snapshotName ns) ∧
      (∀ r, gcloud.FindSnapshot sortSlice snapshots snapshotName ns = .ok r ↔
        r.Name = snapshotName ∧ ∃ before rest, snapshots = before ++ r :: rest ∧
          ∀ s ∈ before, s.Name ≠ snapshotName) ∧
      ((∃ e, gcloud.FindSnapshot sortSlice snapshots snapshotName ns = .error e) ↔
        (snapshots = [] ∨ ∀ s ∈ snapshots, s.Name ≠ snapshotName))) ∧
    (∀ name : String, ∃ e, gcloud.FindSnapshot sortSlice [] name ns = .error e) := by
  constructor
  · intro hname
    have hstep : ∀ (srt : (gcloud.Snapshot → gcloud.Snapshot → Bool) → List gcloud.Snapshot →
          List gcloud.Snapshot) (n : String),
        gcloud.FindSnapshot srt snapshots snapshotName n =
          if snapshots.length = 0 then .error .noSnapshots
          else match snapshots.find? fun s => decide (s.Name = snapshotName) with
            | some snap => .ok snap
            | none => .error (.notNamed snapshotName snapshots.length) := by
      intro srt n
      unfold gcloud.FindSnapshot
      simp only [hname, ne_eq, not_false_eq_true, if_true, findNamed_eq_find]
    refine ⟨fun s2 n2 => by rw [hstep, hstep], ?_, ?_⟩
    · intro r
      rw [hstep]
      by_cases hlen : snapshots.length = 0
      · have hnil := List.length_eq_zero.mp hlen
        subst hnil
        simp
      · rw [if_neg hlen]
        cases hf : snapshots.find? fun s => decide (s.Name = snapshotName) with
        | none =>
          simp only [reduceCtorEq, false_iff, not_and, not_exists]
          intro hr before rest hsplit _
          rw [List.find?_eq_none] at hf
          exact hf r (by rw [hsplit]; simp) (by simpa using hr)
        | some snap =>
          simp only [Except.ok.injEq]
          constructor
          · intro h
            subst h
            obtain ⟨hp, before, rest, hsplit, hbefore⟩ := List.find?_eq_some.mp hf
            exact ⟨by simpa using hp, before, rest, hsplit, fun s hs => by
              simpa using hbefore s hs⟩
          · rintro ⟨hr, before, rest, hsplit, hbefore⟩
            have : snapshots.find? (fun s => decide (s.Name = snapshotName)) = some r :=
              List.find?_eq_some.mpr ⟨by simpa using hr, before, rest, hsplit,
                fun s hs => by simpa using hbefore s hs⟩
            rw [hf] at this
            exact Option.some.inj this
    · rw [hstep]
      by_cases hlen : snapshots.length = 0
      · have hnil := List.length_eq_zero.mp hlen
        subst hnil
        simp
      · rw [if_neg hlen]
        have hne : snapshots ≠ [] := fun h => hlen (by rw [h]; rfl)
        cases hf : snapshots.find? fun s => decide (s.Name = snapshotName) with
        | none =>
          rw [List.find?_eq_none] at hf
          simp only [Except.error.injEq, exists_eq', true_iff]
          exact Or.inr (fun s hs => by simpa using hf s hs)
        | some snap =>
          obtain ⟨hp, before, rest, hsplit, _⟩ := List.find?_eq_some.mp hf
          simp only [reduceCtorEq, exists_false, false_iff, not_or]
          refine ⟨hne, fun hall => ?_⟩
          exact hall snap (by rw [hsplit]; simp) (by simpa using hp)
  · intro name
    exact ⟨_, rfl⟩

/-! ## C19: the resolution check of `createVolumesFromList` -/

/-- C19, the code at the failing input: two snapshots of the listing end with
the first suffix and none with the second; two snapshots are selected for two
suffixes, the check on the counts passes and `createVolumes` is called, although
the second suffix is resolved by no selected snapshot. -/
theorem createVolumesFromList_counts_only :
    cmd.createVolumesFromList none (.ok cmd.sameBlockSnapshots) cmd.cfgEth
      ["0013642743", "0099999999"] = .createVolumes cmd.sameBlockSnapshots ∧
    ¬ cmd.FullyResolved ["0013642743", "0099999999"] cmd.sameBlockSnapshots := by
  decide

/-! ## C20: `kubectl.Find` -/

/-- The loop of `Find` is `List.find?`. -/
theorem Find_eq_find (pvs : List kubectl.PersistentVolume) (ns appName : String)
    (mountName : Option String) :
    kubectl.Find pvs ns appName mountName =
      match pvs.find? fun pv => pv.MatchesApp ns appName mountName with
      | some pv => .ok pv
      | none => .error "not found" := by
  induction pvs with
  | nil => rfl
  | cons pv rest ih =>
    unfold kubectl.Find
    rw [List.find?_cons]
    cases h : pv.MatchesApp ns appName mountName with
    | true => simp
    | false => simp [ih]

/-- C20: `Find` returns the first volume of the list for which `MatchesApp`
holds, and an error exactly when it holds for no volume of the list; `MatchesApp`
holds exactly when the claim reference has the given namespace, its name ends
with `"-" + appName` and, when `mountName` is given, starts with `mountName`. -/
theorem Find_first_match (pvs : List kubectl.PersistentVolume) (ns appName : String)
    (mountName : Option String) :
    (∀ pv, kubectl.Find pvs ns appName mountName = .ok pv ↔
      pv.MatchesApp ns appName mountName = true ∧
      ∃ before rest, pvs = before ++ pv :: rest ∧
        ∀ p ∈ before, p.MatchesApp ns appName mountName = false) ∧
    ((∃ e, kubectl.Find pvs ns appName mountName = .error e) ↔
      ∀ p ∈ pvs, p.MatchesApp ns appName mountName = false) ∧
    (∀ pv : kubectl.PersistentVolume, pv.MatchesApp ns appName mountName = true ↔
      pv.Spec.ClaimRef.Namespace = ns ∧
      ("-" ++ appName).data <:+ pv.Spec.ClaimRef.Name.data ∧
      ∀ m, mountName = some m → m.data <+: pv.Spec.ClaimRef.Name.data) := by
  refine ⟨?_, ?_, ?_⟩
  · intro pv
    rw [Find_eq_find]
    cases hf : pvs.find? fun pv => pv.MatchesApp ns appName mountName with
    | none =>
      simp only [reduceCtorEq, false_iff, not_and, not_exists]
      intro hm before rest hsplit _
      rw [List.find?_eq_none] at hf
      exact hf pv (by rw [hsplit]; simp) hm
    | some found =>
      simp only [Except.ok.injEq]
      constructor
      · intro h
        subst h
        obtain ⟨hp, before, rest, hsplit, hbefore⟩ := List.find?_eq_some.mp hf
        exact ⟨hp, before, rest, hsplit, fun p hp2 => by simpa using hbefore p hp2⟩
      · rintro ⟨hm, before, rest, hsplit, hbefore⟩
        have : pvs.find? (fun pv => pv.MatchesApp ns appName mountName) = some pv :=
          List.find?_eq_some.mpr ⟨hm, before, rest, hsplit,
            fun p hp2 => by simpa using hbefore p hp2⟩
        rw [hf] at this
        exact Option.some.inj this
  · rw [Find_eq_find]
    cases hf : pvs.find? fun pv => pv.MatchesApp ns appName mountName with
    | none =>
      rw [List.find?_eq_none] at hf
      simp only [Except.error.injEq, exists_eq', true_iff]
      exact fun p hp => by simpa using hf p hp
    | some found =>
      obtain ⟨hp, before, rest, hsplit, _⟩ := List.find?_eq_some.mp hf
      simp only [reduceCtorEq, exists_false, false_iff]
      intro hall
      have := hall found (by rw [hsplit]; simp)
      rw [hp] at this
      cases this
  · intro pv
    unfold kubectl.PersistentVolume.MatchesApp
    simp only
    generalize ("-" ++ appName) = suf
    have hsuf : SnapshotOperator.strings.HasSuffix pv.Spec.ClaimRef.Name suf = true
        ↔ suf.data <:+ pv.Spec.ClaimRef.Name.data := by
      unfold SnapshotOperator.strings.HasSuffix
      exact List.isSuffixOf_iff_suffix
    by_cases h1 : pv.Spec.ClaimRef.Namespace = ns
    · by_cases h2 : SnapshotOperator.strings.HasSuffix pv.Spec.ClaimRef.Name suf = true
      · cases mountName with
        | none => simp [h1, h2, hsuf.mp h2]
        | some m =>
          by_cases h3 : strings.HasPrefix pv.Spec.ClaimRef.Name m = true
          · simp [h1, h2, h3, hsuf.mp h2, (HasPrefix_iff _ _).mp h3]
          · have h3n : ¬ m.data <+: pv.Spec.ClaimRef.Name.data :=
              fun h => h3 ((HasPrefix_iff _ _).mpr h)
            simp [h1, h2, h3, hsuf.mp h2, h3n]
      · have h2n : ¬ suf.data <:+ pv.Spec.ClaimRef.Name.data :=
          fun h => h2 (hsuf.mpr h)
        simp [h1, h2, h2n]
    · simp [h1]

/-! ## C21: `GenerateName` -/

/-- The digit loop of `Nat.toDigits`, with enough fuel, yields `decDigits`. -/
theorem toDigitsCore_eq (fuel : Nat) :
    ∀ (n : Nat) (ds : List Char), n < fuel →
      Nat.toDigitsCore 10 fuel n ds = decDigits n ++ ds := by
  induction fuel with
  | zero => intro n ds h; exact absurd h (Nat.not_lt_zero n)
  | succ f ih =>
    intro n ds h
    unfold Nat.toDigitsCore
    simp only
    by_cases h0 : n / 10 = 0
    · rw [if_pos h0]
      have hlt : n < 10 := by omega
      rw [decDigits, if_pos hlt, Nat.mod_eq_of_lt hlt]
      rfl
    · rw [if_neg h0]
      have hge : ¬ n < 10 := by omega
      rw [ih (n / 10) _ (by omega)]
      conv_rhs => rw [decDigits, if_neg hge]
      simp

/-- The digits `Nat.toDigits` prints are `decDigits`. -/
theorem toDigits_eq (n : Nat) : Nat.toDigits 10 n = decDigits n := by
  unfold Nat.toDigits
  rw [toDigitsCore_eq (n + 1) n [] (Nat.lt_succ_self n)]
  simp

theorem positional_length (k : Nat) : ∀ n, (positional k n).length = k := by
  induction k with
  | zero => intro n; rfl
  | succ k ih => intro n; simp [positional, ih]

/-- Padding the digits of `n < 10 ^ k` with zeros up to `k` digits gives the `k`
positional digits. -/
theorem pad_positional (k : Nat) :
    ∀ n, n < 10 ^ (k + 1) → (decDigits n).length ≤ k + 1 ∧
      List.replicate (k + 1 - (decDigits n).length) '0' ++ decDigits n
        = positional (k + 1) n := by
  induction k with
  | zero =>
    intro n hn
    have hlt : n < 10 := by simpa using hn
    rw [decDigits, if_pos hlt]
    simp [positional, Nat.mod_eq_of_lt hlt]
  | succ k ih =>
    intro n hn
    by_cases hlt : n < 10
    · have hz := (ih 0 (by positivity)).2
      have hd0 : decDigits 0 = ['0'] := by rw [decDigits]; rfl
      rw [hd0] at hz
      simp only [List.length_singleton, Nat.add_sub_cancel] at hz
      rw [decDigits, if_pos hlt]
      have hdiv : n / 10 = 0 := by omega
      simp only [List.length_singleton, positional, hdiv, Nat.mod_eq_of_lt hlt]
      refine ⟨by omega, ?_⟩
      have hk : k + 1 + 1 - 1 = k + 1 := by omega
      rw [hk]
      have hpos : positional k (0 / 10) ++ [Nat.digitChar (0 % 10)] = positional (k + 1) 0 :=
        rfl
      rw [hpos, ← hz, List.replicate_succ']
    · have hdiv : n / 10 < 10 ^ (k + 1) := by
        rw [pow_succ] at hn
        omega
      obtain ⟨hlen, hpad⟩ := ih (n / 10) hdiv
      rw [decDigits, if_neg hlt]
      simp only [List.length_append, List.length_singleton]
      refine ⟨by omega, ?_⟩
      have hk : k + 1 + 1 - ((decDigits (n / 10)).length + 1)
          = k + 1 - (decDigits (n / 10)).length := by omega
      rw [hk, ← List.append_assoc, hpad]
      conv_rhs => rw [positional]

/-- For a number of at most 10 digits the format is the fixed-width form. -/
theorem sprintfD10_eq (n : Nat) (hn : n < 10 ^ 10) : sprintfD10 n = decimal10 n := by
  unfold sprintfD10 decimal10
  simp only [toDigits_eq]
  rw [(pad_positional 9 n hn).2]

/-- The order of strings is the lexicographic order of their characters. -/
theorem string_lt_iff (s t : String) : s < t ↔ List.Lex (· < ·) s.data t.data := by
  rw [String.lt_iff_toList_lt]
  exact Iff.rfl

theorem lex_cons_cons (c d : Char) (l1 l2 : List Char) :
    List.Lex (· < ·) (c :: l1) (d :: l2) ↔ c < d ∨ (c = d ∧ List.Lex (· < ·) l1 l2) := by
  constructor
  · intro h
    cases h with
    | cons h => exact Or.inr ⟨rfl, h⟩
    | rel h => exact Or.inl h
  · rintro (h | ⟨rfl, h⟩)
    · exact List.Lex.rel h
    · exact List.Lex.cons h

/-- A common beginning does not change the order. -/
theorem lex_append_left_iff (p a b : List Char) :
    List.Lex (· < ·) (p ++ a) (p ++ b) ↔ List.Lex (· < ·) a b := by
  induction p with
  | nil => rfl
  | cons c p ih =>
    rw [List.cons_append, List.cons_append, lex_cons_cons, ih]
    constructor
    · rintro (h | ⟨_, h⟩)
      · exact absurd h (lt_irrefl c)
      · exact h
    · intro h; exact Or.inr ⟨rfl, h⟩

theorem lex_irrefl (l : List Char) : ¬ List.Lex (· < ·) l l := by
  intro h
  have h2 : List.Lex (· < ·) (l ++ []) (l ++ ([] : List Char)) := by simpa using h
  rw [lex_append_left_iff] at h2
  cases h2

/-- Lists of equal length with one more element each: the last element decides
only when the lists are equal. -/
theorem lex_snoc (x y : Char) :
    ∀ a b : List Char, a.length = b.length →
      (List.Lex (· < ·) (a ++ [x]) (b ++ [y]) ↔
        List.Lex (· < ·) a b ∨ (a = b ∧ x < y)) := by
  intro a
  induction a with
  | nil =>
    intro b hb
    have hbn : b = [] := List.length_eq_zero.mp hb.symm
    subst hbn
    simp [List.Lex.singleton_iff]
  | cons c a ih =>
    intro b hb
    cases b with
    | nil => simp at hb
    | cons d b =>
      have hlen : a.length = b.length := by simpa using hb
      rw [List.cons_append, List.cons_append, lex_cons_cons, lex_cons_cons, ih b hlen]
      constructor
      · rintro (h | ⟨hcd, h | ⟨hab, hxy⟩⟩)
        · exact Or.inl (Or.inl h)
        · exact Or.inl (Or.inr ⟨hcd, h⟩)
        · exact Or.inr ⟨by rw [hcd, hab], hxy⟩
      · rintro ((h | ⟨hcd, h⟩) | ⟨heq, hxy⟩)
        · exact Or.inl h
        · exact Or.inr ⟨hcd, Or.inl h⟩
        · have h1 := List.cons.inj heq
          exact Or.inr ⟨h1.1, Or.inr ⟨h1.2, hxy⟩⟩

/-- Digit characters are ordered like the digits. -/
theorem digitChar_lt (x y : Nat) (hx : x < 10) (hy : y < 10) :
    Nat.digitChar x < Nat.digitChar y ↔ x < y := by
  interval_cases x <;> interval_cases y <;> decide

/-- Fixed-width decimal forms are ordered like the numbers. -/
theorem positional_lex (k : Nat) :
    ∀ a b : Nat, a < 10 ^ k → b < 10 ^ k →
      (List.Lex (· < ·) (positional k a) (positional k b) ↔ a < b) := by
  induction k with
  | zero =>
    intro a b ha hb
    have ha0 : a = 0 := by simpa using ha
    have hb0 : b = 0 := by simpa using hb
    subst ha0 hb0
    simp [positional]
  | succ k ih =>
    intro a b ha hb
    have ha2 : a / 10 < 10 ^ k := by rw [pow_succ] at ha; omega
    have hb2 : b / 10 < 10 ^ k := by rw [pow_succ] at hb; omega
    have hinj : positional k (a / 10) = positional k (b / 10) ↔ a / 10 = b / 10 := by
      constructor
      · intro heq
        have h1 : ¬ a / 10 < b / 10 := by
          rw [← ih _ _ ha2 hb2, heq]; exact lex_irrefl _
        have h2 : ¬ b / 10 < a / 10 := by
          rw [← ih _ _ hb2 ha2, heq]; exact lex_irrefl _
        omega
      · intro heq; rw [heq]
    simp only [positional]
    rw [lex_snoc _ _ _ _ (by rw [positional_length, positional_length]), ih _ _ ha2 hb2, hinj,
      digitChar_lt _ _ (Nat.mod_lt _ (by decide)) (Nat.mod_lt _ (by decide))]
    omega

/-- C21: for a block number `n` below `2 ^ 32`, `GenerateName` returns
`namespace + "-" + appNameVer + "-"` followed by the decimal form of `n`
left-padded with zeros to exactly 10 digits (13642743 gives `0013642743`); and
for fixed namespace and `appNameVer`, `n < n2` holds exactly when the name for
`n` is lexicographically smaller than the name for `n2`. -/
theorem GenerateName_padded (ns appNameVer : String) (n : Nat) (hn : n < 2 ^ 32) :
    GenerateName ns appNameVer n = ns ++ "-" ++ appNameVer ++ "-" ++ decimal10 n ∧
    (decimal10 n).length = 10 ∧
    GenerateName "eth-mainnet" "v2" 13642743 = "eth-mainnet-v2-0013642743" ∧
    (∀ n2 : Nat, n2 < 2 ^ 32 →
      (n < n2 ↔ GenerateName ns appNameVer n < GenerateName ns appNameVer n2)) := by
  have hbound : ∀ m : Nat, m < 2 ^ 32 → m < 10 ^ 10 := by
    intro m hm
    have : (2 : Nat) ^ 32 < 10 ^ 10 := by norm_num
    omega
  have hname : ∀ m : Nat, m < 2 ^ 32 →
      GenerateName ns appNameVer m = ns ++ "-" ++ appNameVer ++ "-" ++ decimal10 m := by
    intro m hm
    unfold GenerateName
    rw [sprintfD10_eq m (hbound m hm)]
  refine ⟨hname n hn, ?_, by decide, ?_⟩
  · show (positional 10 n).length = 10
    exact positional_length 10 n
  · intro n2 hn2
    rw [hname n hn, hname n2 hn2, string_lt_iff]
    simp only [String.data_append, decimal10]
    rw [lex_append_left_iff, positional_lex 10 n n2 (hbound n hn) (hbound n2 hn2)]

/-- C21 at the block number of the example. -/
theorem GenerateName_padded_witness :
    GenerateName "eth-mainnet" "v2" 13642743 =
      "eth-mainnet" ++ "-" ++ "v2" ++ "-" ++ decimal10 13642743 ∧
    (decimal10 13642743).length = 10 :=
  ⟨(GenerateName_padded "eth-mainnet" "v2" 13642743 (by norm_num)).1,
    (GenerateName_padded "eth-mainnet" "v2" 13642743 (by norm_num)).2.1⟩

/-! ## C22: the disk name read by `getPersistentDisk` -/

/-- The end of `getPersistentDisk` for a volume that passes the source check and
has a zone and a region label: a disk definition when the `GCEPersistentDisk`
source is there, and the nil dereference when only the CSI source is. -/
theorem pdDefOfVolume_sources (mypv : PersistentVolume) (pvName zone region : String)
    (hz : labelLookup mypv.Labels "failure-domain.beta.kubernetes.io/zone" = some zone)
    (hr : labelLookup mypv.Labels "failure-domain.beta.kubernetes.io/region" = some region) :
    (∀ disk, mypv.Spec.GCEPersistentDisk = some disk →
      pdDefOfVolume mypv pvName = .ok { name := disk.PDName, zone := zone, region := region }) ∧
    (mypv.Spec.GCEPersistentDisk = none → mypv.Spec.CSI ≠ none →
      pdDefOfVolume mypv pvName = .nilDereference) := by
  constructor
  · intro disk hd
    unfold pdDefOfVolume
    simp [hd, hz, hr]
  · intro hd hc
    unfold pdDefOfVolume
    simp [hd, hc, hz, hr]

/-- C22, the code at the failing input: the volume has no `GCEPersistentDisk`
source but a CSI source, so it passes the source check, and it carries a zone
and a region label; `getPersistentDisk` then reads `GCEPersistentDisk.PDName`
through the nil pointer instead of returning a disk definition. -/
theorem getPersistentDisk_csi_nil_dereference :
    csiVolume.Spec.GCEPersistentDisk = none ∧ csiVolume.Spec.CSI ≠ none ∧
    labelLookup csiVolume.Labels "topology.kubernetes.io/zone" = some "us-central1-c" ∧
    labelLookup csiVolume.Labels "topology.kubernetes.io/region" = some "us-central1" ∧
    getPersistentDisk csiCluster "mindreader-0" "eth" "datadir" = .nilDereference := by
  decide

end Snapshotter
